import Mathlib

/-!
# Local storage driver of the host agent (`pkg/hostman/storageman/storage_local.go`)

A shallow embedding of the disk cache (`GetDiskById`, `CreateDisk`), of the
destination side of a migration (`DestinationPrepareMigrate`, `doRebaseDisk`,
`CreateSnapshotFormUrl`), of the capacity computation (`GetAvailSizeMb`), of the
accessibility check (`Accessible`) and of the export to the image registry
(`SaveToGlance`, `saveToGlance`, `onSaveToGlanceFailed`); and, from
`pkg/multicloud/tag_base.go`, of `AliyunTags.GetTags` and `AliyunTags.GetSysTags`.

Collaborators that live outside the file (the disk implementation, the remote
file fetcher, `qemuimg`, `procutils`) are represented by the calls made to them:
every call is recorded in a trace, and its outcome is read from a `World`.
-/

set_option autoImplicit false

namespace Storageman

/-! ## Go standard library: `path.Clean` and `path.Join` -/

/-- Splits at every slash, keeping empty pieces (`strings.Split(p, "/")` on characters). -/
def splitSlash : List Char → List (List Char)
  | [] => [[]]
  | c :: cs =>
    if c = '/' then [] :: splitSlash cs
    else
      match splitSlash cs with
      | [] => [[c]]
      | h :: t => (c :: h) :: t

/-- One step of the element loop of `path.Clean`: `out` holds the elements written so far,
last element first. Empty elements and `.` are skipped; `..` removes the last real element,
is kept in front of an unrooted path, and is dropped at the root. -/
def cleanStep (rooted : Bool) (out : List (List Char)) (elem : List Char) : List (List Char) :=
  if elem = [] then out
  else if elem = ['.'] then out
  else if elem = ['.', '.'] then
    match out with
    | [] => if rooted then [] else [elem]
    | top :: rest => if top = ['.', '.'] then elem :: out else rest
  else elem :: out

/-- Joins path elements with single slashes. -/
def joinSlash : List (List Char) → List Char
  | [] => []
  | [e] => e
  | e :: es => e ++ '/' :: joinSlash es

/-- Characters of `path.Clean(p)`. -/
def cleanChars (p : List Char) : List Char :=
  if p = [] then ['.']
  else
    let rooted := p.head? = some '/'
    let body := joinSlash ((splitSlash p).foldl (cleanStep rooted) []).reverse
    if rooted then '/' :: body
    else if body = [] then ['.'] else body

/-- Go `path.Clean`. -/
def pathClean (p : String) : String :=
  String.mk (cleanChars p.toList)

/-- Go `path.Join`: empty elements are ignored, the rest is joined by slashes and cleaned;
the result is empty exactly when every element is empty. -/
def pathJoin (elem : List String) : String :=
  let parts := elem.filter (fun e => e ≠ "")
  if parts = [] then "" else pathClean ("/".intercalate parts)

/-! ## Errors and JSON values -/

/-- Go `error` values: the sentinels `cloudprovider.ErrNotFound`, `ErrStorageTimeout` and
`hostutils.ParamsError`, a plain error (`fmt.Errorf`, or whatever a collaborator returned)
and `errors.Wrap`. -/
inductive GoError where
  | ErrNotFound
  | msg (text : String)
  | wrap (cause : GoError) (text : String)
  | ErrStorageTimeout
  | ParamsError
  deriving DecidableEq, Repr

/-- The first error of a chain of `errors.Wrap` calls. -/
def GoError.cause : GoError → GoError
  | GoError.wrap c _ => c.cause
  | e => e

/-- Values of `jsonutils.JSONObject`, reduced to the kinds a migration descriptor holds. -/
inductive JSONObject where
  | JSONNull
  | JSONString (data : String)
  | JSONInt (data : Int)
  | JSONArray (data : List JSONObject)
  | JSONDict (data : List (String × JSONObject))

/-- Looks a key up: `Get(key)`; only a dictionary has keys. -/
def JSONObject.Get (o : JSONObject) (key : String) : Option JSONObject :=
  match o with
  | JSONObject.JSONDict kvs => (kvs.find? (fun kv => kv.1 = key)).map (fun kv => kv.2)
  | _ => none

/-- The string held by a value: `GetString()` with the error discarded, as the callers do.
Ids are string values; for a value of another kind the model yields the empty string. -/
def JSONObject.asString : JSONObject → String
  | JSONObject.JSONString s => s
  | _ => ""

/-- Reads a string field: `GetString(key)` with the error discarded. -/
def JSONObject.GetString (o : JSONObject) (key : String) : String :=
  match o.Get key with
  | some v => v.asString
  | none => ""

/-- Reads an array field: `GetArray(key)` with the error discarded. -/
def JSONObject.GetArray (o : JSONObject) (key : String) : List JSONObject :=
  match o.Get key with
  | some (JSONObject.JSONArray xs) => xs
  | _ => []

/-- Reads an integer field: `Int(key)` with the error discarded. -/
def JSONObject.Int (o : JSONObject) (key : String) : Int :=
  match o.Get key with
  | some (JSONObject.JSONInt n) => n
  | _ => 0

/-- Writes a field of a dictionary: `(*JSONDict).Set(key, value)`. An existing entry for the
key is replaced. A value that is not a dictionary has no `*JSONDict` behind it and is
returned as it is. -/
def JSONObject.Set (o : JSONObject) (key : String) (value : JSONObject) : JSONObject :=
  match o with
  | JSONObject.JSONDict kvs =>
    JSONObject.JSONDict (kvs.filter (fun kv => kv.1 ≠ key) ++ [(key, value)])
  | other => other

/-- Whether the type assertion `diskinfo.(*jsonutils.JSONDict)` succeeds. -/
def JSONObject.isDict : JSONObject → Bool
  | JSONObject.JSONDict _ => true
  | _ => false

/-! ## Disks, the pool and its collaborators -/

/-- Host-wide settings read by the driver: `options.HostOptions.SnapshotDirSuffix` and
`storageManager.LocalStorageImagecacheManager.GetPath()`. -/
structure HostConfig where
  SnapshotDirSuffix : String
  ImagecachePath : String
  deriving DecidableEq, Repr

/-- A handle made by `NewLocalDisk(s, diskId)`. `addr` stands for the identity of the
allocated object, `StoragePath` for the pool the handle points back to. -/
structure SLocalDisk where
  addr : Nat
  Id : String
  StoragePath : String
  deriving DecidableEq, Repr

/-- Modelled from the spec: the constant `_SNAPSHOT_PATH_` (declared outside this file);
the persisted layout names the directory `snapshots`. -/
def _SNAPSHOT_PATH_ : String := "snapshots"

/-- Modelled from the spec: `SLocalDisk.GetPath` (declared outside this file); disk image
files sit at the top level of the pool root. -/
def SLocalDisk.GetPath (d : SLocalDisk) : String :=
  pathJoin [d.StoragePath, d.Id]

/-- Modelled from the spec: `SLocalDisk.GetSnapshotDir` (declared outside this file); the
layout is `snapshots/<disk-id><suffix>`, the directory part of `GetSnapshotPathByIds`. -/
def SLocalDisk.GetSnapshotDir (cfg : HostConfig) (d : SLocalDisk) : String :=
  pathJoin [pathJoin [d.StoragePath, _SNAPSHOT_PATH_], d.Id ++ cfg.SnapshotDirSuffix]

/-- The pool: its root path and the disk cache `Disks`. `nextAddr` is the identity the
next allocated handle receives. -/
structure SLocalStorage where
  Path : String
  Disks : List SLocalDisk
  nextAddr : Nat
  deriving DecidableEq, Repr

/-- `SLocalStorage.GetSnapshotDir`. -/
def SLocalStorage.GetSnapshotDir (s : SLocalStorage) : String :=
  pathJoin [s.Path, _SNAPSHOT_PATH_]

/-- `SLocalStorage.GetSnapshotPathByIds`. -/
def SLocalStorage.GetSnapshotPathByIds (cfg : HostConfig) (s : SLocalStorage)
    (diskId snapshotId : String) : String :=
  pathJoin [s.GetSnapshotDir, diskId ++ cfg.SnapshotDirSuffix, snapshotId]

/-- A call to a collaborator. -/
inductive Op where
  /-- `disk.Probe()` -/
  | probe (disk : SLocalDisk)
  /-- `procutils.NewCommand("mkdir", "-p", dir).Output()` -/
  | mkdir (dir : String)
  /-- `remotefile.NewRemoteFile(ctx, url, path, false, "", -1, nil, "", "").Fetch()` -/
  | fetch (url path : String)
  /-- `qemuimg.NewQemuImage(path)` -/
  | openImage (path : String)
  /-- `img.Rebase(newBase, true)` on the image opened at `path` -/
  | rebase (path newBase : String)
  /-- `disk.CreateRaw(ctx, sizeMb, format, fsFormat, encryption, encryptInfo, backingFile)` -/
  | createRaw (disk : SLocalDisk) (sizeMb : Int) (format fsFormat : String)
      (encryption : Bool) (encryptInfo backingFile : String)
  /-- `disk.CreateFromUrl(ctx, url, size)` -/
  | createFromUrl (disk : SLocalDisk) (url : String) (size : Int)
  deriving DecidableEq, Repr

/-- The surroundings of one call of the driver: `fails n op` is the error with which the
`n`-th collaborator call of the run fails when that call is `op` (`none`: it succeeds; for
`fetch`, which reports a boolean, only the presence of an error matters); `Exists` is
`fileutils2.Exists` when the run starts; `mkdirOutput` is what a failing `mkdir` printed. -/
structure World where
  fails : Nat → Op → Option GoError
  Exists : String → Bool
  mkdirOutput : String

/-- Makes the next collaborator call: the call is appended to the trace and its outcome is
read from the world. -/
def World.call (w : World) (tr : List Op) (op : Op) : List Op × Option GoError :=
  (tr ++ [op], w.fails tr.length op)

/-- `NewLocalDisk(s, diskId)`. -/
def NewLocalDisk (s : SLocalStorage) (diskId : String) : SLocalDisk :=
  { addr := s.nextAddr, Id := diskId, StoragePath := s.Path }

/-- What `GetDiskById` hands back: the handle (`none` is Go `nil`), the error, the pool
afterwards and the collaborator calls made. -/
structure GetDiskResult where
  disk : Option SLocalDisk
  err : Option GoError
  storage : SLocalStorage
  trace : List Op

/-- `SLocalStorage.GetDiskById`. -/
def SLocalStorage.GetDiskById (s : SLocalStorage) (w : World) (diskId : String) :
    GetDiskResult :=
  match s.Disks.find? (fun d => d.Id = diskId) with
  | some d =>
    let r := w.call [] (Op.probe d)
    { disk := some d, err := r.2, storage := s, trace := r.1 }
  | none =>
    let disk := NewLocalDisk s diskId
    let s1 := { s with nextAddr := s.nextAddr + 1 }
    let r := w.call [] (Op.probe disk)
    if r.2 = none then
      { disk := some disk, err := none,
        storage := { s1 with Disks := s1.Disks ++ [disk] }, trace := r.1 }
    else
      { disk := none, err := some GoError.ErrNotFound, storage := s1, trace := r.1 }

/-- `SLocalStorage.CreateDisk`: the handle and the pool afterwards. -/
def SLocalStorage.CreateDisk (s : SLocalStorage) (diskId : String) :
    SLocalDisk × SLocalStorage :=
  let disk := NewLocalDisk s diskId
  (disk, { s with Disks := s.Disks ++ [disk], nextAddr := s.nextAddr + 1 })

/-! ## Destination side of a migration -/

/-- `SLocalStorage.CreateSnapshotFormUrl`: one fetch; a failed fetch becomes an error that
names the URL. -/
def CreateSnapshotFormUrl (w : World) (tr : List Op) (snapshotUrl snapshotPath : String) :
    List Op × Option GoError :=
  let r := w.call tr (Op.fetch snapshotUrl snapshotPath)
  if r.2 = none then (r.1, none)
  else (r.1, some (GoError.msg ("Fail to fetch snapshot from " ++ snapshotUrl)))

/-- `doRebaseDisk`: opens the image at `diskPath` and rebases it onto `newBasePath`. -/
def doRebaseDisk (w : World) (tr : List Op) (diskPath newBasePath : String) :
    List Op × Option GoError :=
  let r := w.call tr (Op.openImage diskPath)
  match r.2 with
  | some err => (r.1, some (GoError.wrap err "failed open disk as qemu image"))
  | none =>
    let r2 := w.call r.1 (Op.rebase diskPath newBasePath)
    match r2.2 with
    | some err => (r2.1, some (GoError.wrap err "failed rebase disk backing file"))
    | none => (r2.1, none)

/-- The values `DestinationPrepareMigrate` reads before and during its loop. Below, Go
`len(x) > 0` on a string is written `x.length > 0`: either says the string is not empty. -/
structure MigrateEnv where
  cfg : HostConfig
  disk : SLocalDisk
  diskId : String
  templateId : String
  diskStorageId : String
  snapshotsUri : String
  rebaseDisks : Bool

/-- `snapshotUrl` of the loop body: `fmt.Sprintf("%s/%s/%s/%s", ...)`. -/
def MigrateEnv.snapshotUrl (e : MigrateEnv) (snapId : String) : String :=
  e.snapshotsUri ++ "/" ++ e.diskStorageId ++ "/" ++ e.diskId ++ "/" ++ snapId

/-- `snapshotPath` of the loop body. -/
def MigrateEnv.snapshotPath (e : MigrateEnv) (snapId : String) : String :=
  pathJoin [e.disk.GetSnapshotDir e.cfg, snapId]

/-- `templatePath`: the template's file in the image cache. -/
def MigrateEnv.templatePath (e : MigrateEnv) : String :=
  pathJoin [e.cfg.ImagecachePath, e.templateId]

/-- The loop `for i, snapshotId := range snapshots` of `DestinationPrepareMigrate`, entered
at index `i` with the current `baseImagePath`. On success it yields the last
`baseImagePath`. -/
def replaySnapshots (w : World) (e : MigrateEnv) :
    List JSONObject → Nat → String → List Op → List Op × Except GoError String
  | [], _, baseImagePath, tr => (tr, Except.ok baseImagePath)
  | snapshotId :: rest, i, baseImagePath, tr =>
    let snapId := snapshotId.asString
    let snapshotUrl := e.snapshotUrl snapId
    let snapshotPath := e.snapshotPath snapId
    match CreateSnapshotFormUrl w tr snapshotUrl snapshotPath with
    | (tr1, some err) =>
      (tr1, Except.error (GoError.wrap err "create from snapshot url failed"))
    | (tr1, none) =>
      if i = 0 ∧ e.templateId.length > 0 then
        match doRebaseDisk w tr1 snapshotPath e.templatePath with
        | (tr2, some err) => (tr2, Except.error err)
        | (tr2, none) => replaySnapshots w e rest (i + 1) snapshotPath tr2
      else if e.rebaseDisks = true ∧ baseImagePath.length > 0 then
        match doRebaseDisk w tr1 snapshotPath baseImagePath with
        | (tr2, some err) => (tr2, Except.error err)
        | (tr2, none) => replaySnapshots w e rest (i + 1) snapshotPath tr2
      else replaySnapshots w e rest (i + 1) snapshotPath tr1

/-- The step "prepare disk snapshot dir" of `DestinationPrepareMigrate`. -/
def prepareSnapshotDir (w : World) (e : MigrateEnv) (snapshots : List JSONObject)
    (tr : List Op) : List Op × Option GoError :=
  if snapshots.length > 0 ∧ w.Exists (e.disk.GetSnapshotDir e.cfg) = false then
    let r := w.call tr (Op.mkdir (e.disk.GetSnapshotDir e.cfg))
    match r.2 with
    | some err =>
      (r.1, some (GoError.wrap err
        ("mkdir " ++ e.disk.GetSnapshotDir e.cfg ++ " failed: " ++ w.mkdirOutput)))
    | none => (r.1, none)
  else (tr, none)

/-- The step `if liveMigrate { CreateRaw } else { CreateFromUrl }`. -/
def materializeDisk (w : World) (e : MigrateEnv) (liveMigrate : Bool) (disksUri : String)
    (disksBackingFile diskinfo : JSONObject) (tr : List Op) : List Op × Option GoError :=
  if liveMigrate = true then
    let backingFile := disksBackingFile.GetString e.diskId
    let size := diskinfo.Int "size"
    w.call tr (Op.createRaw e.disk size "qcow2" "" false "" backingFile)
  else
    let diskUrl := disksUri ++ "/" ++ e.diskStorageId ++ "/" ++ e.diskId
    w.call tr (Op.createFromUrl e.disk diskUrl 0)

/-- The last rebase of `DestinationPrepareMigrate`. -/
def finalRebase (w : World) (e : MigrateEnv) (baseImagePath : String) (tr : List Op) :
    List Op × Option GoError :=
  if e.rebaseDisks = true ∧ e.templateId.length > 0 ∧ baseImagePath.length = 0 then
    doRebaseDisk w tr e.disk.GetPath e.templatePath
  else if e.rebaseDisks = true ∧ baseImagePath.length > 0 then
    doRebaseDisk w tr e.disk.GetPath baseImagePath
  else (tr, none)

/-- What a run of `DestinationPrepareMigrate` leaves: the returned error, the collaborator
calls made (the last one is the failing one when there is an error), the descriptor and
the pool afterwards. `panicked` records that the final `diskDesc.Set` was reached with a
descriptor that is not a dictionary (a nil `*JSONDict`). -/
structure MigrateResult where
  err : Option GoError
  trace : List Op
  diskinfo : JSONObject
  storage : SLocalStorage
  panicked : Bool

/-- The values read at the start of `DestinationPrepareMigrate`, with the handle made by
`s.CreateDisk(diskId)`. -/
def migrateEnv (cfg : HostConfig) (s : SLocalStorage) (snapshotsUri : String)
    (rebaseDisks : Bool) (diskinfo : JSONObject) : MigrateEnv :=
  { cfg := cfg
    disk := (s.CreateDisk (diskinfo.GetString "disk_id")).1
    diskId := diskinfo.GetString "disk_id"
    templateId := diskinfo.GetString "template_id"
    diskStorageId := diskinfo.GetString "storage_id"
    snapshotsUri := snapshotsUri
    rebaseDisks := rebaseDisks }

/-- `SLocalStorage.DestinationPrepareMigrate`. The branch `disk == nil` is absent:
`CreateDisk` always returns a handle. -/
def SLocalStorage.DestinationPrepareMigrate (s : SLocalStorage) (cfg : HostConfig)
    (w : World) (liveMigrate : Bool) (disksUri snapshotsUri : String)
    (disksBackingFile srcSnapshots : JSONObject) (rebaseDisks : Bool)
    (diskinfo : JSONObject) : MigrateResult :=
  let e := migrateEnv cfg s snapshotsUri rebaseDisks diskinfo
  let snapshots := srcSnapshots.GetArray e.diskId
  let s1 := (s.CreateDisk e.diskId).2
  match prepareSnapshotDir w e snapshots [] with
  | (tr, some err) =>
    { err := some err, trace := tr, diskinfo := diskinfo, storage := s1, panicked := false }
  | (tr, none) =>
    match replaySnapshots w e snapshots 0 "" tr with
    | (tr, Except.error err) =>
      { err := some err, trace := tr, diskinfo := diskinfo, storage := s1, panicked := false }
    | (tr, Except.ok baseImagePath) =>
      match materializeDisk w e liveMigrate disksUri disksBackingFile diskinfo tr with
      | (tr, some err) =>
        { err := some err, trace := tr, diskinfo := diskinfo, storage := s1,
          panicked := false }
      | (tr, none) =>
        match finalRebase w e baseImagePath tr with
        | (tr, some err) =>
          { err := some err, trace := tr, diskinfo := diskinfo, storage := s1,
            panicked := false }
        | (tr, none) =>
          { err := none, trace := tr
            diskinfo := diskinfo.Set "path" (JSONObject.JSONString e.disk.GetPath)
            storage := s1, panicked := !diskinfo.isDict }

/-! ## Straight-line view of a run

The migration makes its collaborator calls one after the other and stops at the first
failure. `runCalls` executes such a list of planned calls; the lemmas below show that the
functions above are `runCalls` of an explicit plan. -/

/-- A planned call together with the way its error is turned into the returned error. -/
abbrev Step := Op × (GoError → GoError)

/-- Makes the planned calls in order and stops at the first one that fails. -/
def runCalls (w : World) : List Step → List Op → List Op × Option GoError
  | [], tr => (tr, none)
  | st :: rest, tr =>
    match w.fails tr.length st.1 with
    | some err => (tr ++ [st.1], some (st.2 err))
    | none => runCalls w rest (tr ++ [st.1])

/-- The calls of a plan. -/
def planOps (plan : List Step) : List Op := plan.map (fun st => st.1)

/-- Plan of `doRebaseDisk`. -/
def rebasePlan (diskPath newBasePath : String) : List Step :=
  [(Op.openImage diskPath, fun err => GoError.wrap err "failed open disk as qemu image"),
   (Op.rebase diskPath newBasePath,
    fun err => GoError.wrap err "failed rebase disk backing file")]

/-- Plan of one fetch inside the loop. -/
def fetchStep (e : MigrateEnv) (snapId : String) : Step :=
  (Op.fetch (e.snapshotUrl snapId) (e.snapshotPath snapId),
   fun _ => GoError.wrap (GoError.msg ("Fail to fetch snapshot from " ++ e.snapshotUrl snapId))
     "create from snapshot url failed")

/-- Plan of the loop, entered at index `i` with the current `baseImagePath`. -/
def replayPlan (e : MigrateEnv) : List String → Nat → String → List Step
  | [], _, _ => []
  | snapId :: rest, i, baseImagePath =>
    fetchStep e snapId ::
      ((if i = 0 ∧ e.templateId.length > 0 then
          rebasePlan (e.snapshotPath snapId) e.templatePath
        else if e.rebaseDisks = true ∧ baseImagePath.length > 0 then
          rebasePlan (e.snapshotPath snapId) baseImagePath
        else []) ++ replayPlan e rest (i + 1) (e.snapshotPath snapId))

/-- The `baseImagePath` after the loop: the path of the last snapshot, if there is one. -/
def replayBase (e : MigrateEnv) : List String → String → String
  | [], baseImagePath => baseImagePath
  | snapId :: rest, _ => replayBase e rest (e.snapshotPath snapId)

/-- Plan of `prepareSnapshotDir`. -/
def prepareDirPlan (w : World) (e : MigrateEnv) (snapshots : List JSONObject) : List Step :=
  if snapshots.length > 0 ∧ w.Exists (e.disk.GetSnapshotDir e.cfg) = false then
    [(Op.mkdir (e.disk.GetSnapshotDir e.cfg), fun err => GoError.wrap err
      ("mkdir " ++ e.disk.GetSnapshotDir e.cfg ++ " failed: " ++ w.mkdirOutput))]
  else []

/-- The one call that materializes the disk. -/
def materializeOp (e : MigrateEnv) (liveMigrate : Bool) (disksUri : String)
    (disksBackingFile diskinfo : JSONObject) : Op :=
  if liveMigrate = true then
    Op.createRaw e.disk (diskinfo.Int "size") "qcow2" "" false ""
      (disksBackingFile.GetString e.diskId)
  else
    Op.createFromUrl e.disk (disksUri ++ "/" ++ e.diskStorageId ++ "/" ++ e.diskId) 0

/-- Plan of `finalRebase`. -/
def finalRebasePlan (e : MigrateEnv) (baseImagePath : String) : List Step :=
  if e.rebaseDisks = true ∧ e.templateId.length > 0 ∧ baseImagePath.length = 0 then
    rebasePlan e.disk.GetPath e.templatePath
  else if e.rebaseDisks = true ∧ baseImagePath.length > 0 then
    rebasePlan e.disk.GetPath baseImagePath
  else []

/-- Plan of a whole run of `DestinationPrepareMigrate`. -/
def migratePlan (w : World) (e : MigrateEnv) (liveMigrate : Bool) (disksUri : String)
    (disksBackingFile diskinfo : JSONObject) (snapshots : List JSONObject) : List Step :=
  prepareDirPlan w e snapshots ++
    (replayPlan e (snapshots.map JSONObject.asString) 0 "" ++
      ((materializeOp e liveMigrate disksUri disksBackingFile diskinfo, id) ::
        finalRebasePlan e (replayBase e (snapshots.map JSONObject.asString) "")))

/-- The same surroundings with every collaborator call succeeding. -/
def World.allSucceed (w : World) : World :=
  { w with fails := fun _ _ => none }

/-! ## Backing pointers -/

/-- The backing pointers after a sequence of completed calls: every `rebase` repoints the
rebased file, in order; other calls are left out of the account. -/
def backingAfter (b : String → Option String) : List Op → String → Option String
  | [] => b
  | Op.rebase p newBase :: rest =>
    backingAfter (fun q => if q = p then some newBase else b q) rest
  | _ :: rest => backingAfter b rest

/-- The files met when following backing pointers from `p`, at most `fuel` steps. -/
def walkBacking (b : String → Option String) : Nat → String → List String
  | 0, _ => []
  | fuel + 1, p =>
    match b p with
    | none => []
    | some q => q :: walkBacking b fuel q

/-- The rebases among a list of calls, as pairs (file, new backing file). -/
def rebasesOf : List Op → List (String × String)
  | [] => []
  | Op.rebase p newBase :: rest => (p, newBase) :: rebasesOf rest
  | _ :: rest => rebasesOf rest

/-- The calls of a run that completed: all of them, or all but the failing last one. -/
def MigrateResult.completed (r : MigrateResult) : List Op :=
  if r.err = none then r.trace else r.trace.dropLast

/-! ## Definitions used to state the properties -/

/-- Turns the outcome of the loop's plan into the outcome of the loop. -/
def liftReplay (base : String) : List Op × Option GoError → List Op × Except GoError String
  | (tr, none) => (tr, Except.ok base)
  | (tr, some err) => (tr, Except.error err)

/-- The error `DestinationPrepareMigrate` returns when the collaborator call `op` fails
with `err`: the wrapping applied at the call site. -/
def stepError (w : World) : Op → GoError → GoError
  | Op.mkdir dir, err => GoError.wrap err ("mkdir " ++ dir ++ " failed: " ++ w.mkdirOutput)
  | Op.fetch url _, _ =>
    GoError.wrap (GoError.msg ("Fail to fetch snapshot from " ++ url))
      "create from snapshot url failed"
  | Op.openImage _, err => GoError.wrap err "failed open disk as qemu image"
  | Op.rebase _ _, err => GoError.wrap err "failed rebase disk backing file"
  | _, err => err

/-- The two collaborator calls of one `doRebaseDisk(path, newBase)`. -/
def rebaseOps (path newBase : String) : List Op :=
  [Op.openImage path, Op.rebase path newBase]

/-- The calls for the snapshot at position `j` (counted from 0) of the id list `ids`: one
fetch into the snapshot directory, then a rebase onto the template for the first snapshot
when a template id is given, else a rebase onto the previous snapshot's path when
`rebaseDisks` holds and there is a previous snapshot, else nothing. -/
def replayStepOps (e : MigrateEnv) (ids : List String) (j : Nat) : List Op :=
  Op.fetch (e.snapshotUrl (ids.getD j "")) (e.snapshotPath (ids.getD j "")) ::
    (if j = 0 ∧ e.templateId ≠ "" then
       rebaseOps (e.snapshotPath (ids.getD j "")) e.templatePath
     else if e.rebaseDisks = true ∧ j > 0 then
       rebaseOps (e.snapshotPath (ids.getD j "")) (e.snapshotPath (ids.getD (j - 1) ""))
     else [])

/-- The calls of the whole replay: the calls for positions `0, 1, ..., n - 1` in order. -/
def replayOps (e : MigrateEnv) (ids : List String) : List Op :=
  (List.range ids.length).flatMap (replayStepOps e ids)

/-- Repoints the files of a list of rebases, in order. -/
def applyRebases (b : String → Option String) :
    List (String × String) → String → Option String
  | [] => b
  | pq :: rest => applyRebases (fun x => if x = pq.1 then some pq.2 else b x) rest

/-- The rebases that build a chain on top of `prev`: every file of the list is rebased onto
the file before it, the first one onto `prev`. -/
def chainRebases (prev : String) : List String → List (String × String)
  | [] => []
  | p :: ps => (p, prev) :: chainRebases p ps

/-- A pool rooted at `/data/pool0` with an empty cache. -/
def examplePool : SLocalStorage :=
  { Path := "/data/pool0", Disks := [], nextAddr := 0 }

/-- Host settings: the default suffix and an image cache directory. -/
def exampleConfig : HostConfig :=
  { SnapshotDirSuffix := "_snap", ImagecachePath := "/opt/cloud/image_cache" }

/-- Surroundings in which every collaborator call succeeds and nothing exists yet. -/
def quietWorld : World :=
  { fails := fun _ _ => none, Exists := fun _ => false, mkdirOutput := "" }

/-- The descriptor of disk `d1` with template `tmpl-a`. -/
def exampleDescriptor : JSONObject :=
  JSONObject.JSONDict
    [("disk_id", JSONObject.JSONString "d1"), ("template_id", JSONObject.JSONString "tmpl-a"),
     ("storage_id", JSONObject.JSONString "st1"), ("size", JSONObject.JSONInt 10)]

/-- The source snapshots of `d1`: the given ids, in order. -/
def exampleSnapshots (ids : List String) : JSONObject :=
  JSONObject.JSONDict [("d1", JSONObject.JSONArray (ids.map JSONObject.JSONString))]

/-- The position, among the collaborator calls of a run with a template, of the fetch of
the second snapshot: after the `mkdir` (when it is made) and the fetch, open and rebase of
the first snapshot. -/
def secondFetchIndex (w : World) (e : MigrateEnv) (snapshots : List JSONObject) : Nat :=
  (prepareDirPlan w e snapshots).length + 3

/-- Surroundings in which nothing exists yet and exactly the `k`-th collaborator call
fails, with `err`. -/
def failAt (k : Nat) (err : GoError) : World :=
  { fails := fun n _ => if n = k then some err else none
    Exists := fun _ => false, mkdirOutput := "" }

/-- Whether a call is `disk.CreateRaw`. -/
def Op.isCreateRaw : Op → Bool
  | Op.createRaw _ _ _ _ _ _ _ => true
  | _ => false

/-- Whether a call is `disk.CreateFromUrl`. -/
def Op.isCreateFromUrl : Op → Bool
  | Op.createFromUrl _ _ _ => true
  | _ => false

/-- Whether a call creates the disk file, one way or the other. -/
def Op.isMaterialize (op : Op) : Bool :=
  op.isCreateRaw || op.isCreateFromUrl

/-- The final rebase as C5 states it: onto the template when `rebaseDisks` holds, no
snapshot was replayed and a template id is given; otherwise onto the last replayed
snapshot when at least one snapshot was replayed; otherwise none. -/
def finalRebaseAsStated (e : MigrateEnv) (ids : List String) : List Op :=
  if e.rebaseDisks = true ∧ ids.length = 0 ∧ e.templateId ≠ "" then
    rebaseOps e.disk.GetPath e.templatePath
  else if ids.length > 0 then
    rebaseOps e.disk.GetPath (e.snapshotPath (ids.getD (ids.length - 1) ""))
  else []

/-- The final rebase of the code: the rebase onto the last replayed snapshot is made only
when `rebaseDisks` holds. -/
def finalRebaseOps (e : MigrateEnv) (ids : List String) : List Op :=
  if e.rebaseDisks = true ∧ ids.length = 0 ∧ e.templateId ≠ "" then
    rebaseOps e.disk.GetPath e.templatePath
  else if e.rebaseDisks = true ∧ ids.length > 0 then
    rebaseOps e.disk.GetPath (e.snapshotPath (ids.getD (ids.length - 1) ""))
  else []

/-- A pool whose cache holds a handle for `d1`. -/
def cachedPool : SLocalStorage :=
  { Path := "/data/pool0"
    Disks := [{ addr := 0, Id := "d1", StoragePath := "/data/pool0" }]
    nextAddr := 1 }

/-- The invariant of the allocation counter: every cached handle was allocated earlier. -/
def SLocalStorage.allocated (s : SLocalStorage) : Bool :=
  s.Disks.all (fun d => decide (d.addr < s.nextAddr))

/-! ## Capacity of the pool -/

/-- The floating-point operations `GetAvailSizeMb` uses, over a carrier `F` of `float64`
values: the conversion `float64(n)`, the constant `1.0`, subtraction, multiplication,
`math.Max` and the conversion `int(x)`, which truncates toward zero. -/
structure FloatArith (F : Type) where
  ofInt : Int → F
  one : F
  sub : F → F → F
  mul : F → F → F
  max : F → F → F
  toInt : F → Int

/-- Rounds a rational to the nearest integer, a tie to the even neighbour. -/
def roundHalfEven (y : ℚ) : Int :=
  if y - ⌊y⌋ < 1 / 2 then ⌊y⌋
  else if 1 / 2 < y - ⌊y⌋ then ⌊y⌋ + 1
  else if ⌊y⌋ % 2 = 0 then ⌊y⌋ else ⌊y⌋ + 1

/-- The spacing of the `float64` values around `x`: `2 ^ (e - 52)` for
`2 ^ e ≤ |x| < 2 ^ (e + 1)`, a significand of 53 bits. -/
def ulp64 (x : ℚ) : ℚ :=
  (2 : ℚ) ^ (Int.log 2 |x| - 52)

/-- The `float64` value an exact result is rounded to: the nearest multiple of the spacing,
a tie to the one with the even significand (IEEE 754 round-to-nearest-even, the rounding of
every `float64` operation of Go). The exponent is not bounded: the values `GetAvailSizeMb`
computes, products of an `int` and a factor made of `float32` percentages, are `0` or lie
far inside the range of normal `float64` numbers. -/
def round64 (x : ℚ) : ℚ :=
  if x = 0 then 0 else (roundHalfEven (x / ulp64 x) : ℚ) * ulp64 x

/-- The conversion `int(x)` of a `float64` to the 64-bit `int`: the fraction is dropped
(truncation toward zero). For a value outside the range of `int` Go leaves the result to
the implementation; this is the result on amd64, the smallest `int`. -/
def truncInt64 (x : ℚ) : Int :=
  if 0 ≤ x then (if ⌊x⌋ < 2 ^ 63 then ⌊x⌋ else -2 ^ 63)
  else (if -2 ^ 63 ≤ ⌈x⌉ then ⌈x⌉ else -2 ^ 63)

/-- The `float64` arithmetic of Go, a finite `float64` value being the rational it denotes:
`float64(n)` rounds the integer, `1 - x` and `x * y` round the exact result, `math.Max`
is the larger operand and `int(x)` is `truncInt64`. -/
def float64Arith : FloatArith ℚ :=
  { ofInt := fun n => round64 (n : ℚ)
    one := 1
    sub := fun a b => round64 (a - b)
    mul := fun a b => round64 (a * b)
    max := fun a b => if a ≤ b then b else a
    toInt := truncInt64 }

/-- What `GetAvailSizeMb` reads from `s.Manager.GetKubeletConfig()`: the hard eviction
thresholds `float64(nodeFs.Value.Percentage)` and `float64(imageFs.Value.Percentage)`, the
values of two `float32` fields, which the conversion to `float64` keeps as they are,
`HasDedicatedImageFs()`, `GetImageFsDevice()` and `GetNodeFsDevice()`. -/
structure KubeletConfig (F : Type) where
  nodeFsPercentage : F
  imageFsPercentage : F
  HasDedicatedImageFs : Bool
  ImageFsDevice : String
  NodeFsDevice : String

/-- `usablePercent` of `GetAvailSizeMb`, for the mount device `storageDev` of the pool. -/
def usablePercent {F : Type} (A : FloatArith F) (kubeletConf : KubeletConfig F)
    (storageDev : String) : F :=
  if kubeletConf.HasDedicatedImageFs = true then
    if storageDev = kubeletConf.ImageFsDevice then
      A.sub A.one kubeletConf.imageFsPercentage
    else A.one
  else
    if storageDev = kubeletConf.NodeFsDevice then
      A.sub A.one (A.max kubeletConf.nodeFsPercentage kubeletConf.imageFsPercentage)
    else A.one

/-- `SLocalStorage.GetAvailSizeMb`. `sizeMb` is `s.SBaseStorage.GetAvailSizeMb()`,
`kubeletConf` is `none` for a nil configuration, and `mountDevice` is the result of
`kubelet.GetDirectoryMountDevice(s.GetPath())`. -/
def GetAvailSizeMb {F : Type} (A : FloatArith F) (sizeMb : Int)
    (kubeletConf : Option (KubeletConfig F)) (mountDevice : Except GoError String) : Int :=
  match kubeletConf with
  | none => sizeMb
  | some conf =>
    match mountDevice with
    | Except.error _ => sizeMb
    | Except.ok storageDev => A.toInt (A.mul (A.ofInt sizeMb) (usablePercent A conf storageDev))

/-- The factor as C11 states it: `1 - imageFsPercentage` when the image filesystem is
dedicated and the pool is on its device; otherwise `1 - max(nodeFs, imageFs)` when the pool
is on the node filesystem's device; otherwise `1`. -/
def usablePercentAsStated {F : Type} (A : FloatArith F) (kubeletConf : KubeletConfig F)
    (storageDev : String) : F :=
  if kubeletConf.HasDedicatedImageFs = true ∧ storageDev = kubeletConf.ImageFsDevice then
    A.sub A.one kubeletConf.imageFsPercentage
  else if storageDev = kubeletConf.NodeFsDevice then
    A.sub A.one (A.max kubeletConf.nodeFsPercentage kubeletConf.imageFsPercentage)
  else A.one

/-- A host whose image filesystem has a device of its own; the thresholds are one half
for the node filesystem and one quarter for the image filesystem. -/
def dedicatedImageFsHost : KubeletConfig ℚ :=
  { nodeFsPercentage := 1 / 2
    imageFsPercentage := 1 / 4
    HasDedicatedImageFs := true
    ImageFsDevice := "/dev/sdb1"
    NodeFsDevice := "/dev/sda1" }

/-- A host whose node and image filesystems share the device of the pool, with the given
thresholds. -/
def sharedFsHost (nodeFs imageFs : ℚ) : KubeletConfig ℚ :=
  { nodeFsPercentage := nodeFs
    imageFsPercentage := imageFs
    HasDedicatedImageFs := false
    ImageFsDevice := "/dev/sda1"
    NodeFsDevice := "/dev/sda1" }

/-! ## Accessibility of the pool root -/

/-- What a filesystem call of the accessibility probe does: it never returns, or it
returns a value after some milliseconds. -/
inductive Answer (α : Type) where
  | hangs
  | returns (after : Nat) (value : α)

/-- The value a call returns, if it returns. -/
def Answer.value? {α : Type} : Answer α → Option α
  | Answer.hangs => none
  | Answer.returns _ v => some v

/-- The surroundings of one call of `Accessible`: the answers of `fileutils2.Exists`, of
`mkdir -p`, of `fileutils2.IsDir` and of `fileutils2.Writable` on the pool root, and
`chanFirst`, the case `select` takes when the probe's result and the timer are ready at
the same moment. -/
structure AccessWorld where
  Exists : Answer Bool
  mkdir : Answer (Option GoError)
  IsDir : Answer Bool
  Writable : Answer Bool
  chanFirst : Bool

/-- The timer of `Accessible`, `time.Second * 10`, in milliseconds. -/
def accessDeadline : Nat := 10000

/-- `fmt.Errorf("path %s isn't directory", s.Path)`. -/
def notDirectoryError (path : String) : GoError :=
  GoError.msg ("path " ++ path ++ " isn't directory")

/-- `fmt.Errorf("dir %s not writable", s.Path)`. -/
def notWritableError (path : String) : GoError :=
  GoError.msg ("dir " ++ path ++ " not writable")

/-- The part of the probe after the root exists or was created, started at time `t`: the
values it sends on the channel, in order, each with the time at which the send is reached
(later sends counted as if the earlier ones were received at once). The branches for
"not a directory" and "not writable" do not return, so they are followed by the later
sends. -/
def accessChecks (w : AccessWorld) (path : String) (t : Nat) : List (Nat × Option GoError) :=
  match w.IsDir with
  | Answer.hangs => []
  | Answer.returns d isDir =>
    (if isDir = false then [(t + d, some (notDirectoryError path))] else []) ++
      (match w.Writable with
       | Answer.hangs => []
       | Answer.returns d2 writable =>
         (if writable = false then [(t + d + d2, some (notWritableError path))] else []) ++
           [(t + d + d2, none)])

/-- The goroutine of `Accessible`: the values it sends on the channel `c`, in order. -/
def accessProbe (w : AccessWorld) (path : String) : List (Nat × Option GoError) :=
  match w.Exists with
  | Answer.hangs => []
  | Answer.returns t0 pathExists =>
    if pathExists = false then
      match w.mkdir with
      | Answer.hangs => []
      | Answer.returns t1 (some err) => [(t0 + t1, some err)]
      | Answer.returns t1 none => accessChecks w path (t0 + t1)
    else accessChecks w path t0

/-- `SLocalStorage.Accessible`: the `select` receives the first value sent on `c` when it
is ready before the timer, and otherwise yields `ErrStorageTimeout` when the timer fires.
The result is the returned error together with the time of the return. -/
def SLocalStorage.Accessible (s : SLocalStorage) (w : AccessWorld) : Option GoError × Nat :=
  match (accessProbe w s.Path).head? with
  | some (t, err) =>
    if t < accessDeadline ∨ (t = accessDeadline ∧ w.chanFirst = true) then (err, t)
    else (some GoError.ErrStorageTimeout, accessDeadline)
  | none => (some GoError.ErrStorageTimeout, accessDeadline)

/-- Whether a filesystem call of the probe hangs before anything was sent: `Exists`
hangs, or the path is absent and `mkdir` hangs, or `IsDir` hangs, or the path is a
directory and `Writable` hangs. -/
def AccessWorld.stalls (w : AccessWorld) : Bool :=
  match w.Exists with
  | Answer.hangs => true
  | Answer.returns _ pathExists =>
    let checks : Bool :=
      match w.IsDir with
      | Answer.hangs => true
      | Answer.returns _ isDir =>
        isDir && (match w.Writable with
          | Answer.hangs => true
          | Answer.returns _ _ => false)
    if pathExists = false then
      match w.mkdir with
      | Answer.hangs => true
      | Answer.returns _ (some _) => false
      | Answer.returns _ none => checks
    else checks

/-- The pool root exists, or was absent and has been created. -/
def AccessWorld.rootReady (w : AccessWorld) : Prop :=
  w.Exists.value? = some true ∨
    (w.Exists.value? = some false ∧ w.mkdir.value? = some none)

/-- Surroundings in which every call of the probe returns after `d` milliseconds with the
given answers. -/
def answering (d : Nat) (pathExists : Bool) (mkdir : Option GoError) (isDir writable : Bool) :
    AccessWorld :=
  { Exists := Answer.returns d pathExists
    mkdir := Answer.returns d mkdir
    IsDir := Answer.returns d isDir
    Writable := Answer.returns d writable
    chanFirst := true }

/-- Surroundings in which the pool root exists and `IsDir` never returns. -/
def hangingWorld : AccessWorld :=
  { Exists := Answer.returns 1 true
    mkdir := Answer.hangs
    IsDir := Answer.hangs
    Writable := Answer.hangs
    chanFirst := true }

/-! ## Export of a disk to the image registry -/

/-- The message of an error, `err.Error()`: the text of a plain error, `text: cause` for
`errors.Wrap`. The sentinels are declared outside this file; their messages are those of
their declarations: `NotFoundError` for `cloudprovider.ErrNotFound`,
`storage accessible check timeout` for `ErrStorageTimeout` and `Invalid params` for
`hostutils.ParamsError`. -/
def GoError.Error : GoError → String
  | GoError.msg text => text
  | GoError.wrap cause text => text ++ ": " ++ cause.Error
  | GoError.ErrNotFound => "NotFoundError"
  | GoError.ErrStorageTimeout => "storage accessible check timeout"
  | GoError.ParamsError => "Invalid params"

/-- `deployapi.ReleaseInfo`, as far as `saveToGlance` reads it. -/
structure ReleaseInfo where
  Distro : String
  Version : String
  Arch : String
  Language : String
  deriving DecidableEq, Repr

/-- `deployapi.SaveToGlanceResponse`; `ReleaseInfo` is `none` for a nil pointer. -/
structure SaveToGlanceResponse where
  OsInfo : String
  ReleaseInfo : Option ReleaseInfo
  deriving DecidableEq, Repr

/-- A call `SaveToGlance` makes to a collaborator. -/
inductive ExportOp where
  /-- `deployclient.GetDeployClient().SaveToGlance(ctx, {DiskPath, Compress})` -/
  | deploySaveToGlance (diskPath : String) (compress : Bool)
  /-- `qemuimg.NewQemuImage(path)` -/
  | newQemuImage (path : String)
  /-- `origin.Convert2Qcow2(compact)` on the image at `path` -/
  | convert2Qcow2 (path : String) (compact : Bool)
  /-- `origin.Convert2Vmdk(compact)` on the image at `path` -/
  | convert2Vmdk (path : String) (compact : Bool)
  /-- `os.Open(path)` -/
  | osOpen (path : String)
  /-- `f.Stat()` on the file opened at `path` -/
  | stat (path : String)
  /-- `modules.Images.Upload(session, params, f, size)` -/
  | upload (params : List (String × String)) (size : Int)
  /-- `modules.Images.PerformAction(session, imageId, "update-status", params)` -/
  | updateStatus (imageId : String) (params : List (String × String))
  /-- `procutils.NewCommand("rm", "-f", path).Run()` -/
  | rm (path : String)
  /-- `procutils.NewCommand("mv", src, dst).Run()` -/
  | mv (src dst : String)
  /-- `imagecacheManager.LoadImageCache(imageId)` -/
  | loadImageCache (imageId : String)
  /-- `hostutils.RemoteStoragecacheCacheImage(ctx, storagecacheId, imageId, status, path)` -/
  | remoteCacheImage (storagecacheId imageId status path : String)
  deriving DecidableEq, Repr

/-- The surroundings of one call of `SaveToGlance`: `fails n op` is the error of the
`n`-th collaborator call of the run when that call is `op`; `deploy` is what the deploy
client answers, `fileSize` what `Stat` reports; `DefaultImageSaveFormat` is the host
option, `ImagecacheId` and `ImagecachePath` are `LocalStorageImagecacheManager.GetId()`
and `GetPath()`. -/
structure ExportWorld where
  fails : Nat → ExportOp → Option GoError
  deploy : SaveToGlanceResponse
  fileSize : Int
  DefaultImageSaveFormat : String
  ImagecacheId : String
  ImagecachePath : String

/-- Makes the next collaborator call of an export. -/
def ExportWorld.call (w : ExportWorld) (tr : List ExportOp) (op : ExportOp) :
    List ExportOp × Option GoError :=
  (tr ++ [op], w.fails tr.length op)

/-- `(*JSONDict).Set` on a dictionary of strings: the entry for the key is replaced. -/
def setParam (params : List (String × String)) (key value : String) :
    List (String × String) :=
  params.filter (fun kv => kv.1 ≠ key) ++ [(key, value)]

/-- The value stored under a key, if any. -/
def getParam (params : List (String × String)) (key : String) : Option String :=
  (params.find? (fun kv => kv.1 = key)).map (fun kv => kv.2)

/-- The metadata `saveToGlance` builds for the upload, from the deploy client's answer. -/
def uploadParams (ret : SaveToGlanceResponse) (imageId : String) : List (String × String) :=
  let params : List (String × String) := []
  let params := if ret.OsInfo.length > 0 then setParam params "os_type" ret.OsInfo else params
  let params :=
    match ret.ReleaseInfo with
    | some relInfo =>
      let params := setParam params "os_distribution" relInfo.Distro
      let params :=
        if relInfo.Version.length > 0 then setParam params "os_version" relInfo.Version
        else params
      let params :=
        if relInfo.Arch.length > 0 then setParam params "os_arch" relInfo.Arch else params
      let params :=
        if relInfo.Version.length > 0 then setParam params "os_language" relInfo.Language
        else params
      params
    | none => params
  setParam params "image_id" imageId

/-- The steps of `saveToGlance` from `os.Open` on. -/
def openAndUpload (w : ExportWorld) (tr : List ExportOp) (imageId imagePath : String) :
    List ExportOp × Option GoError :=
  match w.call tr (ExportOp.osOpen imagePath) with
  | (tr, some err) => (tr, some err)
  | (tr, none) =>
    match w.call tr (ExportOp.stat imagePath) with
    | (tr, some err) => (tr, some err)
    | (tr, none) =>
      w.call tr (ExportOp.upload (uploadParams w.deploy imageId) w.fileSize)

/-- `SLocalStorage.saveToGlance`. -/
def saveToGlance (w : ExportWorld) (tr : List ExportOp) (imageId imagePath : String)
    (compress : Bool) (format : String) : List ExportOp × Option GoError :=
  match w.call tr (ExportOp.deploySaveToGlance imagePath compress) with
  | (tr, some err) => (tr, some err)
  | (tr, none) =>
    if compress = true then
      match w.call tr (ExportOp.newQemuImage imagePath) with
      | (tr, some err) => (tr, some err)
      | (tr, none) =>
        let format := if format.length = 0 then w.DefaultImageSaveFormat else format
        if format = "qcow2" then
          match w.call tr (ExportOp.convert2Qcow2 imagePath true) with
          | (tr, some err) => (tr, some err)
          | (tr, none) => openAndUpload w tr imageId imagePath
        else
          match w.call tr (ExportOp.convert2Vmdk imagePath true) with
          | (tr, some err) => (tr, some err)
          | (tr, none) => openAndUpload w tr imageId imagePath
    else openAndUpload w tr imageId imagePath

/-- `SLocalStorage.onSaveToGlanceFailed`: the report is made and its own error is only
logged. -/
def onSaveToGlanceFailed (w : ExportWorld) (tr : List ExportOp) (imageId reason : String) :
    List ExportOp :=
  (w.call tr (ExportOp.updateStatus imageId
    (setParam (setParam [] "status" "killed") "reason" reason))).1

/-- `jsonutils.QueryBoolean(query, key, defaultVal)` on string values. -/
def QueryBoolean (query : JSONObject) (key : String) (defaultVal : Bool) : Bool :=
  match query.Get key with
  | some v =>
    if v.asString ∈ ["true", "on", "yes", "1"] then true
    else if v.asString ∈ ["false", "off", "no", "0"] then false
    else defaultVal
  | none => defaultVal

/-- The part of `SaveToGlance` after the export and its failure report: the handling of
the exported file. It yields the calls made and the error `SaveToGlance` returns. -/
def handleSavedImage (w : ExportWorld) (tr : List ExportOp) (imageId imagePath : String) :
    List ExportOp × Option GoError :=
  if w.ImagecacheId.length > 0 then
    w.call tr (ExportOp.rm imagePath)
  else
    let dstPath := pathJoin [w.ImagecachePath, imageId]
    let tr := (w.call tr (ExportOp.mv imagePath dstPath)).1
    let tr := (w.call tr (ExportOp.loadImageCache imageId)).1
    let tr := (w.call tr
      (ExportOp.remoteCacheImage w.ImagecacheId imageId "ready" dstPath)).1
    (tr, none)

/-- `SLocalStorage.SaveToGlance`: the calls made and the returned error. -/
def SaveToGlance (w : ExportWorld) (params : JSONObject) : List ExportOp × Option GoError :=
  if params.isDict = false then ([], some GoError.ParamsError)
  else
    let imageId := params.GetString "image_id"
    let imagePath := params.GetString "image_path"
    let compress := QueryBoolean params "compress" true
    let format := params.GetString "format"
    let tr :=
      match saveToGlance w [] imageId imagePath compress format with
      | (tr, some err) => onSaveToGlanceFailed w tr imageId err.Error
      | (tr, none) => tr
    handleSavedImage w tr imageId imagePath

/-- Whether a call is the status report to the image registry. -/
def ExportOp.isUpdateStatus : ExportOp → Bool
  | ExportOp.updateStatus _ _ => true
  | _ => false

/-- Whether a call converts the disk. -/
def ExportOp.isConvert : ExportOp → Bool
  | ExportOp.convert2Qcow2 _ _ => true
  | ExportOp.convert2Vmdk _ _ => true
  | _ => false

/-- Whether a call belongs to the handling of the exported file. -/
def ExportOp.isCacheHandling : ExportOp → Bool
  | ExportOp.rm _ => true
  | ExportOp.mv _ _ => true
  | ExportOp.loadImageCache _ => true
  | ExportOp.remoteCacheImage _ _ _ _ => true
  | _ => false

/-- Surroundings of an export in which every call succeeds, for a CentOS guest, with the
given image-cache identifier. -/
def quietExport (imagecacheId : String) : ExportWorld :=
  { fails := fun _ _ => none
    deploy := { OsInfo := "Linux"
                ReleaseInfo := some { Distro := "CentOS", Version := "7.6",
                                      Arch := "x86_64", Language := "en_US" } }
    fileSize := 1024
    DefaultImageSaveFormat := "qcow2"
    ImagecacheId := imagecacheId
    ImagecachePath := "/opt/cloud/image_cache" }

/-- The same surroundings in which the upload, and only the upload, fails. -/
def failingUpload (imagecacheId : String) : ExportWorld :=
  { quietExport imagecacheId with
    fails := fun _ op =>
      match op with
      | ExportOp.upload _ _ => some (GoError.msg "upload failed")
      | _ => none }

/-- An export request for image `img-1` saved at `/tmp/img-1`, with the given `compress`
and `format` entries. -/
def exportRequest (compress format : String) : JSONObject :=
  JSONObject.JSONDict
    [("image_id", JSONObject.JSONString "img-1"),
     ("image_path", JSONObject.JSONString "/tmp/img-1"),
     ("compress", JSONObject.JSONString compress),
     ("format", JSONObject.JSONString format)]

/-- The calls of an export in which every step succeeds: the metadata probe, with
`compress` the opening of the image and its conversion, to qcow2 when the effective format
is `qcow2` and to vmdk otherwise, then `os.Open`, `Stat` and the upload. -/
def exportSteps (w : ExportWorld) (imageId imagePath : String) (compress : Bool)
    (format : String) : List ExportOp :=
  ExportOp.deploySaveToGlance imagePath compress ::
    ((if compress = true then
        [ExportOp.newQemuImage imagePath,
         if (if format.length = 0 then w.DefaultImageSaveFormat else format) = "qcow2" then
           ExportOp.convert2Qcow2 imagePath true
         else ExportOp.convert2Vmdk imagePath true]
      else []) ++
     [ExportOp.osOpen imagePath, ExportOp.stat imagePath,
      ExportOp.upload (uploadParams w.deploy imageId) w.fileSize])

/-- The calls that handle the exported file: `rm -f` when the image-cache identifier is
not empty; otherwise the move into the cache directory, the load and the announcement. -/
def cacheHandlingOps (w : ExportWorld) (imageId imagePath : String) : List ExportOp :=
  if w.ImagecacheId.length > 0 then [ExportOp.rm imagePath]
  else
    [ExportOp.mv imagePath (pathJoin [w.ImagecachePath, imageId]),
     ExportOp.loadImageCache imageId,
     ExportOp.remoteCacheImage w.ImagecacheId imageId "ready"
       (pathJoin [w.ImagecachePath, imageId])]

/-- The handling of the exported file as C17 states it: the file is discarded when the
identifier is empty, and moved, loaded and announced when it is not. -/
def cacheHandlingAsStated (w : ExportWorld) (imageId imagePath : String) : List ExportOp :=
  if w.ImagecacheId.length = 0 then [ExportOp.rm imagePath]
  else
    [ExportOp.mv imagePath (pathJoin [w.ImagecachePath, imageId]),
     ExportOp.loadImageCache imageId,
     ExportOp.remoteCacheImage w.ImagecacheId imageId "ready"
       (pathJoin [w.ImagecachePath, imageId])]

/-- The failure report of `SaveToGlance`: nothing after a successful export, the `killed`
status with the error's message after a failed one. -/
def killedReport (imageId : String) : Option GoError → List ExportOp
  | some err =>
    [ExportOp.updateStatus imageId [("status", "killed"), ("reason", err.Error)]]
  | none => []

/-- An answer of the deploy client for a CentOS guest with the given version, architecture
and language. -/
def centosResponse (version arch language : String) : SaveToGlanceResponse :=
  { OsInfo := "Linux"
    ReleaseInfo :=
      some { Distro := "CentOS", Version := version, Arch := arch, Language := language } }

/-! ## The lock of the disk cache -/

/-- What a call of `GetDiskById` or `CreateDisk` does with the lock and the cache, in
order: `s.DiskLock.Lock()`, `s.DiskLock.Unlock()`, the scan of `s.Disks`, a `Probe()` of a
handle, and `s.Disks = append(s.Disks, disk)`. -/
inductive CacheEvent where
  | lock
  | unlock
  | scan
  | probe (disk : SLocalDisk)
  | append (disk : SLocalDisk)
  deriving DecidableEq, Repr

/-- The events of `SLocalStorage.GetDiskById`: the lock is taken first, the deferred unlock
runs at the return. -/
def SLocalStorage.GetDiskByIdEvents (s : SLocalStorage) (w : World) (diskId : String) :
    List CacheEvent :=
  CacheEvent.lock ::
    ((match s.Disks.find? (fun d => d.Id = diskId) with
      | some d => [CacheEvent.scan, CacheEvent.probe d]
      | none =>
        let disk := NewLocalDisk s diskId
        if (w.call [] (Op.probe disk)).2 = none then
          [CacheEvent.scan, CacheEvent.probe disk, CacheEvent.append disk]
        else [CacheEvent.scan, CacheEvent.probe disk]) ++
     [CacheEvent.unlock])

/-- The events of `SLocalStorage.CreateDisk`. -/
def SLocalStorage.CreateDiskEvents (s : SLocalStorage) (diskId : String) :
    List CacheEvent :=
  [CacheEvent.lock, CacheEvent.append (NewLocalDisk s diskId), CacheEvent.unlock]

/-- The handles probed while the lock is held, in a sequence of events that starts with
the lock in state `locked`. -/
def probesWhileLocked : Bool → List CacheEvent → List SLocalDisk
  | _, [] => []
  | _, CacheEvent.lock :: rest => probesWhileLocked true rest
  | _, CacheEvent.unlock :: rest => probesWhileLocked false rest
  | locked, CacheEvent.probe d :: rest =>
    if locked = true then d :: probesWhileLocked locked rest
    else probesWhileLocked locked rest
  | locked, _ :: rest => probesWhileLocked locked rest

/-- The handles probed while the lock is free. -/
def probesWhileFree : Bool → List CacheEvent → List SLocalDisk
  | _, [] => []
  | _, CacheEvent.lock :: rest => probesWhileFree true rest
  | _, CacheEvent.unlock :: rest => probesWhileFree false rest
  | locked, CacheEvent.probe d :: rest =>
    if locked = true then probesWhileFree locked rest
    else d :: probesWhileFree locked rest
  | locked, _ :: rest => probesWhileFree locked rest

/-- The handle a collaborator call probes, if it is a probe. -/
def Op.probed : Op → Option SLocalDisk
  | Op.probe d => some d
  | _ => none

/-! ## Tags of Aliyun resources (`pkg/multicloud/tag_base.go`) -/

/-- `STag`. -/
structure STag where
  TagKey : String
  TagValue : String
  Key : String
  Value : String
  deriving DecidableEq, Repr

/-- `AliyunTags`; `Tag` is the field `Tags.Tag`. -/
structure AliyunTags where
  Tag : List STag
  deriving DecidableEq, Repr

/-- Go `strings.HasPrefix(s, pre)`. -/
def HasPrefix (s pre : String) : Bool :=
  pre.toList.isPrefixOf s.toList

/-- Go `strings.HasSuffix(s, suf)`. -/
def HasSuffix (s suf : String) : Bool :=
  suf.toList.isSuffixOf s.toList

/-- The test of the loop of `AliyunTags.GetTags`: the entries it passes over. -/
def skippedByGetTags (tag : STag) : Bool :=
  HasPrefix tag.TagKey "aliyun" || HasPrefix tag.TagKey "acs:" ||
    HasSuffix tag.Key "aliyun" || HasPrefix tag.Key "acs:"

/-- The test of the loop of `AliyunTags.GetSysTags`: the entries it takes. -/
def takenByGetSysTags (tag : STag) : Bool :=
  HasPrefix tag.TagKey "aliyun" || HasPrefix tag.TagKey "acs:" ||
    HasPrefix tag.Key "aliyun" || HasPrefix tag.Key "acs:"

/-- The assignment both loops make for an entry they report: under `TagKey` when it is not
empty, else under `Key` when that is not empty, else nothing. -/
def putTag (ret : List (String × String)) (tag : STag) : List (String × String) :=
  if tag.TagKey.length > 0 then setParam ret tag.TagKey tag.TagValue
  else if tag.Key.length > 0 then setParam ret tag.Key tag.Value
  else ret

/-- `AliyunTags.GetTags`: the returned map, as the list of its entries; the returned error
is always nil. -/
def AliyunTags.GetTags (self : AliyunTags) : List (String × String) :=
  self.Tag.foldl (fun ret tag => if skippedByGetTags tag = true then ret else putTag ret tag) []

/-- `AliyunTags.GetSysTags`. -/
def AliyunTags.GetSysTags (self : AliyunTags) : List (String × String) :=
  self.Tag.foldl (fun ret tag => if takenByGetSysTags tag = true then putTag ret tag else ret) []

/-- The key under which an entry is reported: `TagKey`, or `Key` when `TagKey` is empty;
`none` when both are empty. -/
def STag.reportedKey (tag : STag) : Option String :=
  if tag.TagKey.length > 0 then some tag.TagKey
  else if tag.Key.length > 0 then some tag.Key
  else none

/-- Tags with the single entry `Key = "aliyun:foo"`, `Value = "v"`. -/
def aliyunSystemTag : AliyunTags :=
  { Tag := [{ TagKey := "", TagValue := "", Key := "aliyun:foo", Value := "v" }] }

/-! ## Lemmas: paths -/

theorem cleanChars_ne_nil (p : List Char) : cleanChars p ≠ [] := by
  unfold cleanChars
  split
  · simp
  · simp only []
    split
    · simp
    · split <;> simp_all

theorem pathClean_ne_empty (p : String) : pathClean p ≠ "" := by
  unfold pathClean
  intro h
  have := congrArg String.data h
  exact cleanChars_ne_nil _ this

theorem pathJoin_ne_empty (elem : List String) (h : ∃ x ∈ elem, x ≠ "") :
    pathJoin elem ≠ "" := by
  unfold pathJoin
  obtain ⟨x, hx, hne⟩ := h
  have hmem : x ∈ elem.filter (fun e => e ≠ "") := by
    simp [List.mem_filter, hx, hne]
  have hparts : elem.filter (fun e => e ≠ "") ≠ [] := List.ne_nil_of_mem hmem
  simp only [hparts, if_false]
  exact pathClean_ne_empty _

theorem string_length_pos_of_ne_empty (s : String) (h : s ≠ "") : s.length > 0 := by
  rcases s with ⟨l⟩
  cases l with
  | nil => exact absurd rfl h
  | cons c cs => simp [String.length]

theorem string_length_pos_iff (s : String) : s.length > 0 ↔ s ≠ "" := by
  constructor
  · intro h hs
    subst hs
    simp at h
  · exact string_length_pos_of_ne_empty s

theorem getSnapshotDir_ne_empty (cfg : HostConfig) (d : SLocalDisk) :
    d.GetSnapshotDir cfg ≠ "" := by
  unfold SLocalDisk.GetSnapshotDir
  apply pathJoin_ne_empty
  refine ⟨pathJoin [d.StoragePath, _SNAPSHOT_PATH_], by simp, ?_⟩
  apply pathJoin_ne_empty
  exact ⟨_SNAPSHOT_PATH_, by simp, by decide⟩

theorem snapshotPath_ne_empty (e : MigrateEnv) (snapId : String) :
    e.snapshotPath snapId ≠ "" := by
  unfold MigrateEnv.snapshotPath
  apply pathJoin_ne_empty
  exact ⟨e.disk.GetSnapshotDir e.cfg, by simp, getSnapshotDir_ne_empty _ _⟩

theorem snapshotPath_length_pos (e : MigrateEnv) (snapId : String) :
    (e.snapshotPath snapId).length > 0 :=
  string_length_pos_of_ne_empty _ (snapshotPath_ne_empty e snapId)

/-! ## Lemmas: runs are `runCalls` of their plan -/

theorem runCalls_append (w : World) (a b : List Step) (tr : List Op) :
    runCalls w (a ++ b) tr =
      match runCalls w a tr with
      | (tr1, none) => runCalls w b tr1
      | (tr1, some err) => (tr1, some err) := by
  induction a generalizing tr with
  | nil => simp [runCalls]
  | cons st rest ih =>
    simp only [List.cons_append, runCalls]
    cases h : w.fails tr.length st.1 with
    | some err => simp
    | none => simp [ih]

theorem doRebaseDisk_eq (w : World) (tr : List Op) (p b : String) :
    doRebaseDisk w tr p b = runCalls w (rebasePlan p b) tr := by
  simp only [doRebaseDisk, rebasePlan, runCalls, World.call, List.length_append,
    List.length_singleton]

theorem replaySnapshots_eq (w : World) (e : MigrateEnv) (snaps : List JSONObject)
    (i : Nat) (base : String) (tr : List Op) :
    replaySnapshots w e snaps i base tr =
      liftReplay (replayBase e (snaps.map JSONObject.asString) base)
        (runCalls w (replayPlan e (snaps.map JSONObject.asString) i base) tr) := by
  induction snaps generalizing i base tr with
  | nil => simp [replaySnapshots, replayPlan, replayBase, runCalls, liftReplay]
  | cons sn rest ih =>
    simp only [replaySnapshots, List.map_cons, replayPlan, replayBase, runCalls,
      CreateSnapshotFormUrl, World.call, fetchStep]
    cases hf : w.fails tr.length
        (Op.fetch (e.snapshotUrl sn.asString) (e.snapshotPath sn.asString)) with
    | some err => simp [liftReplay]
    | none =>
      simp only [if_true]
      by_cases h1 : i = 0 ∧ e.templateId.length > 0
      · simp only [h1, and_self, if_true, doRebaseDisk_eq, runCalls_append]
        cases hr : runCalls w (rebasePlan (e.snapshotPath sn.asString) e.templatePath)
            (tr ++ [Op.fetch (e.snapshotUrl sn.asString) (e.snapshotPath sn.asString)]) with
        | mk tr2 r2 =>
          cases r2 with
          | some err => simp [liftReplay]
          | none => simp [ih]
      · by_cases h2 : e.rebaseDisks = true ∧ base.length > 0
        · simp only [h1, h2, and_self, if_true, if_false, doRebaseDisk_eq, runCalls_append]
          cases hr : runCalls w (rebasePlan (e.snapshotPath sn.asString) base)
              (tr ++ [Op.fetch (e.snapshotUrl sn.asString) (e.snapshotPath sn.asString)]) with
          | mk tr2 r2 =>
            cases r2 with
            | some err => simp [liftReplay]
            | none => simp [ih]
        · simp only [h1, h2, if_false, List.nil_append, ih]

theorem prepareSnapshotDir_eq (w : World) (e : MigrateEnv) (snapshots : List JSONObject)
    (tr : List Op) :
    prepareSnapshotDir w e snapshots tr = runCalls w (prepareDirPlan w e snapshots) tr := by
  unfold prepareSnapshotDir prepareDirPlan
  split
  · simp only [World.call, runCalls]
  · simp [runCalls]

theorem materializeDisk_eq (w : World) (e : MigrateEnv) (liveMigrate : Bool)
    (disksUri : String) (disksBackingFile diskinfo : JSONObject) (tr : List Op) :
    materializeDisk w e liveMigrate disksUri disksBackingFile diskinfo tr =
      runCalls w [(materializeOp e liveMigrate disksUri disksBackingFile diskinfo, id)] tr := by
  unfold materializeDisk materializeOp
  split
  · simp only [World.call, runCalls]
    cases h : w.fails tr.length (Op.createRaw e.disk (diskinfo.Int "size") "qcow2" "" false ""
      (disksBackingFile.GetString e.diskId)) <;> simp
  · simp only [World.call, runCalls]
    cases h : w.fails tr.length
      (Op.createFromUrl e.disk (disksUri ++ "/" ++ e.diskStorageId ++ "/" ++ e.diskId) 0) <;>
      simp

theorem finalRebase_eq (w : World) (e : MigrateEnv) (base : String) (tr : List Op) :
    finalRebase w e base tr = runCalls w (finalRebasePlan e base) tr := by
  unfold finalRebase finalRebasePlan
  split
  · exact doRebaseDisk_eq _ _ _ _
  · split
    · exact doRebaseDisk_eq _ _ _ _
    · simp [runCalls]

/-- The error and the trace of a run are those of its plan; the descriptor is rewritten
exactly when the plan ends without error. -/
theorem migrate_eq_plan (s : SLocalStorage) (cfg : HostConfig) (w : World)
    (liveMigrate : Bool) (disksUri snapshotsUri : String)
    (disksBackingFile srcSnapshots : JSONObject) (rebaseDisks : Bool)
    (diskinfo : JSONObject) :
    let e := migrateEnv cfg s snapshotsUri rebaseDisks diskinfo
    let r := s.DestinationPrepareMigrate cfg w liveMigrate disksUri snapshotsUri
      disksBackingFile srcSnapshots rebaseDisks diskinfo
    let p := runCalls w (migratePlan w e liveMigrate disksUri disksBackingFile diskinfo
      (srcSnapshots.GetArray e.diskId)) []
    r.trace = p.1 ∧ r.err = p.2 ∧
      r.diskinfo = (if p.2 = none then
        diskinfo.Set "path" (JSONObject.JSONString e.disk.GetPath) else diskinfo) := by
  intro e r p
  have hplan : migratePlan w e liveMigrate disksUri disksBackingFile diskinfo
      (srcSnapshots.GetArray e.diskId) =
      prepareDirPlan w e (srcSnapshots.GetArray e.diskId) ++
        (replayPlan e ((srcSnapshots.GetArray e.diskId).map JSONObject.asString) 0 "" ++
          ([(materializeOp e liveMigrate disksUri disksBackingFile diskinfo, id)] ++
            finalRebasePlan e (replayBase e
              ((srcSnapshots.GetArray e.diskId).map JSONObject.asString) ""))) := rfl
  simp only [r, p, hplan, SLocalStorage.DestinationPrepareMigrate, runCalls_append,
    prepareSnapshotDir_eq, replaySnapshots_eq, materializeDisk_eq, finalRebase_eq]
  cases h1 : runCalls w (prepareDirPlan w e (srcSnapshots.GetArray e.diskId)) [] with
  | mk tr1 r1 =>
    cases r1 with
    | some err => simp [e, h1]
    | none =>
      simp only [e, h1]
      cases h2 : runCalls w (replayPlan e
          ((srcSnapshots.GetArray e.diskId).map JSONObject.asString) 0 "") tr1 with
      | mk tr2 r2 =>
        cases r2 with
        | some err => simp [e, h2, liftReplay]
        | none =>
          simp only [e, h2, liftReplay]
          obtain ⟨tr3, r3, h3⟩ : ∃ a b, runCalls w
              [(materializeOp e liveMigrate disksUri disksBackingFile diskinfo, id)] tr2 =
                (a, b) := ⟨_, _, rfl⟩
          simp only [e] at h3
          cases r3 with
          | some err => simp [h3]
          | none =>
            simp only [h3]
            obtain ⟨tr4, r4, h4⟩ : ∃ a b, runCalls w (finalRebasePlan e (replayBase e
                ((srcSnapshots.GetArray e.diskId).map JSONObject.asString) "")) tr3 =
                  (a, b) := ⟨_, _, rfl⟩
            simp only [e] at h4
            cases r4 with
            | some err => simp [h4]
            | none => simp [h4]

/-! ## Lemmas: what `runCalls` does -/

theorem runCalls_of_ok (w : World) (plan : List Step) (tr : List Op)
    (hok : ∀ j st, plan[j]? = some st → w.fails (tr.length + j) st.1 = none) :
    runCalls w plan tr = (tr ++ planOps plan, none) := by
  induction plan generalizing tr with
  | nil => simp [runCalls, planOps]
  | cons st rest ih =>
    have h0 : w.fails tr.length st.1 = none := by
      have := hok 0 st (by simp)
      simpa using this
    simp only [runCalls, h0]
    rw [ih]
    · simp [planOps]
    · intro j st' hj
      have := hok (j + 1) st' (by simpa using hj)
      simpa [Nat.add_assoc, Nat.add_comm 1 j] using this

theorem runCalls_allSucceed (w : World) (plan : List Step) (tr : List Op) :
    runCalls w.allSucceed plan tr = (tr ++ planOps plan, none) :=
  runCalls_of_ok _ _ _ (fun _ _ _ => rfl)

theorem runCalls_of_fail (w : World) (plan : List Step) (tr : List Op) (k : Nat) (st : Step)
    (err0 : GoError) (hk : plan[k]? = some st)
    (hfail : w.fails (tr.length + k) st.1 = some err0)
    (hfirst : ∀ j st', j < k → plan[j]? = some st' → w.fails (tr.length + j) st'.1 = none) :
    runCalls w plan tr = (tr ++ (planOps plan).take (k + 1), some (st.2 err0)) := by
  induction plan generalizing tr k with
  | nil => simp at hk
  | cons st0 rest ih =>
    cases k with
    | zero =>
      simp only [List.getElem?_cons_zero, Option.some.injEq] at hk
      subst hk
      simp only [Nat.add_zero] at hfail
      simp [runCalls, hfail, planOps]
    | succ k =>
      have h0 : w.fails tr.length st0.1 = none := by
        have := hfirst 0 st0 (Nat.succ_pos k) (by simp)
        simpa using this
      simp only [runCalls, h0]
      rw [ih (tr ++ [st0.1]) k (by simpa using hk)
        (by simpa [Nat.add_assoc, Nat.add_comm 1 k] using hfail)]
      · simp [planOps]
      · intro j st' hj hst
        have := hfirst (j + 1) st' (Nat.succ_lt_succ hj) (by simpa using hst)
        simpa [Nat.add_assoc, Nat.add_comm 1 j] using this

theorem rebasePlan_stepError (w : World) (p b : String) :
    ∀ st ∈ rebasePlan p b, st.2 = stepError w st.1 := by
  intro st hst
  simp only [rebasePlan, List.mem_cons, List.mem_singleton, List.not_mem_nil, or_false] at hst
  rcases hst with h | h <;> subst h <;> rfl

theorem replayPlan_stepError (w : World) (e : MigrateEnv) (ids : List String) (i : Nat)
    (base : String) : ∀ st ∈ replayPlan e ids i base, st.2 = stepError w st.1 := by
  induction ids generalizing i base with
  | nil => simp [replayPlan]
  | cons snapId rest ih =>
    intro st hst
    simp only [replayPlan, List.mem_cons, List.mem_append] at hst
    rcases hst with h | h | h
    · subst h; rfl
    · split at h
      · exact rebasePlan_stepError w _ _ st h
      · split at h
        · exact rebasePlan_stepError w _ _ st h
        · simp at h
    · exact ih _ _ st h

theorem migratePlan_stepError (w : World) (e : MigrateEnv) (liveMigrate : Bool)
    (disksUri : String) (disksBackingFile diskinfo : JSONObject)
    (snapshots : List JSONObject) :
    ∀ st ∈ migratePlan w e liveMigrate disksUri disksBackingFile diskinfo snapshots,
      st.2 = stepError w st.1 := by
  intro st hst
  simp only [migratePlan, List.mem_append, List.mem_cons] at hst
  rcases hst with h | h | h | h
  · unfold prepareDirPlan at h
    split at h
    · simp only [List.mem_singleton] at h
      subst h; rfl
    · simp at h
  · exact replayPlan_stepError w e _ _ _ st h
  · subst h
    unfold materializeOp
    split <;> rfl
  · unfold finalRebasePlan at h
    split at h
    · exact rebasePlan_stepError w _ _ st h
    · split at h
      · exact rebasePlan_stepError w _ _ st h
      · simp at h

/-- The calls of the run in which every collaborator call succeeds are the calls of the
plan. -/
theorem migrate_allSucceed (s : SLocalStorage) (cfg : HostConfig) (w : World)
    (liveMigrate : Bool) (disksUri snapshotsUri : String)
    (disksBackingFile srcSnapshots : JSONObject) (rebaseDisks : Bool)
    (diskinfo : JSONObject) :
    let e := migrateEnv cfg s snapshotsUri rebaseDisks diskinfo
    let r := s.DestinationPrepareMigrate cfg w.allSucceed liveMigrate disksUri snapshotsUri
      disksBackingFile srcSnapshots rebaseDisks diskinfo
    r.trace = planOps (migratePlan w e liveMigrate disksUri disksBackingFile diskinfo
      (srcSnapshots.GetArray e.diskId)) ∧ r.err = none := by
  intro e r
  have h := migrate_eq_plan s cfg w.allSucceed liveMigrate disksUri snapshotsUri
    disksBackingFile srcSnapshots rebaseDisks diskinfo
  simp only [runCalls_allSucceed, List.nil_append] at h
  exact ⟨h.1, h.2.1⟩

/-! ## Lemmas: the replay as the specification words it -/

theorem replayBase_concat (e : MigrateEnv) (pre : List String) (x b : String) :
    replayBase e (pre ++ [x]) b = e.snapshotPath x := by
  induction pre generalizing b with
  | nil => simp [replayBase]
  | cons y ys ih => simp [replayBase, ih]

theorem replayBase_eq (e : MigrateEnv) (pre : List String) :
    replayBase e pre "" =
      if pre.length = 0 then "" else e.snapshotPath (pre.getD (pre.length - 1) "") := by
  induction pre using List.reverseRecOn with
  | nil => simp [replayBase]
  | append_singleton ys y _ =>
    rw [replayBase_concat]
    simp [List.getD_eq_getElem?_getD]

theorem replayBase_length_pos (e : MigrateEnv) (pre : List String) :
    (replayBase e pre "").length > 0 ↔ pre.length > 0 := by
  rw [replayBase_eq]
  by_cases h : pre.length = 0
  · simp [h]
  · simp only [h, if_false]
    constructor
    · intro _; omega
    · intro _; exact snapshotPath_length_pos _ _

theorem planOps_rebasePlan (p b : String) : planOps (rebasePlan p b) = rebaseOps p b := rfl

theorem planOps_append (a b : List Step) : planOps (a ++ b) = planOps a ++ planOps b := by
  simp [planOps]

theorem replayPlan_ops_from (e : MigrateEnv) (pre rest : List String) :
    planOps (replayPlan e rest pre.length (replayBase e pre "")) =
      (List.range' pre.length rest.length).flatMap (replayStepOps e (pre ++ rest)) := by
  induction rest generalizing pre with
  | nil => simp [replayPlan, planOps]
  | cons x rest ih =>
    have hx : (pre ++ x :: rest).getD pre.length "" = x := by
      rw [List.getD_eq_getElem?_getD, List.getElem?_append_right (Nat.le_refl _)]
      simp
    have hprev : pre.length > 0 →
        e.snapshotPath ((pre ++ x :: rest).getD (pre.length - 1) "") = replayBase e pre "" := by
      intro hpos
      rw [replayBase_eq]
      have hne : pre.length ≠ 0 := by omega
      simp only [hne, if_false]
      congr 1
      simp only [List.getD_eq_getElem?_getD]
      rw [List.getElem?_append_left (by omega)]
    have ih' := ih (pre ++ [x])
    simp only [List.length_append, List.length_singleton, replayBase_concat,
      List.append_assoc, List.singleton_append] at ih'
    simp only [replayPlan, List.length_cons, List.range'_succ, List.flatMap_cons,
      replayStepOps, hx, fetchStep]
    have hcons : ∀ (st : Step) (l : List Step), planOps (st :: l) = st.1 :: planOps l :=
      fun _ _ => rfl
    rw [hcons, planOps_append, ih']
    simp only [List.cons_append, List.cons.injEq, true_and]
    congr 1
    by_cases h1 : pre.length = 0 ∧ e.templateId.length > 0
    · have h1' : pre.length = 0 ∧ e.templateId ≠ "" :=
        ⟨h1.1, (string_length_pos_iff _).1 h1.2⟩
      rw [if_pos h1, if_pos h1', planOps_rebasePlan]
    · have h1' : ¬ (pre.length = 0 ∧ e.templateId ≠ "") := by
        intro h
        exact h1 ⟨h.1, (string_length_pos_iff _).2 h.2⟩
      rw [if_neg h1, if_neg h1']
      by_cases h2 : e.rebaseDisks = true ∧ (replayBase e pre "").length > 0
      · have hpos : pre.length > 0 := (replayBase_length_pos e pre).1 h2.2
        have h2' : e.rebaseDisks = true ∧ pre.length > 0 := ⟨h2.1, hpos⟩
        rw [if_pos h2, if_pos h2', planOps_rebasePlan, hprev hpos]
      · have h2' : ¬ (e.rebaseDisks = true ∧ pre.length > 0) := by
          intro h
          exact h2 ⟨h.1, (replayBase_length_pos e pre).2 h.2⟩
        rw [if_neg h2, if_neg h2']
        rfl

theorem replayPlan_ops (e : MigrateEnv) (ids : List String) :
    planOps (replayPlan e ids 0 "") = replayOps e ids := by
  have h := replayPlan_ops_from e [] ids
  simpa [replayBase, replayOps, List.range_eq_range'] using h

/-! ## Lemmas: backing pointers of a chain -/

theorem backingAfter_eq (b : String → Option String) (tr : List Op) :
    backingAfter b tr = applyRebases b (rebasesOf tr) := by
  induction tr generalizing b with
  | nil => rfl
  | cons op rest ih =>
    cases op <;> simp [backingAfter, rebasesOf, applyRebases, ih]

theorem rebasesOf_append (a b : List Op) : rebasesOf (a ++ b) = rebasesOf a ++ rebasesOf b := by
  induction a with
  | nil => rfl
  | cons op rest ih => cases op <;> simp [rebasesOf, ih]

theorem applyRebases_of_not_mem (b : String → Option String) (l : List (String × String))
    (x : String) (hx : x ∉ l.map (fun pq => pq.1)) : applyRebases b l x = b x := by
  induction l generalizing b with
  | nil => rfl
  | cons pq rest ih =>
    simp only [List.map_cons, List.mem_cons, not_or] at hx
    simp only [applyRebases]
    rw [ih _ hx.2]
    simp [hx.1]

theorem applyRebases_of_mem (b : String → Option String) (l : List (String × String))
    (hnd : (l.map (fun pq => pq.1)).Nodup) (pq : String × String) (hpq : pq ∈ l) :
    applyRebases b l pq.1 = some pq.2 := by
  induction l generalizing b with
  | nil => simp at hpq
  | cons hd rest ih =>
    simp only [List.map_cons, List.nodup_cons] at hnd
    simp only [applyRebases]
    rcases List.mem_cons.1 hpq with h | h
    · subst h
      rw [applyRebases_of_not_mem _ _ _ hnd.1]
      simp
    · exact ih _ hnd.2 h

theorem chainRebases_keys (prev : String) (xs : List String) :
    (chainRebases prev xs).map (fun pq => pq.1) = xs := by
  induction xs generalizing prev with
  | nil => rfl
  | cons p ps ih => simp [chainRebases, ih]

theorem chainRebases_concat (prev : String) (xs : List String) (x : String) :
    chainRebases prev (xs ++ [x]) = chainRebases prev xs ++ [(x, xs.getLast?.getD prev)] := by
  induction xs generalizing prev with
  | nil => simp [chainRebases]
  | cons p ps ih =>
    have hlast : ps.getLast?.getD p = (p :: ps).getLast?.getD prev := by
      cases ps with
      | nil => simp
      | cons q qs =>
        rw [List.getLast?_cons_cons, List.getLast?_eq_getLast _ (List.cons_ne_nil q qs)]
        rfl
    show (p, prev) :: chainRebases p (ps ++ [x]) = _
    rw [ih p, hlast]
    rfl

theorem chainRebases_eq_zip (prev : String) (xs : List String) (x : String) :
    chainRebases prev (xs ++ [x]) = List.zip (xs ++ [x]) (prev :: xs) := by
  induction xs generalizing prev with
  | nil => rfl
  | cons p ps ih => simp [chainRebases, ih]

theorem chain_of_chainRebases (B : String → Option String) (prev : String) (xs : List String)
    (h : ∀ pq ∈ chainRebases prev xs, B pq.1 = some pq.2) :
    List.Chain (fun a c => B c = some a) prev xs := by
  induction xs generalizing prev with
  | nil => exact List.Chain.nil
  | cons p ps ih =>
    refine List.Chain.cons (h (p, prev) (by simp [chainRebases])) (ih p ?_)
    intro pq hpq
    exact h pq (by simp [chainRebases, hpq])

theorem walkBacking_of_chain (B : String → Option String) (a : String) (l : List String)
    (h : List.Chain (fun x y => B x = some y) a l) : walkBacking B l.length a = l := by
  induction l generalizing a with
  | nil => rfl
  | cons y ys ih =>
    rcases List.chain_cons.1 h with ⟨h1, h2⟩
    simp [walkBacking, h1, ih y h2]

/-- Following the pointers left by the rebases of a chain from its last file leads back
through the chain, file by file, to the file the chain was built on. -/
theorem walkBacking_chain (b : String → Option String) (prev : String) (xs : List String)
    (x : String) (hnd : (xs ++ [x]).Nodup) :
    walkBacking (applyRebases b (chainRebases prev (xs ++ [x]))) (xs.length + 1) x =
      xs.reverse ++ [prev] := by
  have hptr : ∀ pq ∈ chainRebases prev (xs ++ [x]),
      applyRebases b (chainRebases prev (xs ++ [x])) pq.1 = some pq.2 :=
    fun pq hpq => applyRebases_of_mem b _ (by rw [chainRebases_keys]; exact hnd) pq hpq
  have hc := chain_of_chainRebases _ prev (xs ++ [x]) hptr
  have hc2 : List.Chain' (fun a c =>
      applyRebases b (chainRebases prev (xs ++ [x])) a = some c) (prev :: (xs ++ [x])).reverse :=
    List.chain'_reverse.2 hc
  simp only [List.reverse_cons, List.reverse_append, List.reverse_singleton,
    List.singleton_append, List.cons_append] at hc2
  have := walkBacking_of_chain _ x (xs.reverse ++ [prev]) hc2
  simpa using this

/-! ## Lemmas: the rebases of a run -/

theorem getLast?_getD_cons (l : List String) (p q : String) :
    l.getLast?.getD p = (p :: l).getLast?.getD q := by
  cases l with
  | nil => simp
  | cons a as =>
    rw [List.getLast?_cons_cons, List.getLast?_eq_getLast _ (List.cons_ne_nil a as)]
    rfl

theorem replayBase_getLast (e : MigrateEnv) (ids : List String) (b : String) :
    replayBase e ids b = (ids.map e.snapshotPath).getLast?.getD b := by
  induction ids generalizing b with
  | nil => rfl
  | cons x rest ih =>
    simp only [replayBase, List.map_cons]
    rw [ih, getLast?_getD_cons _ _ b]

theorem rebasesOf_rebasePlan (p b : String) : rebasesOf (planOps (rebasePlan p b)) = [(p, b)] :=
  rfl

theorem replay_rebases (e : MigrateEnv) (ids : List String) (i : Nat) (base : String)
    (htmpl : e.templateId.length > 0) (hrd : e.rebaseDisks = true)
    (hbase : i = 0 ∨ base.length > 0) :
    rebasesOf (planOps (replayPlan e ids i base)) =
      chainRebases (if i = 0 then e.templatePath else base) (ids.map e.snapshotPath) := by
  induction ids generalizing i base with
  | nil => rfl
  | cons x rest ih =>
    have hrest := ih (i + 1) (e.snapshotPath x) (Or.inr (snapshotPath_length_pos e x))
    simp only [Nat.succ_ne_zero, if_false] at hrest
    have hcons : ∀ (st : Step) (l : List Step), planOps (st :: l) = st.1 :: planOps l :=
      fun _ _ => rfl
    have hunf : replayPlan e (x :: rest) i base = fetchStep e x ::
        ((if i = 0 ∧ e.templateId.length > 0 then
            rebasePlan (e.snapshotPath x) e.templatePath
          else if e.rebaseDisks = true ∧ base.length > 0 then
            rebasePlan (e.snapshotPath x) base
          else []) ++ replayPlan e rest (i + 1) (e.snapshotPath x)) := rfl
    have hf : ∀ l, rebasesOf ((fetchStep e x).1 :: l) = rebasesOf l := fun _ => rfl
    rw [hunf, hcons, planOps_append, hf, rebasesOf_append, hrest]
    simp only [List.map_cons, chainRebases]
    by_cases h0 : i = 0
    · have h1 : i = 0 ∧ e.templateId.length > 0 := ⟨h0, htmpl⟩
      rw [if_pos h1, if_pos h0, rebasesOf_rebasePlan]
      rfl
    · have h1 : ¬ (i = 0 ∧ e.templateId.length > 0) := fun h => h0 h.1
      have h2 : e.rebaseDisks = true ∧ base.length > 0 :=
        ⟨hrd, hbase.resolve_left h0⟩
      rw [if_neg h1, if_pos h2, if_neg h0, rebasesOf_rebasePlan]
      rfl

theorem rebasesOf_prepareDirPlan (w : World) (e : MigrateEnv) (snapshots : List JSONObject) :
    rebasesOf (planOps (prepareDirPlan w e snapshots)) = [] := by
  unfold prepareDirPlan
  split <;> rfl

theorem rebasesOf_materializeOp (e : MigrateEnv) (liveMigrate : Bool) (disksUri : String)
    (disksBackingFile diskinfo : JSONObject) (l : List Op) :
    rebasesOf (materializeOp e liveMigrate disksUri disksBackingFile diskinfo :: l) =
      rebasesOf l := by
  unfold materializeOp
  split <;> rfl

/-- With a template, chain rebasing and at least one snapshot, the rebases of the plan build
one chain: template, snapshots in order, disk. -/
theorem migratePlan_rebases (w : World) (e : MigrateEnv) (liveMigrate : Bool)
    (disksUri : String) (disksBackingFile diskinfo : JSONObject)
    (snapshots : List JSONObject) (htmpl : e.templateId.length > 0)
    (hrd : e.rebaseDisks = true) (hne : snapshots ≠ []) :
    rebasesOf (planOps (migratePlan w e liveMigrate disksUri disksBackingFile diskinfo
      snapshots)) =
      chainRebases e.templatePath
        (snapshots.map (fun sn => e.snapshotPath sn.asString) ++ [e.disk.GetPath]) := by
  have hids : (snapshots.map JSONObject.asString).length > 0 := by
    cases snapshots with
    | nil => exact absurd rfl hne
    | cons a as => simp
  have hbase : (replayBase e (snapshots.map JSONObject.asString) "").length > 0 :=
    (replayBase_length_pos e _).2 hids
  have hfinal : finalRebasePlan e (replayBase e (snapshots.map JSONObject.asString) "") =
      rebasePlan e.disk.GetPath (replayBase e (snapshots.map JSONObject.asString) "") := by
    unfold finalRebasePlan
    have h1 : ¬ (e.rebaseDisks = true ∧ e.templateId.length > 0 ∧
        (replayBase e (snapshots.map JSONObject.asString) "").length = 0) := by
      intro h; omega
    rw [if_neg h1, if_pos ⟨hrd, hbase⟩]
  have hcons : ∀ (st : Step) (l : List Step), planOps (st :: l) = st.1 :: planOps l :=
    fun _ _ => rfl
  have hmap : (snapshots.map JSONObject.asString).map e.snapshotPath =
      snapshots.map (fun sn => e.snapshotPath sn.asString) := by
    simp [List.map_map, Function.comp_def]
  simp only [migratePlan, planOps_append, hcons, rebasesOf_append, rebasesOf_prepareDirPlan,
    rebasesOf_materializeOp, hfinal, rebasesOf_rebasePlan, List.nil_append]
  rw [replay_rebases e _ 0 "" htmpl hrd (Or.inl rfl), chainRebases_concat,
    replayBase_getLast, hmap]
  simp only [if_true]
  congr 2
  cases hl : (snapshots.map (fun sn => e.snapshotPath sn.asString)).getLast? with
  | none =>
    have := List.getLast?_eq_none_iff.1 hl
    simp at this
    exact absurd this hne
  | some q => rfl

theorem zip_getD (xs ys : List String) (j : Nat) (hx : j < xs.length) (hy : j < ys.length) :
    (xs.getD j "", ys.getD j "") ∈ List.zip xs ys := by
  rw [List.mem_iff_getElem]
  refine ⟨j, by simp [List.length_zip]; omega, ?_⟩
  simp [List.getElem_zip, List.getD_eq_getElem?_getD, List.getElem?_eq_getElem hx,
    List.getElem?_eq_getElem hy]

/-! ## C1: the backing chain after a successful migration -/

/-- C1, counterexample: the ids `x` and `./x` are distinct and every step succeeds, yet
both snapshots are fetched to the same file, which the second rebase points at itself:
the file of `s1` is not left pointing at the template, and the walk from the disk loops. -/
theorem DestinationPrepareMigrate_chain_counterexample :
    let e := migrateEnv exampleConfig examplePool "http://src/snapshots" true exampleDescriptor
    let r := examplePool.DestinationPrepareMigrate exampleConfig quietWorld false
      "http://src/disks" "http://src/snapshots" (JSONObject.JSONDict [])
      (exampleSnapshots ["x", "./x"]) true exampleDescriptor
    ["x", "./x"].Nodup ∧ e.templateId ≠ "" ∧ r.err = none ∧
      backingAfter (fun _ => none) r.trace (e.snapshotPath "x") ≠ some e.templatePath ∧
      backingAfter (fun _ => none) r.trace (e.snapshotPath "x") = some (e.snapshotPath "x") ∧
      walkBacking (backingAfter (fun _ => none) r.trace) 3 e.disk.GetPath =
        [e.snapshotPath "x", e.snapshotPath "x", e.snapshotPath "x"] := by
  decide

/-- C1 (amended): when a template id is given, at least one snapshot is listed, `rebaseDisks`
is true, every step succeeds, and the template path, the snapshot files and the disk file
are pairwise distinct paths, the rebases performed are exactly: first snapshot onto the
template, every later snapshot onto the one before it, the disk onto the last snapshot.
They leave the pointers `s1 -> template`, `si -> s(i-1)`, `disk -> sn`, and the walk from
the disk visits `sn, ..., s1, template` in that order without meeting a file twice. -/
theorem DestinationPrepareMigrate_chain (s : SLocalStorage) (cfg : HostConfig) (w : World)
    (liveMigrate : Bool) (disksUri snapshotsUri : String)
    (disksBackingFile srcSnapshots diskinfo : JSONObject) (b0 : String → Option String)
    (hok : ∀ n op, w.fails n op = none)
    (htmpl : diskinfo.GetString "template_id" ≠ "")
    (hne : 0 < (srcSnapshots.GetArray (diskinfo.GetString "disk_id")).length)
    (hdistinct : ((migrateEnv cfg s snapshotsUri true diskinfo).templatePath ::
      ((srcSnapshots.GetArray (diskinfo.GetString "disk_id")).map
        (fun sn => (migrateEnv cfg s snapshotsUri true diskinfo).snapshotPath sn.asString) ++
        [(migrateEnv cfg s snapshotsUri true diskinfo).disk.GetPath])).Nodup) :
    let e := migrateEnv cfg s snapshotsUri true diskinfo
    let paths := (srcSnapshots.GetArray (diskinfo.GetString "disk_id")).map
      (fun sn => e.snapshotPath sn.asString)
    let r := s.DestinationPrepareMigrate cfg w liveMigrate disksUri snapshotsUri
      disksBackingFile srcSnapshots true diskinfo
    let B := backingAfter b0 r.trace
    r.err = none ∧
      rebasesOf r.trace = List.zip (paths ++ [e.disk.GetPath]) (e.templatePath :: paths) ∧
      B (paths.getD 0 "") = some e.templatePath ∧
      (∀ j, 0 < j → j < paths.length → B (paths.getD j "") = some (paths.getD (j - 1) "")) ∧
      B e.disk.GetPath = some (paths.getD (paths.length - 1) "") ∧
      walkBacking B (paths.length + 1) e.disk.GetPath = paths.reverse ++ [e.templatePath] ∧
      (e.disk.GetPath :: walkBacking B (paths.length + 1) e.disk.GetPath).Nodup := by
  intro e paths r B
  have hplan := migrate_eq_plan s cfg w liveMigrate disksUri snapshotsUri disksBackingFile
    srcSnapshots true diskinfo
  dsimp only at hplan
  rw [runCalls_of_ok w _ [] (fun _ _ _ => hok _ _)] at hplan
  simp only [List.nil_append] at hplan
  obtain ⟨htrace, herr, -⟩ := hplan
  have htl : e.templateId.length > 0 := (string_length_pos_iff _).2 htmpl
  have hreb : rebasesOf r.trace = chainRebases e.templatePath (paths ++ [e.disk.GetPath]) := by
    show rebasesOf (s.DestinationPrepareMigrate cfg w liveMigrate disksUri snapshotsUri
      disksBackingFile srcSnapshots true diskinfo).trace = _
    rw [htrace]
    exact migratePlan_rebases w e liveMigrate disksUri disksBackingFile diskinfo _ htl rfl
      (List.ne_nil_of_length_pos hne)
  have hnd : (paths ++ [e.disk.GetPath]).Nodup := (List.nodup_cons.1 hdistinct).2
  have hB : B = applyRebases b0 (chainRebases e.templatePath (paths ++ [e.disk.GetPath])) := by
    show backingAfter b0 r.trace = _
    rw [backingAfter_eq, hreb]
  have hlen : 0 < paths.length := by
    simpa [paths] using hne
  have hptr : ∀ j, j < paths.length + 1 →
      B ((paths ++ [e.disk.GetPath]).getD j "") = some ((e.templatePath :: paths).getD j "") := by
    intro j hj
    have hmem := zip_getD (paths ++ [e.disk.GetPath]) (e.templatePath :: paths) j
      (by simp; omega) (by simp; omega)
    rw [← chainRebases_eq_zip] at hmem
    rw [hB]
    exact applyRebases_of_mem b0 _ (by rw [chainRebases_keys]; exact hnd) _ hmem
  have hwalk : walkBacking B (paths.length + 1) e.disk.GetPath =
      paths.reverse ++ [e.templatePath] := by
    rw [hB]
    exact walkBacking_chain b0 e.templatePath paths e.disk.GetPath hnd
  refine ⟨herr, ?_, ?_, ?_, ?_, hwalk, ?_⟩
  · rw [hreb, chainRebases_eq_zip]
  · have h := hptr 0 (by omega)
    rw [List.getD_eq_getElem?_getD, List.getElem?_append_left hlen] at h
    simpa [List.getD_eq_getElem?_getD] using h
  · intro j hj0 hj
    have h := hptr j (by omega)
    rw [List.getD_eq_getElem?_getD, List.getElem?_append_left hj] at h
    obtain ⟨k, rfl⟩ : ∃ k, j = k + 1 := ⟨j - 1, by omega⟩
    simpa [List.getD_eq_getElem?_getD] using h
  · have h := hptr paths.length (by omega)
    rw [List.getD_eq_getElem?_getD, List.getElem?_append_right (Nat.le_refl _)] at h
    obtain ⟨k, hk⟩ : ∃ k, paths.length = k + 1 := ⟨paths.length - 1, by omega⟩
    simp only [Nat.sub_self, List.getElem?_cons_zero, Option.getD_some] at h
    rw [h, hk]
    simp [List.getD_eq_getElem?_getD]
  · have hrev : (e.templatePath :: (paths ++ [e.disk.GetPath])).reverse =
        e.disk.GetPath :: (paths.reverse ++ [e.templatePath]) := by simp
    rw [hwalk, ← hrev]
    exact List.nodup_reverse.2 hdistinct

/-- C1, witness: the scenario of the specification, disk `d1`, template `tmpl-a`,
snapshots `s1`, `s2`. -/
theorem DestinationPrepareMigrate_chain_witness :
    let r := examplePool.DestinationPrepareMigrate exampleConfig quietWorld false
      "http://src/disks" "http://src/snapshots" (JSONObject.JSONDict [])
      (exampleSnapshots ["s1", "s2"]) true exampleDescriptor
    r.err = none ∧
      walkBacking (backingAfter (fun _ => none) r.trace) 3 "/data/pool0/d1" =
        ["/data/pool0/snapshots/d1_snap/s2", "/data/pool0/snapshots/d1_snap/s1",
         "/opt/cloud/image_cache/tmpl-a"] :=
  have h := DestinationPrepareMigrate_chain examplePool exampleConfig quietWorld false
    "http://src/disks" "http://src/snapshots" (JSONObject.JSONDict [])
    (exampleSnapshots ["s1", "s2"]) exampleDescriptor (fun _ => none) (fun _ _ => rfl)
    (by decide) (by decide) (by decide)
  ⟨h.1, h.2.2.2.2.2.1⟩

/-! ## C2: abort at the first failing step -/

theorem migrate_of_fail (s : SLocalStorage) (cfg : HostConfig) (w : World)
    (liveMigrate : Bool) (disksUri snapshotsUri : String)
    (disksBackingFile srcSnapshots : JSONObject) (rebaseDisks : Bool)
    (diskinfo : JSONObject) (k : Nat) (op : Op) (err0 : GoError)
    (hk : (planOps (migratePlan w (migrateEnv cfg s snapshotsUri rebaseDisks diskinfo)
      liveMigrate disksUri disksBackingFile diskinfo (srcSnapshots.GetArray
        (migrateEnv cfg s snapshotsUri rebaseDisks diskinfo).diskId)))[k]? = some op)
    (hfail : w.fails k op = some err0)
    (hfirst : ∀ j op', j < k →
      (planOps (migratePlan w (migrateEnv cfg s snapshotsUri rebaseDisks diskinfo)
        liveMigrate disksUri disksBackingFile diskinfo (srcSnapshots.GetArray
          (migrateEnv cfg s snapshotsUri rebaseDisks diskinfo).diskId)))[j]? = some op' →
      w.fails j op' = none) :
    runCalls w (migratePlan w (migrateEnv cfg s snapshotsUri rebaseDisks diskinfo)
      liveMigrate disksUri disksBackingFile diskinfo (srcSnapshots.GetArray
        (migrateEnv cfg s snapshotsUri rebaseDisks diskinfo).diskId)) [] =
      ((planOps (migratePlan w (migrateEnv cfg s snapshotsUri rebaseDisks diskinfo)
        liveMigrate disksUri disksBackingFile diskinfo (srcSnapshots.GetArray
          (migrateEnv cfg s snapshotsUri rebaseDisks diskinfo).diskId))).take (k + 1),
        some (stepError w op err0)) := by
  have hse := migratePlan_stepError w (migrateEnv cfg s snapshotsUri rebaseDisks diskinfo)
    liveMigrate disksUri disksBackingFile diskinfo (srcSnapshots.GetArray
      (migrateEnv cfg s snapshotsUri rebaseDisks diskinfo).diskId)
  generalize migratePlan w (migrateEnv cfg s snapshotsUri rebaseDisks diskinfo)
      liveMigrate disksUri disksBackingFile diskinfo (srcSnapshots.GetArray
        (migrateEnv cfg s snapshotsUri rebaseDisks diskinfo).diskId) = plan at hk hfirst hse ⊢
  simp only [planOps, List.getElem?_map, Option.map_eq_some'] at hk
  obtain ⟨st, hst, hop⟩ := hk
  have hmem : st ∈ plan := List.mem_iff_getElem?.2 ⟨k, hst⟩
  have h := runCalls_of_fail w plan [] k st err0 hst
    (by simpa [hop] using hfail)
    (by
      intro j st' hj hst'
      have := hfirst j st'.1 hj (by simp [planOps, List.getElem?_map, hst'])
      simpa using this)
  rw [h, hse st hmem, hop]
  simp

theorem migratePlan_take_second (w : World) (e : MigrateEnv) (liveMigrate : Bool)
    (disksUri : String) (disksBackingFile diskinfo : JSONObject)
    (snapshots : List JSONObject) (s1 s2 : String) (rest : List String)
    (hids : snapshots.map JSONObject.asString = s1 :: s2 :: rest)
    (htmpl : e.templateId ≠ "") :
    (planOps (migratePlan w e liveMigrate disksUri disksBackingFile diskinfo snapshots)).take
        (secondFetchIndex w e snapshots + 1) =
      planOps (prepareDirPlan w e snapshots) ++
        [Op.fetch (e.snapshotUrl s1) (e.snapshotPath s1), Op.openImage (e.snapshotPath s1),
         Op.rebase (e.snapshotPath s1) e.templatePath,
         Op.fetch (e.snapshotUrl s2) (e.snapshotPath s2)] := by
  have h1 : (0 : Nat) = 0 ∧ e.templateId.length > 0 :=
    ⟨rfl, (string_length_pos_iff _).2 htmpl⟩
  have hlen : secondFetchIndex w e snapshots + 1 =
      (planOps (prepareDirPlan w e snapshots)).length + 4 := by
    simp [secondFetchIndex, planOps]
  rw [hlen]
  unfold migratePlan
  rw [planOps_append, List.take_append, hids]
  congr 1
  simp only [replayPlan, true_and, if_pos h1.2]
  rfl

/-- C2: when the `k`-th collaborator call of the run is the first one to fail, with error
`err0` (`k` indexes the calls of the run in which everything succeeds, and all calls
before it succeed), `DestinationPrepareMigrate` returns the error built from that failure
at the call site, the calls made are exactly the first `k + 1` calls of the successful
run, so a prefix of it that ends with the failing call, and the descriptor is untouched.
In particular, with a template and snapshots `s1, s2, ...`, when the failing call is the
fetch of `s2`, the only rebase completed is the one of `s1` onto the template, and the
backing pointer of `s1` is the template. -/
theorem DestinationPrepareMigrate_abort (s : SLocalStorage) (cfg : HostConfig) (w : World)
    (liveMigrate : Bool) (disksUri snapshotsUri : String)
    (disksBackingFile srcSnapshots : JSONObject) (rebaseDisks : Bool)
    (diskinfo : JSONObject) (b0 : String → Option String) (k : Nat) (op : Op)
    (err0 : GoError)
    (hk : (s.DestinationPrepareMigrate cfg w.allSucceed liveMigrate disksUri snapshotsUri
      disksBackingFile srcSnapshots rebaseDisks diskinfo).trace[k]? = some op)
    (hfail : w.fails k op = some err0)
    (hfirst : ∀ j op', j < k →
      (s.DestinationPrepareMigrate cfg w.allSucceed liveMigrate disksUri snapshotsUri
        disksBackingFile srcSnapshots rebaseDisks diskinfo).trace[j]? = some op' →
      w.fails j op' = none) :
    let e := migrateEnv cfg s snapshotsUri rebaseDisks diskinfo
    let snapshots := srcSnapshots.GetArray e.diskId
    let r := s.DestinationPrepareMigrate cfg w liveMigrate disksUri snapshotsUri
      disksBackingFile srcSnapshots rebaseDisks diskinfo
    let ok := s.DestinationPrepareMigrate cfg w.allSucceed liveMigrate disksUri snapshotsUri
      disksBackingFile srcSnapshots rebaseDisks diskinfo
    r.err = some (stepError w op err0) ∧
      r.trace = ok.trace.take (k + 1) ∧
      r.trace <+: ok.trace ∧
      r.trace.getLast? = some op ∧
      r.diskinfo = diskinfo ∧
      (∀ s1 s2 rest, snapshots.map JSONObject.asString = s1 :: s2 :: rest →
        e.templateId ≠ "" → k = secondFetchIndex w e snapshots →
        op = Op.fetch (e.snapshotUrl s2) (e.snapshotPath s2) ∧
        rebasesOf r.completed = [(e.snapshotPath s1, e.templatePath)] ∧
        backingAfter b0 r.completed (e.snapshotPath s1) = some e.templatePath) := by
  intro e snapshots r ok
  have hokrun := migrate_allSucceed s cfg w liveMigrate disksUri snapshotsUri
    disksBackingFile srcSnapshots rebaseDisks diskinfo
  dsimp only at hokrun
  rw [hokrun.1] at hk hfirst
  have hrun := migrate_of_fail s cfg w liveMigrate disksUri snapshotsUri disksBackingFile
    srcSnapshots rebaseDisks diskinfo k op err0 hk hfail hfirst
  have hplan := migrate_eq_plan s cfg w liveMigrate disksUri snapshotsUri disksBackingFile
    srcSnapshots rebaseDisks diskinfo
  dsimp only at hplan
  rw [hrun] at hplan
  obtain ⟨htrace, herr, hdesc⟩ := hplan
  have htrace' : r.trace = ok.trace.take (k + 1) := by
    show (s.DestinationPrepareMigrate cfg w liveMigrate disksUri snapshotsUri
      disksBackingFile srcSnapshots rebaseDisks diskinfo).trace =
        (s.DestinationPrepareMigrate cfg w.allSucceed liveMigrate disksUri snapshotsUri
          disksBackingFile srcSnapshots rebaseDisks diskinfo).trace.take (k + 1)
    rw [htrace, hokrun.1]
  have hlast : r.trace = ok.trace.take k ++ [op] := by
    rw [htrace', List.take_succ]
    show _ = List.take k ok.trace ++ [op]
    have : ok.trace[k]? = some op := by
      show (s.DestinationPrepareMigrate cfg w.allSucceed liveMigrate disksUri snapshotsUri
        disksBackingFile srcSnapshots rebaseDisks diskinfo).trace[k]? = some op
      rw [hokrun.1]; exact hk
    rw [this]
    rfl
  refine ⟨herr, htrace', ?_, ?_, ?_, ?_⟩
  · rw [htrace']
    exact List.take_prefix _ _
  · rw [hlast]
    simp
  · simpa using hdesc
  · intro s1 s2 rest hids htmpl hkidx
    have htake := migratePlan_take_second w e liveMigrate disksUri disksBackingFile diskinfo
      snapshots s1 s2 rest hids htmpl
    have htr : r.trace = planOps (prepareDirPlan w e snapshots) ++
        [Op.fetch (e.snapshotUrl s1) (e.snapshotPath s1), Op.openImage (e.snapshotPath s1),
         Op.rebase (e.snapshotPath s1) e.templatePath,
         Op.fetch (e.snapshotUrl s2) (e.snapshotPath s2)] := by
      rw [← htake, ← hkidx]
      exact htrace
    have hop : op = Op.fetch (e.snapshotUrl s2) (e.snapshotPath s2) := by
      have h1 : r.trace.getLast? = some op := by rw [hlast]; simp
      rw [htr] at h1
      simpa using h1.symm
    have hcompl : r.completed = planOps (prepareDirPlan w e snapshots) ++
        [Op.fetch (e.snapshotUrl s1) (e.snapshotPath s1), Op.openImage (e.snapshotPath s1),
         Op.rebase (e.snapshotPath s1) e.templatePath] := by
      have hne : ¬ (r.err = none) := by
        show ¬ ((s.DestinationPrepareMigrate cfg w liveMigrate disksUri snapshotsUri
          disksBackingFile srcSnapshots rebaseDisks diskinfo).err = none)
        rw [herr]; simp
      unfold MigrateResult.completed
      rw [if_neg hne, htr]
      have : ∀ (l : List Op) (a b c d : Op), (l ++ [a, b, c, d]).dropLast = l ++ [a, b, c] := by
        intro l a b c d
        have : l ++ [a, b, c, d] = (l ++ [a, b, c]) ++ [d] := by simp
        rw [this, List.dropLast_concat]
      exact this _ _ _ _ _
    have hreb : rebasesOf r.completed = [(e.snapshotPath s1, e.templatePath)] := by
      rw [hcompl, rebasesOf_append, rebasesOf_prepareDirPlan]
      rfl
    refine ⟨hop, hreb, ?_⟩
    rw [backingAfter_eq, hreb]
    simp [applyRebases]

/-- C2, witness: snapshots `s1`, `s2` with template `tmpl-a`; the fifth call, the fetch of
`s2`, fails. The run returns the fetch error, and the one rebase completed is the rebase of
`s1` onto the template. -/
theorem DestinationPrepareMigrate_abort_witness :
    let r := examplePool.DestinationPrepareMigrate exampleConfig
      (failAt 4 (GoError.msg "connection reset")) false
      "http://src/disks" "http://src/snapshots" (JSONObject.JSONDict [])
      (exampleSnapshots ["s1", "s2"]) true exampleDescriptor
    r.err = some (GoError.wrap
        (GoError.msg "Fail to fetch snapshot from http://src/snapshots/st1/d1/s2")
        "create from snapshot url failed") ∧
      r.trace.length = 5 ∧
      rebasesOf r.completed =
        [("/data/pool0/snapshots/d1_snap/s1", "/opt/cloud/image_cache/tmpl-a")] :=
  have h := DestinationPrepareMigrate_abort examplePool exampleConfig
    (failAt 4 (GoError.msg "connection reset")) false
    "http://src/disks" "http://src/snapshots" (JSONObject.JSONDict [])
    (exampleSnapshots ["s1", "s2"]) true exampleDescriptor (fun _ => none) 4
    (Op.fetch "http://src/snapshots/st1/d1/s2" "/data/pool0/snapshots/d1_snap/s2")
    (GoError.msg "connection reset") (by decide) (by decide)
    (fun j _ hj _ => by
      have hne : j ≠ 4 := Nat.ne_of_lt hj
      simp [failAt, hne])
  ⟨h.1, by decide, (h.2.2.2.2.2 "s1" "s2" [] (by decide) (by decide) (by decide)).2.1⟩

/-! ## C3: the replay of the snapshot chain -/

theorem runCalls_prefix (w : World) (plan : List Step) (tr : List Op) :
    ∃ seg, (runCalls w plan tr).1 = tr ++ seg ∧ seg <+: planOps plan := by
  induction plan generalizing tr with
  | nil => exact ⟨[], by simp [runCalls], List.nil_prefix⟩
  | cons st rest ih =>
    simp only [runCalls]
    cases h : w.fails tr.length st.1 with
    | some err =>
      refine ⟨[st.1], rfl, ?_⟩
      exact ⟨planOps rest, rfl⟩
    | none =>
      obtain ⟨seg, hseg, hpre⟩ := ih (tr ++ [st.1])
      refine ⟨st.1 :: seg, by simp [hseg], ?_⟩
      obtain ⟨t, ht⟩ := hpre
      exact ⟨t, by simp [planOps] at ht ⊢; exact ht⟩

theorem liftReplay_fst (base : String) (x : List Op × Option GoError) :
    (liftReplay base x).1 = x.1 := by
  rcases x with ⟨tr, _ | err⟩ <;> rfl

/-- C3: for the snapshot list of the descriptor, with ids `s1..sn`, the loop of
`DestinationPrepareMigrate` makes, when every call succeeds, exactly the calls
`replayOps`: for `i = 1..n` in list order one fetch of `snapshotsUri/storageId/diskId/si`
into `GetSnapshotDir()/si`, directly followed by the rebase onto the template path when
`i = 1` and a template id is given, else by the rebase onto the path of `s(i-1)` when
`rebaseDisks` is true and `i > 1`, else by nothing; the loop ends with the path of `sn`
as `baseImagePath`, and these calls stand in the run between the `mkdir` step and the
materialization of the disk. In any surroundings the calls of the loop are a prefix of
that list. -/
theorem DestinationPrepareMigrate_replay (s : SLocalStorage) (cfg : HostConfig) (w : World)
    (liveMigrate : Bool) (disksUri snapshotsUri : String)
    (disksBackingFile srcSnapshots : JSONObject) (rebaseDisks : Bool)
    (diskinfo : JSONObject) (hok : ∀ n op, w.fails n op = none) :
    let e := migrateEnv cfg s snapshotsUri rebaseDisks diskinfo
    let snapshots := srcSnapshots.GetArray e.diskId
    let ids := snapshots.map JSONObject.asString
    let r := s.DestinationPrepareMigrate cfg w liveMigrate disksUri snapshotsUri
      disksBackingFile srcSnapshots rebaseDisks diskinfo
    (∀ tr, replaySnapshots w e snapshots 0 "" tr =
      (tr ++ replayOps e ids, Except.ok
        (if ids.length = 0 then "" else e.snapshotPath (ids.getD (ids.length - 1) "")))) ∧
      r.trace = planOps (prepareDirPlan w e snapshots) ++ (replayOps e ids ++
        (materializeOp e liveMigrate disksUri disksBackingFile diskinfo ::
          planOps (finalRebasePlan e (replayBase e ids "")))) ∧
      (∀ (w1 : World) (tr : List Op), ∃ seg,
        (replaySnapshots w1 e snapshots 0 "" tr).1 = tr ++ seg ∧ seg <+: replayOps e ids) := by
  intro e snapshots ids r
  refine ⟨?_, ?_, ?_⟩
  · intro tr
    rw [replaySnapshots_eq, runCalls_of_ok w _ tr (fun _ _ _ => hok _ _), replayPlan_ops,
      replayBase_eq]
    rfl
  · have hplan := migrate_eq_plan s cfg w liveMigrate disksUri snapshotsUri disksBackingFile
      srcSnapshots rebaseDisks diskinfo
    dsimp only at hplan
    rw [runCalls_of_ok w _ [] (fun _ _ _ => hok _ _)] at hplan
    have h1 := hplan.1
    simp only [List.nil_append] at h1
    show (s.DestinationPrepareMigrate cfg w liveMigrate disksUri snapshotsUri
      disksBackingFile srcSnapshots rebaseDisks diskinfo).trace = _
    rw [h1]
    unfold migratePlan
    rw [planOps_append, planOps_append, replayPlan_ops]
    rfl
  · intro w1 tr
    rw [replaySnapshots_eq, liftReplay_fst, ← replayPlan_ops]
    exact runCalls_prefix w1 _ tr

/-- C3, witness: three snapshots with a template and chain rebasing. -/
theorem DestinationPrepareMigrate_replay_witness :
    replaySnapshots quietWorld
      (migrateEnv exampleConfig examplePool "http://src/snapshots" true exampleDescriptor)
      [JSONObject.JSONString "s1", JSONObject.JSONString "s2", JSONObject.JSONString "s3"]
      0 "" [] =
    ([Op.fetch "http://src/snapshots/st1/d1/s1" "/data/pool0/snapshots/d1_snap/s1",
      Op.openImage "/data/pool0/snapshots/d1_snap/s1",
      Op.rebase "/data/pool0/snapshots/d1_snap/s1" "/opt/cloud/image_cache/tmpl-a",
      Op.fetch "http://src/snapshots/st1/d1/s2" "/data/pool0/snapshots/d1_snap/s2",
      Op.openImage "/data/pool0/snapshots/d1_snap/s2",
      Op.rebase "/data/pool0/snapshots/d1_snap/s2" "/data/pool0/snapshots/d1_snap/s1",
      Op.fetch "http://src/snapshots/st1/d1/s3" "/data/pool0/snapshots/d1_snap/s3",
      Op.openImage "/data/pool0/snapshots/d1_snap/s3",
      Op.rebase "/data/pool0/snapshots/d1_snap/s3" "/data/pool0/snapshots/d1_snap/s2"],
     Except.ok "/data/pool0/snapshots/d1_snap/s3") :=
  (DestinationPrepareMigrate_replay examplePool exampleConfig quietWorld false
    "http://src/disks" "http://src/snapshots" (JSONObject.JSONDict [])
    (exampleSnapshots ["s1", "s2", "s3"]) true exampleDescriptor (fun _ _ => rfl)).1 []

/-! ## C4: materializing the disk -/

theorem rebasePlan_no_materialize (p b : String) :
    ∀ op ∈ planOps (rebasePlan p b), op.isMaterialize = false := by
  intro op hop
  simp only [planOps, rebasePlan, List.map_cons, List.map_nil, List.mem_cons,
    List.mem_singleton, List.not_mem_nil, or_false] at hop
  rcases hop with h | h <;> subst h <;> rfl

theorem replayPlan_no_materialize (e : MigrateEnv) (ids : List String) (i : Nat)
    (base : String) : ∀ op ∈ planOps (replayPlan e ids i base), op.isMaterialize = false := by
  induction ids generalizing i base with
  | nil => simp [replayPlan, planOps]
  | cons x rest ih =>
    intro op hop
    have hunf : planOps (replayPlan e (x :: rest) i base) = (fetchStep e x).1 ::
        (planOps (if i = 0 ∧ e.templateId.length > 0 then
            rebasePlan (e.snapshotPath x) e.templatePath
          else if e.rebaseDisks = true ∧ base.length > 0 then
            rebasePlan (e.snapshotPath x) base
          else []) ++ planOps (replayPlan e rest (i + 1) (e.snapshotPath x))) := by
      simp [replayPlan, planOps]
    rw [hunf] at hop
    rcases List.mem_cons.1 hop with h | h
    · subst h; rfl
    · rcases List.mem_append.1 h with h | h
      · split at h
        · exact rebasePlan_no_materialize _ _ op h
        · split at h
          · exact rebasePlan_no_materialize _ _ op h
          · simp [planOps] at h
      · exact ih _ _ op h

theorem prepareDirPlan_no_materialize (w : World) (e : MigrateEnv)
    (snapshots : List JSONObject) :
    ∀ op ∈ planOps (prepareDirPlan w e snapshots), op.isMaterialize = false := by
  intro op hop
  unfold prepareDirPlan at hop
  split at hop
  · simp only [planOps, List.map_cons, List.map_nil, List.mem_singleton] at hop
    subst hop; rfl
  · simp [planOps] at hop

theorem finalRebasePlan_no_materialize (e : MigrateEnv) (base : String) :
    ∀ op ∈ planOps (finalRebasePlan e base), op.isMaterialize = false := by
  intro op hop
  unfold finalRebasePlan at hop
  split at hop
  · exact rebasePlan_no_materialize _ _ op hop
  · split at hop
    · exact rebasePlan_no_materialize _ _ op hop
    · simp [planOps] at hop

theorem liftReplay_ok (b : String) (x : List Op × Option GoError) (tr : List Op)
    (base : String) (h : liftReplay b x = (tr, Except.ok base)) : x = (tr, none) ∧ b = base := by
  rcases x with ⟨t, _ | err⟩
  · simp only [liftReplay, Prod.mk.injEq, Except.ok.injEq] at h
    exact ⟨by rw [h.1], h.2⟩
  · simp [liftReplay] at h

/-- C4: once the `mkdir` step and the replay have succeeded, leaving the calls `tr1`, the
next call materializes the disk: with `liveMigrate` it is `CreateRaw` with the descriptor's
size, format `qcow2` and the backing file recorded for the disk id in `disksBackingFile`;
without it, `CreateFromUrl` with the URL `disksUri/storageId/diskId`. It is the only
`CreateRaw` or `CreateFromUrl` call of the whole run. -/
theorem DestinationPrepareMigrate_materialize (s : SLocalStorage) (cfg : HostConfig)
    (w : World) (liveMigrate : Bool) (disksUri snapshotsUri : String)
    (disksBackingFile srcSnapshots : JSONObject) (rebaseDisks : Bool)
    (diskinfo : JSONObject) (tr0 tr1 : List Op) (base : String)
    (hprep : prepareSnapshotDir w (migrateEnv cfg s snapshotsUri rebaseDisks diskinfo)
      (srcSnapshots.GetArray (diskinfo.GetString "disk_id")) [] = (tr0, none))
    (hreplay : replaySnapshots w (migrateEnv cfg s snapshotsUri rebaseDisks diskinfo)
      (srcSnapshots.GetArray (diskinfo.GetString "disk_id")) 0 "" tr0 =
        (tr1, Except.ok base)) :
    let e := migrateEnv cfg s snapshotsUri rebaseDisks diskinfo
    let r := s.DestinationPrepareMigrate cfg w liveMigrate disksUri snapshotsUri
      disksBackingFile srcSnapshots rebaseDisks diskinfo
    let expected :=
      if liveMigrate = true then
        Op.createRaw e.disk (diskinfo.Int "size") "qcow2" "" false ""
          (disksBackingFile.GetString (diskinfo.GetString "disk_id"))
      else
        Op.createFromUrl e.disk
          (disksUri ++ "/" ++ diskinfo.GetString "storage_id" ++ "/" ++
            diskinfo.GetString "disk_id") 0
    (∃ rest, r.trace = tr1 ++ expected :: rest) ∧
      r.trace.filter Op.isMaterialize = [expected] ∧
      (liveMigrate = true → ∀ op ∈ r.trace, op.isCreateFromUrl = false) ∧
      (liveMigrate = false → ∀ op ∈ r.trace, op.isCreateRaw = false) := by
  intro e r expected
  have hexp : expected = materializeOp e liveMigrate disksUri disksBackingFile diskinfo := rfl
  have hmat : expected.isMaterialize = true := by
    show (if liveMigrate = true then _ else _ : Op).isMaterialize = true
    split <;> rfl
  rw [prepareSnapshotDir_eq] at hprep
  rw [replaySnapshots_eq] at hreplay
  obtain ⟨hreplay, hbase⟩ := liftReplay_ok _ _ _ _ hreplay
  have hplan := migrate_eq_plan s cfg w liveMigrate disksUri snapshotsUri disksBackingFile
    srcSnapshots rebaseDisks diskinfo
  dsimp only at hplan
  have htrace := hplan.1
  have hsplit : migratePlan w e liveMigrate disksUri disksBackingFile diskinfo
      (srcSnapshots.GetArray e.diskId) =
      prepareDirPlan w e (srcSnapshots.GetArray e.diskId) ++
        (replayPlan e ((srcSnapshots.GetArray e.diskId).map JSONObject.asString) 0 "" ++
          ([(expected, id)] ++ finalRebasePlan e (replayBase e
              ((srcSnapshots.GetArray e.diskId).map JSONObject.asString) ""))) := rfl
  have hprep' : runCalls w (prepareDirPlan w e (srcSnapshots.GetArray e.diskId)) [] =
      (tr0, none) := hprep
  have hreplay' : runCalls w (replayPlan e
      ((srcSnapshots.GetArray e.diskId).map JSONObject.asString) 0 "") tr0 = (tr1, none) :=
    hreplay
  have htrace' : r.trace = (runCalls w ([(expected, id)] ++ finalRebasePlan e (replayBase e
      ((srcSnapshots.GetArray e.diskId).map JSONObject.asString) "")) tr1).1 := by
    show (s.DestinationPrepareMigrate cfg w liveMigrate disksUri snapshotsUri
      disksBackingFile srcSnapshots rebaseDisks diskinfo).trace = _
    rw [htrace]
    show (runCalls w (migratePlan w e liveMigrate disksUri disksBackingFile diskinfo
      (srcSnapshots.GetArray e.diskId)) []).1 = _
    rw [hsplit, runCalls_append, hprep']
    simp only []
    rw [runCalls_append, hreplay']
  -- the calls before the materialization do not create the disk
  have htr0 : ∀ op ∈ tr0, op.isMaterialize = false := by
    obtain ⟨seg, hseg, hpre⟩ := runCalls_prefix w
      (prepareDirPlan w e (srcSnapshots.GetArray e.diskId)) []
    rw [hprep'] at hseg
    simp only [List.nil_append] at hseg
    intro op hop
    rw [hseg] at hop
    exact prepareDirPlan_no_materialize w e _ op (hpre.subset hop)
  have htr1 : ∀ op ∈ tr1, op.isMaterialize = false := by
    obtain ⟨seg, hseg, hpre⟩ := runCalls_prefix w (replayPlan e
      ((srcSnapshots.GetArray e.diskId).map JSONObject.asString) 0 "") tr0
    rw [hreplay'] at hseg
    simp only [] at hseg
    intro op hop
    rw [hseg] at hop
    rcases List.mem_append.1 hop with h | h
    · exact htr0 op h
    · exact replayPlan_no_materialize e _ _ _ op (hpre.subset h)
  -- the calls after it neither
  have hrest : ∃ rest, r.trace = tr1 ++ expected :: rest ∧
      ∀ op ∈ rest, op.isMaterialize = false := by
    rw [htrace']
    simp only [List.singleton_append, runCalls]
    cases hf : w.fails tr1.length expected with
    | some err => exact ⟨[], by simp, by simp⟩
    | none =>
      simp only []
      obtain ⟨seg, hseg, hpre⟩ := runCalls_prefix w (finalRebasePlan e (replayBase e
        ((srcSnapshots.GetArray e.diskId).map JSONObject.asString) "")) (tr1 ++ [expected])
      refine ⟨seg, by simpa using hseg, ?_⟩
      intro op hop
      exact finalRebasePlan_no_materialize e _ op (hpre.subset hop)
  obtain ⟨rest, hrt, hrestno⟩ := hrest
  have hfilter : r.trace.filter Op.isMaterialize = [expected] := by
    rw [hrt, List.filter_append, List.filter_cons, if_pos hmat,
      List.filter_eq_nil_iff.2 (fun op hop => by simp [htr1 op hop]),
      List.filter_eq_nil_iff.2 (fun op hop => by simp [hrestno op hop])]
    rfl
  have hall : ∀ op ∈ r.trace, op = expected ∨ op.isMaterialize = false := by
    intro op hop
    rw [hrt] at hop
    rcases List.mem_append.1 hop with h | h
    · exact Or.inr (htr1 op h)
    · rcases List.mem_cons.1 h with h | h
      · exact Or.inl h
      · exact Or.inr (hrestno op h)
  refine ⟨⟨rest, hrt⟩, hfilter, ?_, ?_⟩
  · intro hlive op hop
    rcases hall op hop with h | h
    · subst h
      show (if liveMigrate = true then _ else _ : Op).isCreateFromUrl = false
      rw [if_pos hlive]; rfl
    · simp only [Op.isMaterialize, Bool.or_eq_false_iff] at h
      exact h.2
  · intro hlive op hop
    rcases hall op hop with h | h
    · subst h
      show (if liveMigrate = true then _ else _ : Op).isCreateRaw = false
      rw [if_neg (by simp [hlive])]; rfl
    · simp only [Op.isMaterialize, Bool.or_eq_false_iff] at h
      exact h.1

/-- C4, witness: a live migration of `d1` with one snapshot; the disk is created by
`CreateRaw` over the recorded backing file and nothing is downloaded. -/
theorem DestinationPrepareMigrate_materialize_witness :
    let r := examplePool.DestinationPrepareMigrate exampleConfig quietWorld true
      "http://src/disks" "http://src/snapshots"
      (JSONObject.JSONDict [("d1", JSONObject.JSONString "/opt/cloud/image_cache/tmpl-a")])
      (exampleSnapshots ["s1"]) true exampleDescriptor
    r.trace.filter Op.isMaterialize =
        [Op.createRaw { addr := 0, Id := "d1", StoragePath := "/data/pool0" } 10 "qcow2" ""
          false "" "/opt/cloud/image_cache/tmpl-a"] ∧
      ∀ op ∈ r.trace, op.isCreateFromUrl = false :=
  have h := DestinationPrepareMigrate_materialize examplePool exampleConfig quietWorld true
    "http://src/disks" "http://src/snapshots"
    (JSONObject.JSONDict [("d1", JSONObject.JSONString "/opt/cloud/image_cache/tmpl-a")])
    (exampleSnapshots ["s1"]) true exampleDescriptor
    [Op.mkdir "/data/pool0/snapshots/d1_snap"]
    [Op.mkdir "/data/pool0/snapshots/d1_snap",
     Op.fetch "http://src/snapshots/st1/d1/s1" "/data/pool0/snapshots/d1_snap/s1",
     Op.openImage "/data/pool0/snapshots/d1_snap/s1",
     Op.rebase "/data/pool0/snapshots/d1_snap/s1" "/opt/cloud/image_cache/tmpl-a"]
    "/data/pool0/snapshots/d1_snap/s1" (by decide) (by rfl)
  ⟨h.2.1, h.2.2.1 rfl⟩

/-! ## C5: the final rebase -/

/-- C5, counterexample: one snapshot is replayed and every step succeeds, but `rebaseDisks`
is false: the run ends with the download of the disk and makes no final rebase, where the
statement has a rebase of the disk onto the snapshot. -/
theorem DestinationPrepareMigrate_finalRebase_counterexample :
    let e := migrateEnv exampleConfig examplePool "http://src/snapshots" false
      exampleDescriptor
    let r := examplePool.DestinationPrepareMigrate exampleConfig quietWorld false
      "http://src/disks" "http://src/snapshots" (JSONObject.JSONDict [])
      (exampleSnapshots ["s1"]) false exampleDescriptor
    r.err = none ∧
      r.trace = [Op.mkdir "/data/pool0/snapshots/d1_snap",
        Op.fetch "http://src/snapshots/st1/d1/s1" "/data/pool0/snapshots/d1_snap/s1",
        Op.openImage "/data/pool0/snapshots/d1_snap/s1",
        Op.rebase "/data/pool0/snapshots/d1_snap/s1" "/opt/cloud/image_cache/tmpl-a",
        Op.createFromUrl e.disk "http://src/disks/st1/d1" 0] ∧
      finalRebaseAsStated e ["s1"] =
        [Op.openImage "/data/pool0/d1",
         Op.rebase "/data/pool0/d1" "/data/pool0/snapshots/d1_snap/s1"] ∧
      Op.rebase "/data/pool0/d1" "/data/pool0/snapshots/d1_snap/s1" ∉ r.trace := by
  decide

theorem finalRebasePlan_ops (e : MigrateEnv) (ids : List String) :
    planOps (finalRebasePlan e (replayBase e ids "")) = finalRebaseOps e ids := by
  unfold finalRebasePlan finalRebaseOps
  have hz : (replayBase e ids "").length = 0 ↔ ids.length = 0 := by
    have := replayBase_length_pos e ids
    omega
  by_cases h1 : e.rebaseDisks = true ∧ e.templateId.length > 0 ∧
      (replayBase e ids "").length = 0
  · have h1' : e.rebaseDisks = true ∧ ids.length = 0 ∧ e.templateId ≠ "" :=
      ⟨h1.1, hz.1 h1.2.2, (string_length_pos_iff _).1 h1.2.1⟩
    rw [if_pos h1, if_pos h1']
    rfl
  · have h1' : ¬ (e.rebaseDisks = true ∧ ids.length = 0 ∧ e.templateId ≠ "") := by
      intro h
      exact h1 ⟨h.1, (string_length_pos_iff _).2 h.2.2, hz.2 h.2.1⟩
    rw [if_neg h1, if_neg h1']
    by_cases h2 : e.rebaseDisks = true ∧ (replayBase e ids "").length > 0
    · have hpos : ids.length > 0 := (replayBase_length_pos e ids).1 h2.2
      have h2' : e.rebaseDisks = true ∧ ids.length > 0 := ⟨h2.1, hpos⟩
      have hne : ¬ ids.length = 0 := by omega
      rw [if_pos h2, if_pos h2', replayBase_eq, if_neg hne]
      rfl
    · have h2' : ¬ (e.rebaseDisks = true ∧ ids.length > 0) := by
        intro h
        exact h2 ⟨h.1, (replayBase_length_pos e ids).2 h.2⟩
      rw [if_neg h2, if_neg h2']
      rfl

/-- C5 (amended): when every step succeeds, the calls made after the disk is materialized
are exactly the final rebase `finalRebaseOps`: a rebase of the disk's path onto the
template path when `rebaseDisks` is true, no snapshot was replayed and a template id is
given; otherwise a rebase of the disk's path onto the last replayed snapshot's path when
`rebaseDisks` is true and at least one snapshot was replayed; and no final rebase in every
other case. -/
theorem DestinationPrepareMigrate_finalRebase (s : SLocalStorage) (cfg : HostConfig)
    (w : World) (liveMigrate : Bool) (disksUri snapshotsUri : String)
    (disksBackingFile srcSnapshots : JSONObject) (rebaseDisks : Bool)
    (diskinfo : JSONObject) (hok : ∀ n op, w.fails n op = none) :
    let e := migrateEnv cfg s snapshotsUri rebaseDisks diskinfo
    let snapshots := srcSnapshots.GetArray e.diskId
    let ids := snapshots.map JSONObject.asString
    let r := s.DestinationPrepareMigrate cfg w liveMigrate disksUri snapshotsUri
      disksBackingFile srcSnapshots rebaseDisks diskinfo
    r.err = none ∧
      r.trace = (planOps (prepareDirPlan w e snapshots) ++ replayOps e ids ++
        [materializeOp e liveMigrate disksUri disksBackingFile diskinfo]) ++
          finalRebaseOps e ids ∧
      (rebaseDisks = false → finalRebaseOps e ids = []) := by
  intro e snapshots ids r
  have hplan := migrate_eq_plan s cfg w liveMigrate disksUri snapshotsUri disksBackingFile
    srcSnapshots rebaseDisks diskinfo
  dsimp only at hplan
  rw [runCalls_of_ok w _ [] (fun _ _ _ => hok _ _)] at hplan
  obtain ⟨h1, herr, -⟩ := hplan
  simp only [List.nil_append] at h1
  refine ⟨herr, ?_, ?_⟩
  · show (s.DestinationPrepareMigrate cfg w liveMigrate disksUri snapshotsUri
      disksBackingFile srcSnapshots rebaseDisks diskinfo).trace = _
    rw [h1]
    unfold migratePlan
    rw [planOps_append, planOps_append, replayPlan_ops]
    have hcons : ∀ (st : Step) (l : List Step), planOps (st :: l) = st.1 :: planOps l :=
      fun _ _ => rfl
    rw [hcons, finalRebasePlan_ops]
    simp
  · intro hrd
    have hrd' : e.rebaseDisks = false := hrd
    unfold finalRebaseOps
    simp [hrd']

/-- C5, witness: without snapshots, with a template and chain rebasing, the run ends with
the rebase of the disk onto the template. -/
theorem DestinationPrepareMigrate_finalRebase_witness :
    (examplePool.DestinationPrepareMigrate exampleConfig quietWorld false
      "http://src/disks" "http://src/snapshots" (JSONObject.JSONDict [])
      (exampleSnapshots []) true exampleDescriptor).trace =
    [Op.createFromUrl { addr := 0, Id := "d1", StoragePath := "/data/pool0" }
        "http://src/disks/st1/d1" 0,
     Op.openImage "/data/pool0/d1",
     Op.rebase "/data/pool0/d1" "/opt/cloud/image_cache/tmpl-a"] :=
  (DestinationPrepareMigrate_finalRebase examplePool exampleConfig quietWorld false
    "http://src/disks" "http://src/snapshots" (JSONObject.JSONDict [])
    (exampleSnapshots []) true exampleDescriptor (fun _ _ => rfl)).2.1

/-! ## C6: the descriptor -/

theorem find?_filter_ne (kvs : List (String × JSONObject)) (key k : String) (hk : k ≠ key) :
    (kvs.filter (fun kv => kv.1 ≠ key)).find? (fun kv => kv.1 = k) =
      kvs.find? (fun kv => kv.1 = k) := by
  rw [List.find?_filter]
  congr 1
  funext a
  by_cases h : a.1 = k
  · have h1 : ¬ a.1 = key := fun h' => hk (h.symm.trans h')
    simp [h, h1, hk]
  · simp [h]

theorem find?_filter_self (kvs : List (String × JSONObject)) (key : String) :
    (kvs.filter (fun kv => kv.1 ≠ key)).find? (fun kv => kv.1 = key) = none := by
  rw [List.find?_eq_none]
  intro kv hkv
  have := (List.mem_filter.1 hkv).2
  simpa using this

theorem Get_Set_same (kvs : List (String × JSONObject)) (key : String) (v : JSONObject) :
    ((JSONObject.JSONDict kvs).Set key v).Get key = some v := by
  simp [JSONObject.Set, JSONObject.Get, List.find?_append, find?_filter_self]

theorem Get_Set_other (kvs : List (String × JSONObject)) (key k : String) (v : JSONObject)
    (hk : k ≠ key) :
    ((JSONObject.JSONDict kvs).Set key v).Get k = (JSONObject.JSONDict kvs).Get k := by
  have hne : ¬ key = k := fun h => hk h.symm
  simp only [JSONObject.Set, JSONObject.Get, List.find?_append, find?_filter_ne kvs key k hk]
  cases h : kvs.find? (fun kv => kv.1 = k) with
  | some kv => simp
  | none => simp [List.find?_cons, hne]

/-- C6: for a descriptor that is a dictionary, a run that returns nil leaves the descriptor
with `path` equal to `disk.GetPath()` and every other key as it was, and a run that returns
an error leaves the descriptor as it was. -/
theorem DestinationPrepareMigrate_descriptor (s : SLocalStorage) (cfg : HostConfig)
    (w : World) (liveMigrate : Bool) (disksUri snapshotsUri : String)
    (disksBackingFile srcSnapshots : JSONObject) (rebaseDisks : Bool)
    (kvs : List (String × JSONObject)) :
    let diskinfo := JSONObject.JSONDict kvs
    let disk := (s.CreateDisk (diskinfo.GetString "disk_id")).1
    let r := s.DestinationPrepareMigrate cfg w liveMigrate disksUri snapshotsUri
      disksBackingFile srcSnapshots rebaseDisks diskinfo
    (r.err = none →
        r.diskinfo.Get "path" = some (JSONObject.JSONString disk.GetPath) ∧
        (∀ key, key ≠ "path" → r.diskinfo.Get key = diskinfo.Get key) ∧
        r.panicked = false) ∧
      (r.err ≠ none → r.diskinfo = diskinfo) := by
  intro diskinfo disk r
  have hplan := migrate_eq_plan s cfg w liveMigrate disksUri snapshotsUri disksBackingFile
    srcSnapshots rebaseDisks diskinfo
  dsimp only at hplan
  obtain ⟨-, herr, hdesc⟩ := hplan
  rw [← herr] at hdesc
  have hpan : r.panicked = false := by
    show (s.DestinationPrepareMigrate cfg w liveMigrate disksUri snapshotsUri
      disksBackingFile srcSnapshots rebaseDisks diskinfo).panicked = false
    unfold SLocalStorage.DestinationPrepareMigrate
    dsimp only
    split
    · rfl
    · split
      · rfl
      · split
        · rfl
        · split
          · rfl
          · rfl
  constructor
  · intro h
    have hd : r.diskinfo = diskinfo.Set "path" (JSONObject.JSONString disk.GetPath) := by
      show (s.DestinationPrepareMigrate cfg w liveMigrate disksUri snapshotsUri
        disksBackingFile srcSnapshots rebaseDisks diskinfo).diskinfo = _
      rw [hdesc, if_pos h]
      rfl
    refine ⟨?_, ?_, hpan⟩
    · rw [hd]; exact Get_Set_same kvs "path" _
    · intro key hkey
      rw [hd]; exact Get_Set_other kvs "path" key _ hkey
  · intro h
    show (s.DestinationPrepareMigrate cfg w liveMigrate disksUri snapshotsUri
      disksBackingFile srcSnapshots rebaseDisks diskinfo).diskinfo = _
    rw [hdesc, if_neg h]

/-- C6, witness: the successful run of the example publishes `/data/pool0/d1` under `path`
and keeps `template_id`; the run whose first call fails returns the descriptor as given. -/
theorem DestinationPrepareMigrate_descriptor_witness :
    (examplePool.DestinationPrepareMigrate exampleConfig quietWorld false
        "http://src/disks" "http://src/snapshots" (JSONObject.JSONDict [])
        (exampleSnapshots ["s1", "s2"]) true exampleDescriptor).diskinfo.Get "path" =
      some (JSONObject.JSONString "/data/pool0/d1") ∧
    (examplePool.DestinationPrepareMigrate exampleConfig quietWorld false
        "http://src/disks" "http://src/snapshots" (JSONObject.JSONDict [])
        (exampleSnapshots ["s1", "s2"]) true exampleDescriptor).diskinfo.Get "template_id" =
      some (JSONObject.JSONString "tmpl-a") ∧
    (examplePool.DestinationPrepareMigrate exampleConfig
        (failAt 0 (GoError.msg "permission denied")) false
        "http://src/disks" "http://src/snapshots" (JSONObject.JSONDict [])
        (exampleSnapshots ["s1", "s2"]) true exampleDescriptor).diskinfo = exampleDescriptor :=
  have h1 := (DestinationPrepareMigrate_descriptor examplePool exampleConfig quietWorld false
    "http://src/disks" "http://src/snapshots" (JSONObject.JSONDict [])
    (exampleSnapshots ["s1", "s2"]) true
    [("disk_id", JSONObject.JSONString "d1"), ("template_id", JSONObject.JSONString "tmpl-a"),
     ("storage_id", JSONObject.JSONString "st1"), ("size", JSONObject.JSONInt 10)]).1
    (by decide)
  have h2 := (DestinationPrepareMigrate_descriptor examplePool exampleConfig
    (failAt 0 (GoError.msg "permission denied")) false
    "http://src/disks" "http://src/snapshots" (JSONObject.JSONDict [])
    (exampleSnapshots ["s1", "s2"]) true
    [("disk_id", JSONObject.JSONString "d1"), ("template_id", JSONObject.JSONString "tmpl-a"),
     ("storage_id", JSONObject.JSONString "st1"), ("size", JSONObject.JSONInt 10)]).2
    (by decide)
  ⟨h1.1, (h1.2.1 "template_id" (by decide)).trans rfl, h2⟩

/-! ## C7 to C10: the disk cache -/

/-- C7, counterexample: `d1` is cached and its probe fails with a plain error;
`GetDiskById` returns the cached handle together with that error, not `ErrNotFound`. -/
theorem GetDiskById_probe_failure_counterexample :
    let r := cachedPool.GetDiskById (failAt 0 (GoError.msg "Disk not found")) "d1"
    r.trace = [Op.probe { addr := 0, Id := "d1", StoragePath := "/data/pool0" }] ∧
      r.err = some (GoError.msg "Disk not found") ∧
      r.err ≠ some GoError.ErrNotFound ∧
      r.disk = some { addr := 0, Id := "d1", StoragePath := "/data/pool0" } := by
  decide

/-- C7 (amended): when the probe made by `GetDiskById` fails with `err`: if the id is not
cached, `GetDiskById` returns no handle and exactly `ErrNotFound`; if the id is cached, it
returns the cached handle together with the probe's own error `err`, which is
`ErrNotFound` only when the probe reports that. In both cases exactly one probe is made. -/
theorem GetDiskById_probe_failure (s : SLocalStorage) (w : World) (diskId : String)
    (err : GoError) (hfail : ∀ d, d.Id = diskId → w.fails 0 (Op.probe d) = some err) :
    let r := s.GetDiskById w diskId
    (∀ d, s.Disks.find? (fun d => d.Id = diskId) = some d →
        r.disk = some d ∧ r.err = some err ∧ r.trace = [Op.probe d]) ∧
      (s.Disks.find? (fun d => d.Id = diskId) = none →
        r.disk = none ∧ r.err = some GoError.ErrNotFound ∧
        r.trace = [Op.probe (NewLocalDisk s diskId)]) ∧
      (err = GoError.ErrNotFound → r.err = some GoError.ErrNotFound) := by
  intro r
  have hcached : ∀ d, s.Disks.find? (fun d => d.Id = diskId) = some d →
      r.disk = some d ∧ r.err = some err ∧ r.trace = [Op.probe d] := by
    intro d hd
    have hid : d.Id = diskId := by
      have := List.find?_some hd
      simpa using this
    have hf := hfail d hid
    simp only [r, SLocalStorage.GetDiskById, hd, World.call, List.length_nil, hf]
    simp
  have hnew : s.Disks.find? (fun d => d.Id = diskId) = none →
      r.disk = none ∧ r.err = some GoError.ErrNotFound ∧
      r.trace = [Op.probe (NewLocalDisk s diskId)] := by
    intro hd
    have hf := hfail (NewLocalDisk s diskId) rfl
    simp only [r, SLocalStorage.GetDiskById, hd, World.call, List.length_nil, hf]
    simp
  refine ⟨hcached, hnew, ?_⟩
  intro he
  cases hd : s.Disks.find? (fun d => d.Id = diskId) with
  | some d => rw [(hcached d hd).2.1, he]
  | none => exact (hnew hd).2.1

/-- C7, witness: on the empty pool the failing probe of `missing-id` gives `ErrNotFound`. -/
theorem GetDiskById_probe_failure_witness :
    (examplePool.GetDiskById (failAt 0 (GoError.msg "Disk not found")) "missing-id").err =
      some GoError.ErrNotFound :=
  ((GetDiskById_probe_failure examplePool (failAt 0 (GoError.msg "Disk not found"))
    "missing-id" (GoError.msg "Disk not found") (fun _ _ => rfl)).2.1 rfl).2.1

/-- C8: for a disk id that is not in the cache and whose probe fails, `GetDiskById` returns
no handle together with `ErrNotFound`, and the cache is the one it was before: the handle
constructed for the probe is not inserted. -/
theorem GetDiskById_not_found (s : SLocalStorage) (w : World) (diskId : String)
    (hnot : ∀ d ∈ s.Disks, d.Id ≠ diskId)
    (hfail : w.fails 0 (Op.probe (NewLocalDisk s diskId)) ≠ none) :
    let r := s.GetDiskById w diskId
    r.disk = none ∧ r.err = some GoError.ErrNotFound ∧ r.storage.Disks = s.Disks ∧
      r.storage.Path = s.Path ∧ r.trace = [Op.probe (NewLocalDisk s diskId)] := by
  intro r
  have hd : s.Disks.find? (fun d => d.Id = diskId) = none := by
    rw [List.find?_eq_none]
    intro d hmem
    simpa using hnot d hmem
  simp only [r, SLocalStorage.GetDiskById, hd, World.call, List.length_nil, if_neg hfail]
  simp

/-- C8, witness: `GetDiskById("missing-id")` on the empty pool. -/
theorem GetDiskById_not_found_witness :
    let r := examplePool.GetDiskById (failAt 0 (GoError.msg "Disk not found")) "missing-id"
    r.disk = none ∧ r.err = some GoError.ErrNotFound ∧ r.storage.Disks = [] :=
  have h := GetDiskById_not_found examplePool (failAt 0 (GoError.msg "Disk not found"))
    "missing-id" (by decide) (by decide)
  ⟨h.1, h.2.1, h.2.2.1⟩

theorem find?_append_new (disks : List SLocalDisk) (disk : SLocalDisk) (diskId : String)
    (hnone : disks.find? (fun d => d.Id = diskId) = none) (hid : disk.Id = diskId) :
    (disks ++ [disk]).find? (fun d => d.Id = diskId) = some disk := by
  rw [List.find?_append, hnone]
  simp [List.find?_cons, hid]

/-- C9: when the probe of the disk id succeeds on both calls, two consecutive calls of
`GetDiskById` return the same handle without error, hence the same path; the second call
leaves the pool, and so the cache, as the first call left it; and each call makes exactly
one collaborator call, the probe of that handle. -/
theorem GetDiskById_twice (s : SLocalStorage) (w1 w2 : World) (diskId : String)
    (hok1 : ∀ d, d.Id = diskId → w1.fails 0 (Op.probe d) = none)
    (hok2 : ∀ d, d.Id = diskId → w2.fails 0 (Op.probe d) = none) :
    let r1 := s.GetDiskById w1 diskId
    let r2 := r1.storage.GetDiskById w2 diskId
    ∃ d, d.Id = diskId ∧
      r1.disk = some d ∧ r2.disk = some d ∧ r1.err = none ∧ r2.err = none ∧
      r2.storage = r1.storage ∧ r2.storage.Disks.length = r1.storage.Disks.length ∧
      r1.trace = [Op.probe d] ∧ r2.trace = [Op.probe d] ∧
      r1.disk.map SLocalDisk.GetPath = r2.disk.map SLocalDisk.GetPath := by
  intro r1 r2
  cases hd : s.Disks.find? (fun d => d.Id = diskId) with
  | some d =>
    have hid : d.Id = diskId := by
      have := List.find?_some hd
      simpa using this
    have h1 : r1 = { disk := some d, err := none, storage := s, trace := [Op.probe d] } := by
      simp only [r1, SLocalStorage.GetDiskById, hd, World.call, List.length_nil, hok1 d hid]
      rfl
    have h2 : r2 = { disk := some d, err := none, storage := s, trace := [Op.probe d] } := by
      simp only [r2, h1, SLocalStorage.GetDiskById, hd, World.call, List.length_nil,
        hok2 d hid]
      rfl
    refine ⟨d, hid, ?_⟩
    rw [h2, h1]
    simp
  | none =>
    have hid : (NewLocalDisk s diskId).Id = diskId := rfl
    have h1 : r1 =
        { disk := some (NewLocalDisk s diskId)
          err := none
          storage :=
            { Path := s.Path
              Disks := s.Disks ++ [NewLocalDisk s diskId]
              nextAddr := s.nextAddr + 1 }
          trace := [Op.probe (NewLocalDisk s diskId)] } := by
      simp only [r1, SLocalStorage.GetDiskById, hd, World.call, List.length_nil,
        hok1 _ hid]
      rfl
    have hfind := find?_append_new s.Disks (NewLocalDisk s diskId) diskId hd hid
    have h2 : r2 =
        { disk := some (NewLocalDisk s diskId)
          err := none
          storage :=
            { Path := s.Path
              Disks := s.Disks ++ [NewLocalDisk s diskId]
              nextAddr := s.nextAddr + 1 }
          trace := [Op.probe (NewLocalDisk s diskId)] } := by
      simp only [r2, h1, SLocalStorage.GetDiskById, hfind, World.call, List.length_nil,
        hok2 _ hid]
      rfl
    refine ⟨NewLocalDisk s diskId, hid, ?_⟩
    rw [h2, h1]
    simp

/-- C9, witness: two lookups of `d1` on the empty pool, the file being there both times. -/
theorem GetDiskById_twice_witness :
    let r1 := examplePool.GetDiskById quietWorld "d1"
    let r2 := r1.storage.GetDiskById quietWorld "d1"
    ∃ d, d.Id = "d1" ∧
      r1.disk = some d ∧ r2.disk = some d ∧ r1.err = none ∧ r2.err = none ∧
      r2.storage = r1.storage ∧ r2.storage.Disks.length = r1.storage.Disks.length ∧
      r1.trace = [Op.probe d] ∧ r2.trace = [Op.probe d] ∧
      r1.disk.map SLocalDisk.GetPath = r2.disk.map SLocalDisk.GetPath :=
  GetDiskById_twice examplePool quietWorld quietWorld "d1" (fun _ _ => rfl) (fun _ _ => rfl)

/-- C10: `CreateDisk(id)` returns the handle `NewLocalDisk` constructs for the id; in a pool
whose handles were all allocated earlier that handle is none of the cached ones. It is
appended at the end of the cache: the length grows by one, the earlier entries keep their
positions, and the number of entries with this id grows by one whether or not the id was
cached. The result depends on the pool's path and allocation counter only, not on the
cache's content: no entry is looked up, and no collaborator is called (the function takes
no surroundings). -/
theorem CreateDisk_appends (s : SLocalStorage) (diskId : String)
    (halloc : s.allocated = true) :
    let r := s.CreateDisk diskId
    r.1 = NewLocalDisk s diskId ∧ r.1.Id = diskId ∧ r.1 ∉ s.Disks ∧
      r.2.Disks = s.Disks ++ [r.1] ∧
      r.2.Disks.length = s.Disks.length + 1 ∧
      (∀ i, i < s.Disks.length → r.2.Disks[i]? = s.Disks[i]?) ∧
      r.2.Disks[s.Disks.length]? = some r.1 ∧
      (r.2.Disks.filter (fun d => d.Id = diskId)).length =
        (s.Disks.filter (fun d => d.Id = diskId)).length + 1 ∧
      r.2.allocated = true ∧
      (∀ s2 : SLocalStorage, s2.Path = s.Path → s2.nextAddr = s.nextAddr →
        (s2.CreateDisk diskId).1 = r.1) := by
  intro r
  have halloc' : ∀ d ∈ s.Disks, d.addr < s.nextAddr := by
    intro d hd
    have := List.all_eq_true.1 halloc d hd
    simpa using this
  have hnot : NewLocalDisk s diskId ∉ s.Disks := by
    intro hmem
    have := halloc' _ hmem
    simp [NewLocalDisk] at this
  refine ⟨rfl, rfl, hnot, rfl, ?_, ?_, ?_, ?_, ?_, ?_⟩
  · simp [r, SLocalStorage.CreateDisk]
  · intro i hi
    simp only [r, SLocalStorage.CreateDisk]
    rw [List.getElem?_append_left hi]
  · simp only [r, SLocalStorage.CreateDisk]
    rw [List.getElem?_append_right (Nat.le_refl _)]
    simp
  · simp [r, SLocalStorage.CreateDisk, List.filter_append, NewLocalDisk]
  · show SLocalStorage.allocated _ = true
    unfold SLocalStorage.allocated
    rw [List.all_eq_true]
    intro d hd
    simp only [r, SLocalStorage.CreateDisk, List.mem_append, List.mem_singleton] at hd ⊢
    rcases hd with h | h
    · exact decide_eq_true (Nat.lt_succ_of_lt (halloc' d h))
    · subst h
      simp [NewLocalDisk]
  · intro s2 hp hn
    simp [r, SLocalStorage.CreateDisk, NewLocalDisk, hp, hn]

/-- C10, witness: creating `d1` in a pool that already caches a handle for `d1` appends a
second, different handle. -/
theorem CreateDisk_appends_witness :
    (cachedPool.CreateDisk "d1").2.Disks =
      [{ addr := 0, Id := "d1", StoragePath := "/data/pool0" },
       { addr := 1, Id := "d1", StoragePath := "/data/pool0" }] ∧
    (cachedPool.CreateDisk "d1").1 ∉ cachedPool.Disks :=
  have h := CreateDisk_appends cachedPool "d1" (by decide)
  ⟨h.2.2.2.1, h.2.2.1⟩

/-! ## Lemmas: rounding to `float64` -/

theorem roundHalfEven_intCast (n : Int) : roundHalfEven (n : ℚ) = n := by
  simp [roundHalfEven]

theorem roundHalfEven_bounds (y : ℚ) :
    ⌊y⌋ ≤ roundHalfEven y ∧ roundHalfEven y ≤ ⌊y⌋ + 1 := by
  unfold roundHalfEven
  repeat' split
  all_goals constructor <;> omega

theorem roundHalfEven_mono {a b : ℚ} (h : a ≤ b) : roundHalfEven a ≤ roundHalfEven b := by
  have hf : ⌊a⌋ ≤ ⌊b⌋ := Int.floor_mono h
  rcases lt_or_eq_of_le hf with hlt | heq
  · have h1 := (roundHalfEven_bounds a).2
    have h2 := (roundHalfEven_bounds b).1
    omega
  · have hfr : a - ⌊a⌋ ≤ b - ⌊b⌋ := by rw [heq]; linarith
    unfold roundHalfEven
    rw [heq] at hfr ⊢
    by_cases h1 : a - (⌊b⌋ : ℚ) < 1 / 2
    · rw [if_pos h1]
      repeat' split
      all_goals omega
    · rw [if_neg h1]
      have h1b : ¬ (b - (⌊b⌋ : ℚ) < 1 / 2) := by
        intro hh; exact h1 (lt_of_le_of_lt hfr hh)
      rw [if_neg h1b]
      by_cases h2 : 1 / 2 < a - (⌊b⌋ : ℚ)
      · rw [if_pos h2, if_pos (lt_of_lt_of_le h2 hfr)]
      · rw [if_neg h2]
        repeat' split
        all_goals omega


theorem ulp64_pos (x : ℚ) : 0 < ulp64 x := by
  unfold ulp64
  positivity

theorem ulp64_scale (x : ℚ) : (2 : ℚ) ^ Int.log 2 |x| = 2 ^ (52 : ℕ) * ulp64 x := by
  unfold ulp64
  rw [zpow_sub₀ (by norm_num : (2 : ℚ) ≠ 0)]
  have h : (2 : ℚ) ^ (52 : ℤ) = 2 ^ (52 : ℕ) := by norm_cast
  rw [h]
  field_simp

theorem round64_zero : round64 0 = 0 := by
  simp [round64]

theorem round64_of_ne {x : ℚ} (hx : x ≠ 0) :
    round64 x = (roundHalfEven (x / ulp64 x) : ℚ) * ulp64 x := by
  simp [round64, hx]

theorem round64_bounds {x : ℚ} (hx : 0 < x) :
    (2 : ℚ) ^ Int.log 2 x ≤ round64 x ∧ round64 x ≤ (2 : ℚ) ^ (Int.log 2 x + 1) := by
  have habs : |x| = x := abs_of_pos hx
  have hu := ulp64_pos x
  have hs := ulp64_scale x
  rw [habs] at hs
  have hlo : (2 : ℚ) ^ Int.log 2 x ≤ x := by
    have := Int.zpow_log_le_self (by norm_num : 1 < 2) hx
    simpa using this
  have hhi : x < (2 : ℚ) ^ (Int.log 2 x + 1) := by
    have := Int.lt_zpow_succ_log_self (by norm_num : 1 < 2) x
    simpa using this
  have hs2 : (2 : ℚ) ^ (Int.log 2 x + 1) = 2 ^ (53 : ℕ) * ulp64 x := by
    rw [zpow_add_one₀ (by norm_num : (2 : ℚ) ≠ 0), hs]
    ring
  have h1 : (((2 : Int) ^ (52 : ℕ) : Int) : ℚ) ≤ x / ulp64 x := by
    rw [le_div_iff₀ hu]
    have hc : (((2 : Int) ^ (52 : ℕ) : Int) : ℚ) = 2 ^ (52 : ℕ) := by norm_cast
    rw [hc, ← hs]
    exact hlo
  have h2 : x / ulp64 x ≤ (((2 : Int) ^ (53 : ℕ) : Int) : ℚ) := by
    rw [div_le_iff₀ hu]
    have hc : (((2 : Int) ^ (53 : ℕ) : Int) : ℚ) = 2 ^ (53 : ℕ) := by norm_cast
    rw [hc, ← hs2]
    exact hhi.le
  have r1 := roundHalfEven_mono h1
  have r2 := roundHalfEven_mono h2
  rw [roundHalfEven_intCast] at r1 r2
  rw [round64_of_ne hx.ne', hs, hs2]
  constructor
  · apply mul_le_mul_of_nonneg_right _ hu.le
    exact_mod_cast r1
  · apply mul_le_mul_of_nonneg_right _ hu.le
    exact_mod_cast r2

theorem round64_mono {x y : ℚ} (hx : 0 ≤ x) (h : x ≤ y) : round64 x ≤ round64 y := by
  rcases eq_or_lt_of_le hx with h0 | hpos
  · rw [← h0, round64_zero]
    rcases eq_or_lt_of_le (le_trans hx h) with hy0 | hypos
    · rw [← hy0, round64_zero]
    · exact le_trans (by positivity) (round64_bounds hypos).1
  · have hypos : 0 < y := lt_of_lt_of_le hpos h
    have hlog : Int.log 2 x ≤ Int.log 2 y := Int.log_mono_right hpos h
    rcases eq_or_lt_of_le hlog with he | hlt
    · have hu : ulp64 y = ulp64 x := by
        unfold ulp64
        rw [abs_of_pos hpos, abs_of_pos hypos, he]
      rw [round64_of_ne hpos.ne', round64_of_ne hypos.ne', hu]
      apply mul_le_mul_of_nonneg_right _ (ulp64_pos x).le
      have : x / ulp64 x ≤ y / ulp64 x := div_le_div_of_nonneg_right h (ulp64_pos x).le
      exact_mod_cast roundHalfEven_mono this
    · refine le_trans (round64_bounds hpos).2 (le_trans ?_ (round64_bounds hypos).1)
      exact zpow_le_zpow_right₀ (by norm_num) (by omega)

theorem round64_nonneg {x : ℚ} (hx : 0 ≤ x) : 0 ≤ round64 x := by
  have := round64_mono (le_refl 0) hx
  rwa [round64_zero] at this

theorem round64_of_quot {x : ℚ} (k : Int) (h : x / ulp64 x = k) : round64 x = x := by
  by_cases hx : x = 0
  · rw [hx, round64_zero]
  · rw [round64_of_ne hx, h, roundHalfEven_intCast, ← h]
    field_simp [(ulp64_pos x).ne']


theorem log2_eq {x : ℚ} (e : Int) (hx : 0 < x) (h1 : (2 : ℚ) ^ e ≤ x)
    (h2 : x < (2 : ℚ) ^ (e + 1)) : Int.log 2 |x| = e := by
  rw [abs_of_pos hx]
  have a : e ≤ Int.log 2 x :=
    (Int.zpow_le_iff_le_log (by norm_num : 1 < 2) hx).1 (by simpa using h1)
  have b : Int.log 2 x < e + 1 :=
    (Int.lt_zpow_iff_log_lt (by norm_num : 1 < 2) hx).1 (by simpa using h2)
  omega

theorem round64_intCast (n : Int) (h0 : 0 ≤ n) (h : n ≤ 2 ^ 53) : round64 (n : ℚ) = n := by
  rcases eq_or_lt_of_le h0 with hz | hpos
  · rw [← hz]
    simp [round64_zero]
  · have hx : (0 : ℚ) < n := by exact_mod_cast hpos
    have hx1 : (1 : ℚ) ≤ n := by exact_mod_cast hpos
    have hx2 : (n : ℚ) ≤ 2 ^ (53 : ℕ) := by exact_mod_cast h
    have he0 : 0 ≤ Int.log 2 (n : ℚ) :=
      (Int.zpow_le_iff_le_log (by norm_num : 1 < 2) hx).1 (by simpa using hx1)
    have he1 : Int.log 2 (n : ℚ) < 54 :=
      (Int.lt_zpow_iff_log_lt (by norm_num : 1 < 2) hx).1 (by
        have : (n : ℚ) < (2 : ℚ) ^ (54 : ℤ) := lt_of_le_of_lt hx2 (by norm_num)
        simpa using this)
    have hlo : (2 : ℚ) ^ Int.log 2 (n : ℚ) ≤ n := by
      have := Int.zpow_log_le_self (by norm_num : 1 < 2) hx
      simpa using this
    by_cases he : Int.log 2 (n : ℚ) ≤ 52
    · obtain ⟨m, hm⟩ : ∃ m : ℕ, (m : ℤ) = 52 - Int.log 2 (n : ℚ) :=
        ⟨(52 - Int.log 2 (n : ℚ)).toNat, Int.toNat_of_nonneg (by omega)⟩
      apply round64_of_quot (n * 2 ^ m)
      have hu : ulp64 (n : ℚ) = ((2 : ℚ) ^ m)⁻¹ := by
        unfold ulp64
        rw [abs_of_pos hx, ← zpow_natCast, ← zpow_neg, hm]
        congr 1
        omega
      rw [hu]
      push_cast
      field_simp
    · have he53 : Int.log 2 (n : ℚ) = 53 := by omega
      rw [he53] at hlo
      have hn : (n : ℚ) = 2 ^ (53 : ℕ) := le_antisymm hx2 (by exact_mod_cast hlo)
      apply round64_of_quot (2 ^ 52)
      have hu : ulp64 (n : ℚ) = 2 := by
        unfold ulp64
        rw [abs_of_pos hx, he53]
        norm_num
      rw [hu, hn]
      norm_num

theorem round64_one : round64 1 = 1 := by
  have := round64_intCast 1 (by norm_num) (by norm_num)
  simpa using this

theorem round64_le_one {x : ℚ} (h0 : 0 ≤ x) (h1 : x ≤ 1) : round64 x ≤ 1 := by
  have := round64_mono h0 h1
  rwa [round64_one] at this

theorem truncInt64_of_range {x : ℚ} (h0 : 0 ≤ x) (h1 : x < 2 ^ 63) : truncInt64 x = ⌊x⌋ := by
  unfold truncInt64
  rw [if_pos h0, if_pos]
  rw [Int.floor_lt]
  exact_mod_cast h1

theorem round64_2p53_3 : round64 9007199254740995 = 9007199254740996 := by
  have hlog : Int.log 2 |(9007199254740995 : ℚ)| = 53 :=
    log2_eq 53 (by norm_num) (by norm_num) (by norm_num)
  have hu : ulp64 9007199254740995 = 2 := by
    unfold ulp64
    rw [hlog]
    norm_num
  have hfl : ⌊(9007199254740995 : ℚ) / 2⌋ = 4503599627370497 := by
    rw [Int.floor_eq_iff]
    constructor <;> norm_num
  have hr : roundHalfEven ((9007199254740995 : ℚ) / 2) = 4503599627370498 := by
    unfold roundHalfEven
    rw [hfl]
    norm_num
  rw [round64_of_ne (by norm_num), hu, hr]
  norm_num

theorem round64_half : round64 (1 / 2) = 1 / 2 := by
  have hlog : Int.log 2 |(1 / 2 : ℚ)| = -1 :=
    log2_eq (-1) (by norm_num) (by norm_num) (by norm_num)
  apply round64_of_quot (2 ^ 52)
  unfold ulp64
  rw [hlog]
  norm_num

theorem round64_2p53_4 : round64 9007199254740996 = 9007199254740996 := by
  have hlog : Int.log 2 |(9007199254740996 : ℚ)| = 53 :=
    log2_eq 53 (by norm_num) (by norm_num) (by norm_num)
  apply round64_of_quot 4503599627370498
  unfold ulp64
  rw [hlog]
  norm_num

theorem round64_maxInt64 : round64 9223372036854775807 = 9223372036854775808 := by
  have hlog : Int.log 2 |(9223372036854775807 : ℚ)| = 62 :=
    log2_eq 62 (by norm_num) (by norm_num) (by norm_num)
  have hu : ulp64 9223372036854775807 = 1024 := by
    unfold ulp64
    rw [hlog]
    norm_num
  have hfl : ⌊(9223372036854775807 : ℚ) / 1024⌋ = 9007199254740991 := by
    rw [Int.floor_eq_iff]
    constructor <;> norm_num
  have hr : roundHalfEven ((9223372036854775807 : ℚ) / 1024) = 9007199254740992 := by
    unfold roundHalfEven
    rw [hfl]
    norm_num
  rw [round64_of_ne (by norm_num), hu, hr]
  norm_num

theorem round64_2p63 : round64 9223372036854775808 = 9223372036854775808 := by
  have hlog : Int.log 2 |(9223372036854775808 : ℚ)| = 63 :=
    log2_eq 63 (by norm_num) (by norm_num) (by norm_num)
  apply round64_of_quot 4503599627370496
  unfold ulp64
  rw [hlog]
  norm_num

theorem round64_ofNat_small (n : ℕ) (h : n ≤ 2 ^ 53) : round64 (n : ℚ) = n := by
  have := round64_intCast (n : Int) (by positivity) (by exact_mod_cast h)
  simpa using this

theorem usablePercent_float64_bounds (conf : KubeletConfig ℚ) (storageDev : String)
    (hn0 : 0 ≤ conf.nodeFsPercentage) (hn1 : conf.nodeFsPercentage ≤ 1)
    (hi0 : 0 ≤ conf.imageFsPercentage) (hi1 : conf.imageFsPercentage ≤ 1) :
    0 ≤ usablePercent float64Arith conf storageDev ∧
      usablePercent float64Arith conf storageDev ≤ 1 := by
  have hsub : ∀ p : ℚ, 0 ≤ p → p ≤ 1 → 0 ≤ round64 (1 - p) ∧ round64 (1 - p) ≤ 1 := by
    intro p h0 h1
    exact ⟨round64_nonneg (by linarith), round64_le_one (by linarith) (by linarith)⟩
  unfold usablePercent
  simp only [float64Arith]
  split
  · split
    · exact hsub _ hi0 hi1
    · exact ⟨by norm_num, le_refl _⟩
  · split
    · split
      · exact hsub _ hi0 hi1
      · exact hsub _ hn0 hn1
    · exact ⟨by norm_num, le_refl _⟩

theorem usablePercent_float64_antitone (conf conf2 : KubeletConfig ℚ) (storageDev : String)
    (hded : conf2.HasDedicatedImageFs = conf.HasDedicatedImageFs)
    (himgdev : conf2.ImageFsDevice = conf.ImageFsDevice)
    (hnodedev : conf2.NodeFsDevice = conf.NodeFsDevice)
    (hn : conf.nodeFsPercentage ≤ conf2.nodeFsPercentage) (hn1 : conf2.nodeFsPercentage ≤ 1)
    (hi : conf.imageFsPercentage ≤ conf2.imageFsPercentage)
    (hi1 : conf2.imageFsPercentage ≤ 1) :
    usablePercent float64Arith conf2 storageDev ≤ usablePercent float64Arith conf storageDev := by
  unfold usablePercent
  rw [hded, himgdev, hnodedev]
  simp only [float64Arith]
  split
  · split
    · exact round64_mono (by linarith) (by linarith)
    · exact le_refl _
  · split
    · apply round64_mono
      · split <;> linarith
      · repeat' split
        all_goals linarith
    · exact le_refl _

/-- The scaled value of `GetAvailSizeMb`, within `float64`'s exact integers: for a base
value between `0` and `2 ^ 53` and a factor between `0` and `1`, `int(float64(sizeMb) * f)`
is the integer part of the rounded product, which lies between `0` and the base value. -/
theorem scaled_float64 (sizeMb : Int) (f : ℚ) (hsize : 0 ≤ sizeMb) (hle : sizeMb ≤ 2 ^ 53)
    (hf0 : 0 ≤ f) (hf1 : f ≤ 1) :
    float64Arith.toInt (float64Arith.mul (float64Arith.ofInt sizeMb) f) =
        ⌊round64 ((sizeMb : ℚ) * f)⌋ ∧
      0 ≤ round64 ((sizeMb : ℚ) * f) ∧ round64 ((sizeMb : ℚ) * f) ≤ sizeMb := by
  have hs : (0 : ℚ) ≤ sizeMb := by exact_mod_cast hsize
  have h0 : 0 ≤ round64 ((sizeMb : ℚ) * f) := round64_nonneg (mul_nonneg hs hf0)
  have h1 : round64 ((sizeMb : ℚ) * f) ≤ sizeMb := by
    have := round64_mono (mul_nonneg hs hf0) (mul_le_of_le_one_right hs hf1)
    rwa [round64_intCast sizeMb hsize hle] at this
  refine ⟨?_, h0, h1⟩
  show truncInt64 (round64 (round64 (sizeMb : ℚ) * f)) = _
  rw [round64_intCast sizeMb hsize hle]
  apply truncInt64_of_range h0
  have : (sizeMb : ℚ) ≤ 2 ^ 53 := by exact_mod_cast hle
  refine lt_of_le_of_lt (le_trans h1 this) (by norm_num)

/-! ## C11 and C12: available capacity -/

/-- C11, counterexample: the image filesystem has a device of its own and the pool sits on
the node filesystem's device. The code applies no scaling and reports the base value
`1000`; the factor as stated is `1 - max(1/2, 1/4)` and gives `500`. -/
theorem GetAvailSizeMb_factor_counterexample :
    GetAvailSizeMb float64Arith 1000 (some dedicatedImageFsHost) (Except.ok "/dev/sda1") = 1000 ∧
      float64Arith.toInt (float64Arith.mul (float64Arith.ofInt 1000)
        (usablePercentAsStated float64Arith dedicatedImageFsHost "/dev/sda1")) = 500 := by
  have hdev : ¬ ("/dev/sda1" = "/dev/sdb1") := by decide
  have h1000 : round64 1000 = 1000 := by
    have := round64_ofNat_small 1000 (by norm_num)
    simpa using this
  have h500 : round64 500 = 500 := by
    have := round64_ofNat_small 500 (by norm_num)
    simpa using this
  constructor
  · have h : usablePercent float64Arith dedicatedImageFsHost "/dev/sda1" = 1 := by
      simp [usablePercent, dedicatedImageFsHost, float64Arith, hdev]
    simp only [GetAvailSizeMb, h]
    show truncInt64 (round64 (round64 ((1000 : Int) : ℚ) * 1)) = 1000
    norm_num [h1000, truncInt64]
  · have h : usablePercentAsStated float64Arith dedicatedImageFsHost "/dev/sda1" = 1 / 2 := by
      simp only [usablePercentAsStated, dedicatedImageFsHost, float64Arith, hdev, and_false,
        if_false, if_true]
      norm_num [round64_half]
    rw [h]
    show truncInt64 (round64 (round64 ((1000 : Int) : ℚ) * (1 / 2))) = 500
    norm_num [h1000, h500, truncInt64]

/-- C11 (amended): without an eviction policy `GetAvailSizeMb` is the base value; with one,
and with the pool's mount device determined, it is the base value multiplied by a factor
`f` and truncated, where `f = 1 - imageFsPercentage` when the image filesystem is dedicated
and the pool is on the image filesystem's device, `f = 1 - max(nodeFsPercentage,
imageFsPercentage)` when the image filesystem is not dedicated and the pool is on the node
filesystem's device, and `f = 1` in every other case. -/
theorem GetAvailSizeMb_factor {F : Type} (A : FloatArith F) (sizeMb : Int)
    (conf : KubeletConfig F) (storageDev : String)
    (mountDevice : Except GoError String) :
    GetAvailSizeMb A sizeMb none mountDevice = sizeMb ∧
      GetAvailSizeMb A sizeMb (some conf) (Except.ok storageDev) =
        A.toInt (A.mul (A.ofInt sizeMb)
          (if conf.HasDedicatedImageFs = true ∧ storageDev = conf.ImageFsDevice then
             A.sub A.one conf.imageFsPercentage
           else if conf.HasDedicatedImageFs = false ∧ storageDev = conf.NodeFsDevice then
             A.sub A.one (A.max conf.nodeFsPercentage conf.imageFsPercentage)
           else A.one)) := by
  refine ⟨rfl, ?_⟩
  simp only [GetAvailSizeMb, usablePercent]
  cases hd : conf.HasDedicatedImageFs <;>
    by_cases h1 : storageDev = conf.ImageFsDevice <;>
    by_cases h2 : storageDev = conf.NodeFsDevice <;> simp [h1, h2]

/-- C12, counterexample: with an eviction policy whose thresholds are zero, on a host whose
filesystems share the pool's device, the base value `2 ^ 53 + 3` is reported as
`2 ^ 53 + 4`, more than the raw free space: `float64` does not hold the base value and
rounds it up. The largest `int`, `2 ^ 63 - 1`, is rounded to `2 ^ 63` and reported as the
smallest `int`, a negative value, where the threshold one half gives `2 ^ 62`: raising the
percentage raises the result. -/
theorem GetAvailSizeMb_monotone_counterexample :
    GetAvailSizeMb float64Arith 9007199254740995 (some (sharedFsHost 0 0))
        (Except.ok "/dev/sda1") = 9007199254740996 ∧
      GetAvailSizeMb float64Arith 9223372036854775807 (some (sharedFsHost 0 0))
        (Except.ok "/dev/sda1") = -9223372036854775808 ∧
      GetAvailSizeMb float64Arith 9223372036854775807 (some (sharedFsHost (1 / 2) 0))
        (Except.ok "/dev/sda1") = 4611686018427387904 := by
  have h : usablePercent float64Arith (sharedFsHost 0 0) "/dev/sda1" = 1 := by
    simp [usablePercent, sharedFsHost, float64Arith, round64_one]
  have h2 : usablePercent float64Arith (sharedFsHost (1 / 2) 0) "/dev/sda1" = 1 / 2 := by
    simp only [usablePercent, sharedFsHost, float64Arith]
    norm_num [round64_half]
  have h62 : round64 4611686018427387904 = 4611686018427387904 := by
    have hlog : Int.log 2 |(4611686018427387904 : ℚ)| = 62 :=
      log2_eq 62 (by norm_num) (by norm_num) (by norm_num)
    apply round64_of_quot 4503599627370496
    unfold ulp64
    rw [hlog]
    norm_num
  refine ⟨?_, ?_, ?_⟩
  · simp only [GetAvailSizeMb, h]
    show truncInt64 (round64 (round64 ((9007199254740995 : Int) : ℚ) * 1)) = 9007199254740996
    norm_num [round64_2p53_3, round64_2p53_4, truncInt64]
  · simp only [GetAvailSizeMb, h]
    show truncInt64 (round64 (round64 ((9223372036854775807 : Int) : ℚ) * 1)) = _
    norm_num [round64_maxInt64, round64_2p63, truncInt64]
  · simp only [GetAvailSizeMb, h2]
    show truncInt64 (round64 (round64 ((9223372036854775807 : Int) : ℚ) * (1 / 2))) = _
    norm_num [round64_maxInt64, h62, truncInt64]

/-- C12 (amended): for a base value between `0` and `2 ^ 53`, the integers `float64` holds
exactly, and a fixed device configuration, raising the eviction percentages within `[0, 1]`
(one of them or both) does not raise `GetAvailSizeMb`, and every result lies between `0`
and the base value; without an eviction policy the result is the base value. -/
theorem GetAvailSizeMb_monotone (sizeMb : Int) (conf conf2 : KubeletConfig ℚ)
    (mountDevice : Except GoError String)
    (hsize : 0 ≤ sizeMb) (hle : sizeMb ≤ 2 ^ 53)
    (hded : conf2.HasDedicatedImageFs = conf.HasDedicatedImageFs)
    (himgdev : conf2.ImageFsDevice = conf.ImageFsDevice)
    (hnodedev : conf2.NodeFsDevice = conf.NodeFsDevice)
    (hn0 : 0 ≤ conf.nodeFsPercentage) (hn : conf.nodeFsPercentage ≤ conf2.nodeFsPercentage)
    (hn1 : conf2.nodeFsPercentage ≤ 1)
    (hi0 : 0 ≤ conf.imageFsPercentage)
    (hi : conf.imageFsPercentage ≤ conf2.imageFsPercentage)
    (hi1 : conf2.imageFsPercentage ≤ 1) :
    GetAvailSizeMb float64Arith sizeMb (some conf2) mountDevice ≤
        GetAvailSizeMb float64Arith sizeMb (some conf) mountDevice ∧
      0 ≤ GetAvailSizeMb float64Arith sizeMb (some conf2) mountDevice ∧
      0 ≤ GetAvailSizeMb float64Arith sizeMb (some conf) mountDevice ∧
      GetAvailSizeMb float64Arith sizeMb (some conf) mountDevice ≤ sizeMb ∧
      GetAvailSizeMb float64Arith sizeMb none mountDevice = sizeMb := by
  cases mountDevice with
  | error err => exact ⟨le_refl _, hsize, hsize, le_refl _, rfl⟩
  | ok storageDev =>
    have hs : (0 : ℚ) ≤ sizeMb := by exact_mod_cast hsize
    have hmono := usablePercent_float64_antitone conf conf2 storageDev hded himgdev hnodedev
      hn hn1 hi hi1
    have hb := usablePercent_float64_bounds conf storageDev hn0 (le_trans hn hn1) hi0
      (le_trans hi hi1)
    have hb2 := usablePercent_float64_bounds conf2 storageDev (le_trans hn0 hn) hn1
      (le_trans hi0 hi) hi1
    have e1 := scaled_float64 sizeMb _ hsize hle hb.1 hb.2
    have e2 := scaled_float64 sizeMb _ hsize hle hb2.1 hb2.2
    simp only [GetAvailSizeMb]
    rw [e1.1, e2.1]
    refine ⟨?_, ?_, ?_, ?_, trivial⟩
    · exact Int.floor_mono
        (round64_mono (mul_nonneg hs hb2.1) (mul_le_mul_of_nonneg_left hmono hs))
    · exact Int.floor_nonneg.2 e2.2.1
    · exact Int.floor_nonneg.2 e1.2.1
    · exact Int.floor_le_iff.2 (lt_of_le_of_lt e1.2.2 (by linarith))

/-- C12, witness: base value `1000` on a host whose filesystems share the pool's device;
raising the node threshold from one quarter to one half does not raise the result, which
stays within the base value. -/
theorem GetAvailSizeMb_monotone_witness :
    GetAvailSizeMb float64Arith 1000 (some (sharedFsHost (1 / 2) (1 / 4)))
        (Except.ok "/dev/sda1") ≤
      GetAvailSizeMb float64Arith 1000 (some (sharedFsHost (1 / 4) (1 / 4)))
        (Except.ok "/dev/sda1") ∧
    GetAvailSizeMb float64Arith 1000 (some (sharedFsHost (1 / 4) (1 / 4)))
        (Except.ok "/dev/sda1") ≤ 1000 :=
  have h := GetAvailSizeMb_monotone 1000
    (sharedFsHost (1 / 4) (1 / 4)) (sharedFsHost (1 / 2) (1 / 4)) (Except.ok "/dev/sda1")
    (by norm_num) (by norm_num) rfl rfl rfl
    (by norm_num [sharedFsHost]) (by norm_num [sharedFsHost])
    (by norm_num [sharedFsHost]) (by norm_num [sharedFsHost])
    (by norm_num [sharedFsHost]) (by norm_num [sharedFsHost])
  ⟨h.1, h.2.2.2.1⟩

/-! ## C13 and C14: accessibility of the pool root -/

/-- C13: when the probe's first value reaches the channel before the timer, `Accessible`
returns that value, at that time. It is nil exactly when the pool root exists or was
created, is a directory and is writable; it is the `mkdir` error when the path is absent
and cannot be created, else the not-a-directory error when the root is not a directory
(writable or not), else the not-writable error. -/
theorem Accessible_delivered (s : SLocalStorage) (w : AccessWorld) (t : Nat)
    (v : Option GoError) (hsend : (accessProbe w s.Path).head? = some (t, v))
    (ht : t < accessDeadline) :
    s.Accessible w = (v, t) ∧
      (v = none ↔
        w.rootReady ∧ w.IsDir.value? = some true ∧ w.Writable.value? = some true) ∧
      (∀ err, w.Exists.value? = some false → w.mkdir.value? = some (some err) →
        v = some err) ∧
      (w.rootReady → w.IsDir.value? = some false → v = some (notDirectoryError s.Path)) ∧
      (w.rootReady → w.IsDir.value? = some true → w.Writable.value? = some false →
        v = some (notWritableError s.Path)) := by
  refine ⟨?_, ?_⟩
  · simp only [SLocalStorage.Accessible, hsend]
    rw [if_pos (Or.inl ht)]
  · rcases w with ⟨ex, mk, dir, wr, cf⟩
    rcases ex with _ | ⟨t0, _ | _⟩ <;> rcases mk with _ | ⟨t1, _ | e⟩ <;>
      rcases dir with _ | ⟨t2, _ | _⟩ <;> rcases wr with _ | ⟨t3, _ | _⟩ <;>
      simp_all [accessProbe, accessChecks, AccessWorld.rootReady, Answer.value?]
    all_goals
      obtain ⟨-, rfl⟩ := hsend
      simp

/-- C13, witness: the root is absent, `mkdir` succeeds, and the path is then neither a
directory nor writable; every call takes five milliseconds. The result is the
not-a-directory error, delivered after fifteen milliseconds. -/
theorem Accessible_delivered_witness :
    examplePool.Accessible (answering 5 false none false false) =
      (some (GoError.msg "path /data/pool0 isn't directory"), 15) :=
  (Accessible_delivered examplePool (answering 5 false none false false) 15
    (some (GoError.msg "path /data/pool0 isn't directory")) (by decide) (by decide)).1

theorem accessProbe_of_stalls (w : AccessWorld) (path : String) (h : w.stalls = true) :
    accessProbe w path = [] := by
  rcases w with ⟨ex, mk, dir, wr, cf⟩
  rcases ex with _ | ⟨t0, _ | _⟩ <;> rcases mk with _ | ⟨t1, _ | e⟩ <;>
    rcases dir with _ | ⟨t2, _ | _⟩ <;> rcases wr with _ | ⟨t3, _ | _⟩ <;>
    simp_all [accessProbe, accessChecks, AccessWorld.stalls]

/-- C14: when a filesystem call of the probe never returns before the probe has sent
anything, nothing is ever sent on the channel, and `Accessible` returns when the timer
fires, after ten seconds, with exactly `ErrStorageTimeout`: not nil, not the
not-a-directory error and not the not-writable error. -/
theorem Accessible_timeout (s : SLocalStorage) (w : AccessWorld) (hstall : w.stalls = true) :
    accessProbe w s.Path = [] ∧
      s.Accessible w = (some GoError.ErrStorageTimeout, accessDeadline) ∧
      accessDeadline = 10 * 1000 ∧
      (s.Accessible w).1 ≠ none ∧
      (s.Accessible w).1 ≠ some (notDirectoryError s.Path) ∧
      (s.Accessible w).1 ≠ some (notWritableError s.Path) := by
  have hprobe := accessProbe_of_stalls w s.Path hstall
  have hacc : s.Accessible w = (some GoError.ErrStorageTimeout, accessDeadline) := by
    simp [SLocalStorage.Accessible, hprobe]
  refine ⟨hprobe, hacc, rfl, ?_, ?_, ?_⟩
  · rw [hacc]; simp
  · rw [hacc]; simp [notDirectoryError]
  · rw [hacc]; simp [notWritableError]

/-- C14, witness: the root exists and `IsDir` never returns. -/
theorem Accessible_timeout_witness :
    examplePool.Accessible hangingWorld = (some GoError.ErrStorageTimeout, 10000) :=
  (Accessible_timeout examplePool hangingWorld (by decide)).2.1

/-! ## Lemmas: the calls of an export -/

theorem openAndUpload_trace (w : ExportWorld) (tr : List ExportOp) (imageId imagePath : String) :
    ∃ seg, (openAndUpload w tr imageId imagePath).1 = tr ++ seg ∧
      seg <+: [ExportOp.osOpen imagePath, ExportOp.stat imagePath,
        ExportOp.upload (uploadParams w.deploy imageId) w.fileSize] ∧
      ((openAndUpload w tr imageId imagePath).2 = none →
        seg = [ExportOp.osOpen imagePath, ExportOp.stat imagePath,
          ExportOp.upload (uploadParams w.deploy imageId) w.fileSize]) := by
  simp only [openAndUpload, ExportWorld.call]
  cases h1 : w.fails tr.length (ExportOp.osOpen imagePath) with
  | some err => exact ⟨[ExportOp.osOpen imagePath], rfl, ⟨_, rfl⟩, by simp⟩
  | none =>
    simp only []
    cases h2 : w.fails (tr ++ [ExportOp.osOpen imagePath]).length (ExportOp.stat imagePath) with
    | some err =>
      exact ⟨[ExportOp.osOpen imagePath, ExportOp.stat imagePath], by simp, ⟨_, rfl⟩, by simp⟩
    | none =>
      exact ⟨[ExportOp.osOpen imagePath, ExportOp.stat imagePath,
        ExportOp.upload (uploadParams w.deploy imageId) w.fileSize], by simp,
        List.prefix_refl _, fun _ => rfl⟩

theorem prefix_cons_of_prefix {α : Type} (a : α) (l1 l2 : List α) (h : l1 <+: l2) :
    a :: l1 <+: a :: l2 := by
  obtain ⟨t, ht⟩ := h
  exact ⟨t, by simp [ht]⟩

theorem prefix_append_of_prefix {α : Type} (p l1 l2 : List α) (h : l1 <+: l2) :
    p ++ l1 <+: p ++ l2 := by
  obtain ⟨t, ht⟩ := h
  exact ⟨t, by simp [← ht]⟩

/-- The calls of `saveToGlance` are a prefix of `exportSteps`, and all of them when it
returns nil. -/
theorem saveToGlance_trace (w : ExportWorld) (tr : List ExportOp) (imageId imagePath : String)
    (compress : Bool) (format : String) :
    ∃ seg, (saveToGlance w tr imageId imagePath compress format).1 = tr ++ seg ∧
      seg <+: exportSteps w imageId imagePath compress format ∧
      ((saveToGlance w tr imageId imagePath compress format).2 = none →
        seg = exportSteps w imageId imagePath compress format) := by
  simp only [saveToGlance, ExportWorld.call, exportSteps]
  cases h1 : w.fails tr.length (ExportOp.deploySaveToGlance imagePath compress) with
  | some err =>
    exact ⟨[ExportOp.deploySaveToGlance imagePath compress], rfl, ⟨_, rfl⟩, by simp⟩
  | none =>
    simp only []
    cases compress with
    | false =>
      obtain ⟨seg, hseg, hpre, hall⟩ := openAndUpload_trace w
        (tr ++ [ExportOp.deploySaveToGlance imagePath false]) imageId imagePath
      refine ⟨ExportOp.deploySaveToGlance imagePath false :: seg, ?_, ?_, ?_⟩
      · simpa using hseg
      · simpa using prefix_cons_of_prefix (ExportOp.deploySaveToGlance imagePath false) _ _ hpre
      · intro h
        have := hall (by simpa using h)
        simp [this]
    | true =>
      simp only [if_true]
      cases h2 : w.fails (tr ++ [ExportOp.deploySaveToGlance imagePath true]).length
          (ExportOp.newQemuImage imagePath) with
      | some err =>
        exact ⟨[ExportOp.deploySaveToGlance imagePath true, ExportOp.newQemuImage imagePath],
          by simp, ⟨_, rfl⟩, by simp⟩
      | none =>
        simp only []
        by_cases hq : (if format.length = 0 then w.DefaultImageSaveFormat else format) = "qcow2"
        · simp only [hq, if_true]
          cases h3 : w.fails (tr ++ [ExportOp.deploySaveToGlance imagePath true] ++
              [ExportOp.newQemuImage imagePath]).length
              (ExportOp.convert2Qcow2 imagePath true) with
          | some err =>
            exact ⟨[ExportOp.deploySaveToGlance imagePath true,
              ExportOp.newQemuImage imagePath, ExportOp.convert2Qcow2 imagePath true],
              by simp, ⟨_, rfl⟩, by simp⟩
          | none =>
            simp only []
            obtain ⟨seg, hseg, hpre, hall⟩ := openAndUpload_trace w
              (tr ++ [ExportOp.deploySaveToGlance imagePath true] ++
                [ExportOp.newQemuImage imagePath] ++
                [ExportOp.convert2Qcow2 imagePath true]) imageId imagePath
            refine ⟨[ExportOp.deploySaveToGlance imagePath true,
              ExportOp.newQemuImage imagePath, ExportOp.convert2Qcow2 imagePath true] ++ seg,
              ?_, ?_, ?_⟩
            · simpa using hseg
            · simpa using prefix_append_of_prefix
                [ExportOp.deploySaveToGlance imagePath true, ExportOp.newQemuImage imagePath,
                  ExportOp.convert2Qcow2 imagePath true] _ _ hpre
            · intro h
              have := hall (by simpa using h)
              simp [this]
        · simp only [hq, if_false]
          cases h3 : w.fails (tr ++ [ExportOp.deploySaveToGlance imagePath true] ++
              [ExportOp.newQemuImage imagePath]).length
              (ExportOp.convert2Vmdk imagePath true) with
          | some err =>
            exact ⟨[ExportOp.deploySaveToGlance imagePath true,
              ExportOp.newQemuImage imagePath, ExportOp.convert2Vmdk imagePath true],
              by simp, ⟨_, rfl⟩, by simp⟩
          | none =>
            simp only []
            obtain ⟨seg, hseg, hpre, hall⟩ := openAndUpload_trace w
              (tr ++ [ExportOp.deploySaveToGlance imagePath true] ++
                [ExportOp.newQemuImage imagePath] ++
                [ExportOp.convert2Vmdk imagePath true]) imageId imagePath
            refine ⟨[ExportOp.deploySaveToGlance imagePath true,
              ExportOp.newQemuImage imagePath, ExportOp.convert2Vmdk imagePath true] ++ seg,
              ?_, ?_, ?_⟩
            · simpa using hseg
            · simpa using prefix_append_of_prefix
                [ExportOp.deploySaveToGlance imagePath true, ExportOp.newQemuImage imagePath,
                  ExportOp.convert2Vmdk imagePath true] _ _ hpre
            · intro h
              have := hall (by simpa using h)
              simp [this]

theorem exportSteps_kinds (w : ExportWorld) (imageId imagePath : String) (compress : Bool)
    (format : String) :
    ∀ op ∈ exportSteps w imageId imagePath compress format,
      op.isUpdateStatus = false ∧ op.isCacheHandling = false := by
  intro op hop
  simp only [exportSteps, List.mem_cons, List.mem_append, List.mem_singleton,
    List.not_mem_nil, or_false] at hop
  rcases hop with h | h | h | h | h
  · subst h; exact ⟨rfl, rfl⟩
  · split at h
    · simp only [List.mem_cons, List.mem_singleton, List.not_mem_nil, or_false] at h
      rcases h with h | h
      · subst h; exact ⟨rfl, rfl⟩
      · subst h
        repeat' split
        all_goals exact ⟨rfl, rfl⟩
    · simp at h
  · subst h; exact ⟨rfl, rfl⟩
  · subst h; exact ⟨rfl, rfl⟩
  · subst h; exact ⟨rfl, rfl⟩

theorem cacheHandlingOps_kinds (w : ExportWorld) (imageId imagePath : String) :
    ∀ op ∈ cacheHandlingOps w imageId imagePath,
      op.isUpdateStatus = false ∧ op.isCacheHandling = true := by
  intro op hop
  unfold cacheHandlingOps at hop
  split at hop
  · simp only [List.mem_singleton] at hop
    subst hop; exact ⟨rfl, rfl⟩
  · simp only [List.mem_cons, List.mem_singleton, List.not_mem_nil, or_false] at hop
    rcases hop with h | h | h <;> subst h <;> exact ⟨rfl, rfl⟩

theorem handleSavedImage_eq (w : ExportWorld) (tr : List ExportOp) (imageId imagePath : String) :
    handleSavedImage w tr imageId imagePath =
      (tr ++ cacheHandlingOps w imageId imagePath,
        if w.ImagecacheId.length > 0 then w.fails tr.length (ExportOp.rm imagePath)
        else none) := by
  unfold handleSavedImage cacheHandlingOps
  split
  · simp [ExportWorld.call]
  · simp [ExportWorld.call]

theorem killedParams_eq (reason : String) :
    setParam (setParam [] "status" "killed") "reason" reason =
      [("status", "killed"), ("reason", reason)] := by
  have h : ¬ ("status" = "reason") := by decide
  simp [setParam, h]

/-- The calls of `SaveToGlance` on a dictionary: the calls of the export, then the failure
report if the export failed, then the handling of the exported file; the returned error is
the outcome of `rm -f` when the image-cache identifier is not empty, and nil otherwise. -/
theorem SaveToGlance_trace (w : ExportWorld) (kvs : List (String × JSONObject)) :
    let params := JSONObject.JSONDict kvs
    let imageId := params.GetString "image_id"
    let imagePath := params.GetString "image_path"
    let exported := saveToGlance w [] imageId imagePath (QueryBoolean params "compress" true)
      (params.GetString "format")
    SaveToGlance w params =
      (exported.1 ++ killedReport imageId exported.2 ++ cacheHandlingOps w imageId imagePath,
        if w.ImagecacheId.length > 0 then
          w.fails (exported.1 ++ killedReport imageId exported.2).length (ExportOp.rm imagePath)
        else none) := by
  intro params imageId imagePath exported
  have hd : params.isDict = true := rfl
  simp only [SaveToGlance, hd, Bool.true_eq_false, if_false]
  obtain ⟨tr, err, hexp⟩ : ∃ a b, saveToGlance w [] (params.GetString "image_id")
      (params.GetString "image_path") (QueryBoolean params "compress" true)
      (params.GetString "format") = (a, b) := ⟨_, _, rfl⟩
  have hexp' : exported = (tr, err) := hexp
  rw [hexp']
  simp only [hexp]
  cases err with
  | none => simp [handleSavedImage_eq, killedReport, imageId, imagePath]
  | some e =>
    simp [handleSavedImage_eq, killedReport, onSaveToGlanceFailed, ExportWorld.call,
      killedParams_eq, imageId, imagePath]

theorem saveToGlance_kinds (w : ExportWorld) (imageId imagePath : String) (compress : Bool)
    (format : String) :
    ∀ op ∈ (saveToGlance w [] imageId imagePath compress format).1,
      op.isUpdateStatus = false ∧ op.isCacheHandling = false := by
  obtain ⟨seg, hseg, hpre, -⟩ := saveToGlance_trace w [] imageId imagePath compress format
  intro op hop
  rw [hseg, List.nil_append] at hop
  exact exportSteps_kinds w imageId imagePath compress format op (hpre.subset hop)

/-! ## C15: the killed report -/

/-- C15: for an export request that is a dictionary, the calls of `SaveToGlance` contain a
status report to the image registry exactly when the export (`saveToGlance`) failed; the
report is then the single call `update-status` for the request's image id with status
`killed` and the error's message as reason, and after a successful export there is no
such call. -/
theorem SaveToGlance_killed_report (w : ExportWorld) (kvs : List (String × JSONObject)) :
    let params := JSONObject.JSONDict kvs
    let imageId := params.GetString "image_id"
    let exported := saveToGlance w [] imageId (params.GetString "image_path")
      (QueryBoolean params "compress" true) (params.GetString "format")
    (SaveToGlance w params).1.filter ExportOp.isUpdateStatus =
        (match exported.2 with
         | some err =>
           [ExportOp.updateStatus imageId [("status", "killed"), ("reason", err.Error)]]
         | none => []) ∧
      ((∃ op ∈ (SaveToGlance w params).1, op.isUpdateStatus = true) ↔ exported.2 ≠ none) := by
  intro params imageId exported
  have htrace := SaveToGlance_trace w kvs
  dsimp only at htrace
  have h1 : (SaveToGlance w params).1 = exported.1 ++ killedReport imageId exported.2 ++
      cacheHandlingOps w imageId (params.GetString "image_path") := by
    show (SaveToGlance w (JSONObject.JSONDict kvs)).1 = _
    rw [htrace]
  have hfilter : (SaveToGlance w params).1.filter ExportOp.isUpdateStatus =
      killedReport imageId exported.2 := by
    have hA : exported.1.filter ExportOp.isUpdateStatus = [] :=
      List.filter_eq_nil_iff.2 (fun op hop => by
        simp [(saveToGlance_kinds w _ _ _ _ op hop).1])
    have hC : (cacheHandlingOps w imageId (params.GetString "image_path")).filter
        ExportOp.isUpdateStatus = [] :=
      List.filter_eq_nil_iff.2 (fun op hop => by
        simp [(cacheHandlingOps_kinds w _ _ op hop).1])
    have hK : (killedReport imageId exported.2).filter ExportOp.isUpdateStatus =
        killedReport imageId exported.2 := by
      cases exported.2 <;> rfl
    rw [h1, List.filter_append, List.filter_append, hA, hK, hC]
    simp
  constructor
  · rw [hfilter]
    cases exported.2 <;> rfl
  · have hmem : (∃ op ∈ (SaveToGlance w params).1, op.isUpdateStatus = true) ↔
        (SaveToGlance w params).1.filter ExportOp.isUpdateStatus ≠ [] := by
      rw [Ne, List.filter_eq_nil_iff]
      push_neg
      rfl
    rw [hmem, hfilter]
    cases exported.2 <;> simp [killedReport]

/-! ## C16: the error `SaveToGlance` returns -/

/-- C16, counterexample: the upload fails, so the export fails with `upload failed`, and
the `killed` report is made; `SaveToGlance` then removes the file and returns nil. -/
theorem SaveToGlance_returns_counterexample :
    (saveToGlance (failingUpload "cache-1") [] "img-1" "/tmp/img-1" true "").2 =
        some (GoError.msg "upload failed") ∧
      ExportOp.updateStatus "img-1" [("status", "killed"), ("reason", "upload failed")] ∈
        (SaveToGlance (failingUpload "cache-1") (exportRequest "true" "")).1 ∧
      (SaveToGlance (failingUpload "cache-1") (exportRequest "true" "")).2 = none := by
  decide

/-- C16 (amended): for an export request that is a dictionary, whether or not the export
failed, `SaveToGlance` goes on to handle the exported file and returns the outcome of that
handling: nil when the image-cache identifier is empty, and the result of the last call,
`rm -f` on the image path, when it is not. The export's error is not returned, and neither
the export's error nor a failure of the `killed` report changes that value. -/
theorem SaveToGlance_returns (w : ExportWorld) (kvs : List (String × JSONObject)) :
    let params := JSONObject.JSONDict kvs
    let imagePath := params.GetString "image_path"
    let r := SaveToGlance w params
    (w.ImagecacheId = "" → r.2 = none) ∧
      (w.ImagecacheId ≠ "" →
        r.1.getLast? = some (ExportOp.rm imagePath) ∧
        r.2 = w.fails (r.1.length - 1) (ExportOp.rm imagePath)) := by
  intro params imagePath r
  have htrace := SaveToGlance_trace w kvs
  dsimp only at htrace
  have hr : r = _ := htrace
  constructor
  · intro hid
    have h0 : ¬ (w.ImagecacheId.length > 0) := by simp [hid]
    rw [hr]
    simp only [h0, if_false]
  · intro hid
    have h1 : w.ImagecacheId.length > 0 := (string_length_pos_iff _).2 hid
    rw [hr]
    simp only [cacheHandlingOps, h1, if_true]
    constructor
    · simp [imagePath, params]
    · simp [imagePath, params]

/-- C16, witness: with the cache identifier `cache-1` and a failing upload the returned
error is the outcome of `rm -f`, here nil. -/
theorem SaveToGlance_returns_witness :
    (SaveToGlance (failingUpload "cache-1") (exportRequest "true" "")).1.getLast? =
        some (ExportOp.rm "/tmp/img-1") ∧
      (SaveToGlance (failingUpload "cache-1") (exportRequest "true" "")).2 =
        (failingUpload "cache-1").fails
          ((SaveToGlance (failingUpload "cache-1") (exportRequest "true" "")).1.length - 1)
          (ExportOp.rm "/tmp/img-1") :=
  (SaveToGlance_returns (failingUpload "cache-1")
    [("image_id", JSONObject.JSONString "img-1"),
     ("image_path", JSONObject.JSONString "/tmp/img-1"),
     ("compress", JSONObject.JSONString "true"),
     ("format", JSONObject.JSONString "")]).2 (by decide)

/-! ## C17: the handling of the exported file -/

/-- The calls by which `SaveToGlance` handles the exported file, for an export request
that is a dictionary: they end the run, whatever the export returned, and no other such
call is made. They are `rm -f` of the file when `imagecacheManager.GetId()` is not empty,
and otherwise the move to `cachePath/imageId`, `LoadImageCache` and the announcement, which
is given that empty identifier. -/
theorem SaveToGlance_handling (w : ExportWorld) (kvs : List (String × JSONObject)) :
    let params := JSONObject.JSONDict kvs
    let imageId := params.GetString "image_id"
    let imagePath := params.GetString "image_path"
    let dstPath := pathJoin [w.ImagecachePath, imageId]
    let handling :=
      if w.ImagecacheId.length > 0 then [ExportOp.rm imagePath]
      else [ExportOp.mv imagePath dstPath, ExportOp.loadImageCache imageId,
            ExportOp.remoteCacheImage w.ImagecacheId imageId "ready" dstPath]
    (SaveToGlance w params).1.filter ExportOp.isCacheHandling = handling ∧
      ∃ pre, (SaveToGlance w params).1 = pre ++ handling := by
  intro params imageId imagePath dstPath handling
  have htrace := SaveToGlance_trace w kvs
  dsimp only at htrace
  have hh : handling = cacheHandlingOps w imageId imagePath := rfl
  have h1 : (SaveToGlance w params).1 =
      (saveToGlance w [] imageId imagePath (QueryBoolean params "compress" true)
        (params.GetString "format")).1 ++
      killedReport imageId (saveToGlance w [] imageId imagePath
        (QueryBoolean params "compress" true) (params.GetString "format")).2 ++
      cacheHandlingOps w imageId imagePath := by
    show (SaveToGlance w (JSONObject.JSONDict kvs)).1 = _
    rw [htrace]
  have hA : (saveToGlance w [] imageId imagePath (QueryBoolean params "compress" true)
      (params.GetString "format")).1.filter ExportOp.isCacheHandling = [] :=
    List.filter_eq_nil_iff.2 (fun op hop => by
      simp [(saveToGlance_kinds w _ _ _ _ op hop).2])
  have hK : (killedReport imageId (saveToGlance w [] imageId imagePath
      (QueryBoolean params "compress" true) (params.GetString "format")).2).filter
      ExportOp.isCacheHandling = [] := by
    cases (saveToGlance w [] imageId imagePath (QueryBoolean params "compress" true)
      (params.GetString "format")).2 <;> rfl
  have hC : (cacheHandlingOps w imageId imagePath).filter ExportOp.isCacheHandling =
      cacheHandlingOps w imageId imagePath :=
    List.filter_eq_self.2 (fun op hop => (cacheHandlingOps_kinds w _ _ op hop).2)
  refine ⟨?_, ⟨_, by rw [h1, hh]⟩⟩
  rw [h1, List.filter_append, List.filter_append, hA, hK, hC, hh]
  simp

/-- C17: the code at the failing inputs, two exports that succeed. With the image-cache
identifier empty the exported file is not discarded: it is moved to
`/opt/cloud/image_cache/img-1`, the cache is asked to load `img-1`, and `ready` is announced
for the storage cache with the empty identifier. With the identifier `cache-1` the file is
removed, and nothing is moved, loaded or announced. The claim has it the other way round
on both inputs. -/
theorem SaveToGlance_cache_polarity :
    (saveToGlance (quietExport "") [] "img-1" "/tmp/img-1" true "").2 = none ∧
      (SaveToGlance (quietExport "") (exportRequest "true" "")).1.filter
          ExportOp.isCacheHandling =
        [ExportOp.mv "/tmp/img-1" "/opt/cloud/image_cache/img-1",
         ExportOp.loadImageCache "img-1",
         ExportOp.remoteCacheImage "" "img-1" "ready" "/opt/cloud/image_cache/img-1"] ∧
      cacheHandlingAsStated (quietExport "") "img-1" "/tmp/img-1" =
        [ExportOp.rm "/tmp/img-1"] ∧
      (saveToGlance (quietExport "cache-1") [] "img-1" "/tmp/img-1" true "").2 = none ∧
      (SaveToGlance (quietExport "cache-1") (exportRequest "true" "")).1.filter
          ExportOp.isCacheHandling = [ExportOp.rm "/tmp/img-1"] ∧
      cacheHandlingAsStated (quietExport "cache-1") "img-1" "/tmp/img-1" =
        [ExportOp.mv "/tmp/img-1" "/opt/cloud/image_cache/img-1",
         ExportOp.loadImageCache "img-1",
         ExportOp.remoteCacheImage "cache-1" "img-1" "ready"
           "/opt/cloud/image_cache/img-1"] := by
  decide

/-! ## C18: conversion -/

/-- C18, counterexample: the request names the format `qcow2` and sets `compress` to
false; the export succeeds without any conversion. -/
theorem saveToGlance_convert_counterexample :
    QueryBoolean (exportRequest "false" "qcow2") "compress" true = false ∧
      (exportRequest "false" "qcow2").GetString "format" = "qcow2" ∧
      (saveToGlance (quietExport "cache-1") [] "img-1" "/tmp/img-1" false "qcow2").2 = none ∧
      (saveToGlance (quietExport "cache-1") [] "img-1" "/tmp/img-1" false "qcow2").1.filter
        ExportOp.isConvert = [] := by
  decide

/-- C18 (amended): when every step succeeds, `saveToGlance` converts the disk exactly when
`compress` is true: to qcow2 when the effective format (the requested format, or the
configured default when the requested format is empty) is `qcow2`, and to vmdk otherwise;
with `compress` false no conversion is made, whatever format the request names. -/
theorem saveToGlance_convert (w : ExportWorld) (imageId imagePath : String) (compress : Bool)
    (format : String) (hok : ∀ n op, w.fails n op = none) :
    let r := saveToGlance w [] imageId imagePath compress format
    let effective := if format.length = 0 then w.DefaultImageSaveFormat else format
    r.2 = none ∧
      r.1.filter ExportOp.isConvert =
        (if compress = true then
           [if effective = "qcow2" then ExportOp.convert2Qcow2 imagePath true
            else ExportOp.convert2Vmdk imagePath true]
         else []) := by
  intro r effective
  have herr : r.2 = none := by
    simp only [r, saveToGlance, openAndUpload, ExportWorld.call, hok]
    cases compress
    · simp
    · simp only [if_true]
      repeat' split
      all_goals rfl
  obtain ⟨seg, hseg, -, hall⟩ := saveToGlance_trace w [] imageId imagePath compress format
  have hseg' : r.1 = exportSteps w imageId imagePath compress format := by
    show (saveToGlance w [] imageId imagePath compress format).1 = _
    rw [hseg, hall herr, List.nil_append]
  refine ⟨herr, ?_⟩
  rw [hseg']
  unfold exportSteps
  cases compress with
  | false => rfl
  | true =>
    simp only [if_true]
    by_cases hq : effective = "qcow2"
    · have hq' : (if format.length = 0 then w.DefaultImageSaveFormat else format) = "qcow2" := hq
      simp only [hq, hq', if_true]
      rfl
    · have hq' : ¬ (if format.length = 0 then w.DefaultImageSaveFormat else format) = "qcow2" :=
        hq
      simp only [hq, hq', if_false]
      rfl

/-- C18, witness: `compress` is true and the request names the format `raw`; the disk is
converted to vmdk. -/
theorem saveToGlance_convert_witness :
    (saveToGlance (quietExport "cache-1") [] "img-1" "/tmp/img-1" true "raw").1.filter
      ExportOp.isConvert = [ExportOp.convert2Vmdk "/tmp/img-1" true] :=
  (saveToGlance_convert (quietExport "cache-1") "img-1" "/tmp/img-1" true "raw"
    (fun _ _ => rfl)).2

/-! ## C19: the uploaded metadata -/

/-- The entries `os_version`, `os_arch` and `os_language` of the uploaded metadata:
`os_version` and `os_arch` are present exactly when release information is present and the
version, respectively the architecture, is not empty; `os_language` is present exactly when
release information is present and the version is not empty, and then holds the language,
empty or not. -/
theorem uploadParams_entries (ret : SaveToGlanceResponse) (imageId : String) :
    getParam (uploadParams ret imageId) "os_version" =
        (match ret.ReleaseInfo with
         | some rel => if rel.Version.length > 0 then some rel.Version else none
         | none => none) ∧
      getParam (uploadParams ret imageId) "os_arch" =
        (match ret.ReleaseInfo with
         | some rel => if rel.Arch.length > 0 then some rel.Arch else none
         | none => none) ∧
      getParam (uploadParams ret imageId) "os_language" =
        (match ret.ReleaseInfo with
         | some rel => if rel.Version.length > 0 then some rel.Language else none
         | none => none) := by
  rcases ret with ⟨osInfo, _ | rel⟩
  · by_cases h0 : osInfo.length > 0 <;>
      simp [uploadParams, setParam, getParam, h0, List.find?_cons, List.filter_cons]
  · by_cases h0 : osInfo.length > 0 <;> by_cases h1 : rel.Version.length > 0 <;>
      by_cases h2 : rel.Arch.length > 0 <;>
      simp [uploadParams, setParam, getParam, h0, h1, h2, List.find?_cons, List.filter_cons,
        List.find?_append]

/-- C19: the code at the failing inputs. With the language `en_US` available and the
version empty, the uploaded metadata has no `os_language`; with the version `7.6` and the
language empty, it has `os_language` with the empty value. `os_version` and `os_arch`
follow the version and the architecture. -/
theorem uploadParams_language :
    getParam (uploadParams (centosResponse "" "x86_64" "en_US") "img-1") "os_language" =
        none ∧
      getParam (uploadParams (centosResponse "7.6" "" "") "img-1") "os_language" = some "" ∧
      getParam (uploadParams (centosResponse "7.6" "" "") "img-1") "os_version" =
        some "7.6" ∧
      getParam (uploadParams (centosResponse "7.6" "" "") "img-1") "os_arch" = none ∧
      ExportOp.upload (uploadParams (quietExport "cache-1").deploy "img-1") 1024 ∈
        (saveToGlance (quietExport "cache-1") [] "img-1" "/tmp/img-1" true "").1 := by
  decide

/-! ## C20: the lock of the disk cache -/

/-- C20, counterexample: `GetDiskById("d1")` on the empty pool, the file being there. The
probe of the new handle is made after `Lock` and before `Unlock`. -/
theorem GetDiskById_lock_counterexample :
    examplePool.GetDiskByIdEvents quietWorld "d1" =
        [CacheEvent.lock, CacheEvent.scan,
         CacheEvent.probe { addr := 0, Id := "d1", StoragePath := "/data/pool0" },
         CacheEvent.append { addr := 0, Id := "d1", StoragePath := "/data/pool0" },
         CacheEvent.unlock] ∧
      probesWhileLocked false (examplePool.GetDiskByIdEvents quietWorld "d1") =
        [{ addr := 0, Id := "d1", StoragePath := "/data/pool0" }] := by
  decide

/-- C20 (amended): `CreateDisk` holds the lock only around the append and probes nothing.
`GetDiskById` takes the lock on entry and releases it at the return; in between it scans
the cache, makes its one probe, the same the call trace of `GetDiskById` shows, and
appends the new handle if there is one: the probe is made while the lock is held, and no
probe is made while it is free. -/
theorem GetDiskById_lock (s : SLocalStorage) (w : World) (diskId : String) :
    s.CreateDiskEvents diskId =
        [CacheEvent.lock, CacheEvent.append (s.CreateDisk diskId).1, CacheEvent.unlock] ∧
      probesWhileLocked false (s.CreateDiskEvents diskId) = [] ∧
      probesWhileFree false (s.CreateDiskEvents diskId) = [] ∧
      (∃ mid, s.GetDiskByIdEvents w diskId = CacheEvent.lock :: (mid ++ [CacheEvent.unlock]) ∧
        CacheEvent.lock ∉ mid ∧ CacheEvent.unlock ∉ mid) ∧
      probesWhileLocked false (s.GetDiskByIdEvents w diskId) =
        (s.GetDiskById w diskId).trace.filterMap Op.probed ∧
      (probesWhileLocked false (s.GetDiskByIdEvents w diskId)).length = 1 ∧
      probesWhileFree false (s.GetDiskByIdEvents w diskId) = [] := by
  refine ⟨rfl, rfl, rfl, ?_, ?_, ?_, ?_⟩
  · unfold SLocalStorage.GetDiskByIdEvents
    cases hd : s.Disks.find? (fun d => d.Id = diskId) with
    | some d => exact ⟨_, rfl, by simp, by simp⟩
    | none =>
      simp only []
      split
      · exact ⟨_, rfl, by simp, by simp⟩
      · exact ⟨_, rfl, by simp, by simp⟩
  · unfold SLocalStorage.GetDiskByIdEvents SLocalStorage.GetDiskById
    cases hd : s.Disks.find? (fun d => d.Id = diskId) with
    | some d => simp [probesWhileLocked, World.call, Op.probed]
    | none =>
      simp only []
      split <;> simp [probesWhileLocked, World.call, Op.probed]
  · unfold SLocalStorage.GetDiskByIdEvents
    cases hd : s.Disks.find? (fun d => d.Id = diskId) with
    | some d => simp [probesWhileLocked]
    | none =>
      simp only []
      split <;> simp [probesWhileLocked]
  · unfold SLocalStorage.GetDiskByIdEvents
    cases hd : s.Disks.find? (fun d => d.Id = diskId) with
    | some d => simp [probesWhileFree]
    | none =>
      simp only []
      split <;> simp [probesWhileFree]

/-! ## C21: user tags and system tags of Aliyun resources -/

theorem getParam_setParam (m : List (String × String)) (k v k2 : String) :
    getParam (setParam m k v) k2 = if k2 = k then some v else getParam m k2 := by
  unfold getParam setParam
  rw [List.find?_append]
  by_cases h : k2 = k
  · subst h
    have hnone : List.find? (fun kv => decide (kv.1 = k2))
        (List.filter (fun kv => decide (kv.1 ≠ k2)) m) = none := by
      rw [List.find?_eq_none]
      intro kv hkv
      have := (List.mem_filter.1 hkv).2
      simpa using this
    simp [hnone]
  · have hkeep : List.find? (fun kv => decide (kv.1 = k2))
        (List.filter (fun kv => decide (kv.1 ≠ k)) m) =
        List.find? (fun kv => decide (kv.1 = k2)) m := by
      rw [List.find?_filter]
      congr 1
      funext a
      by_cases ha : a.1 = k2
      · have h1 : ¬ a.1 = k := fun h2 => h (ha.symm.trans h2)
        simp [ha, h1, h]
      · simp [ha]
    have hne : ¬ k = k2 := fun h2 => h h2.symm
    rw [hkeep, if_neg h]
    cases List.find? (fun kv => decide (kv.1 = k2)) m with
    | some kv => simp
    | none => simp [List.find?_cons, hne]

theorem getParam_putTag (m : List (String × String)) (tag : STag) (k : String)
    (h : (getParam (putTag m tag) k).isSome = true) :
    (getParam m k).isSome = true ∨ tag.reportedKey = some k := by
  unfold putTag at h
  unfold STag.reportedKey
  by_cases h1 : tag.TagKey.length > 0
  · rw [if_pos h1] at h
    rw [if_pos h1]
    rw [getParam_setParam] at h
    by_cases hk : k = tag.TagKey
    · exact Or.inr (by rw [hk])
    · rw [if_neg hk] at h
      exact Or.inl h
  · rw [if_neg h1] at h
    rw [if_neg h1]
    by_cases h2 : tag.Key.length > 0
    · rw [if_pos h2] at h
      rw [if_pos h2]
      rw [getParam_setParam] at h
      by_cases hk : k = tag.Key
      · exact Or.inr (by rw [hk])
      · rw [if_neg hk] at h
        exact Or.inl h
    · rw [if_neg h2] at h
      exact Or.inl h

/-- A key of the map of `GetTags` comes from an entry the loop did not pass over. -/
theorem GetTags_key_source (l : List STag) (acc : List (String × String)) (k : String)
    (h : (getParam (l.foldl
      (fun ret tag => if skippedByGetTags tag = true then ret else putTag ret tag) acc)
      k).isSome = true) :
    (getParam acc k).isSome = true ∨
      ∃ tag ∈ l, skippedByGetTags tag = false ∧ tag.reportedKey = some k := by
  induction l generalizing acc with
  | nil => exact Or.inl h
  | cons tag rest ih =>
    simp only [List.foldl_cons] at h
    rcases ih _ h with h1 | ⟨t, ht, hs, hk⟩
    · by_cases hskip : skippedByGetTags tag = true
      · rw [if_pos hskip] at h1
        exact Or.inl h1
      · rw [if_neg hskip] at h1
        rcases getParam_putTag acc tag k h1 with h2 | h2
        · exact Or.inl h2
        · exact Or.inr ⟨tag, List.mem_cons_self _ _, by simpa using hskip, h2⟩
    · exact Or.inr ⟨t, List.mem_cons_of_mem _ ht, hs, hk⟩

/-- A key of the map of `GetSysTags` comes from an entry the loop took. -/
theorem GetSysTags_key_source (l : List STag) (acc : List (String × String)) (k : String)
    (h : (getParam (l.foldl
      (fun ret tag => if takenByGetSysTags tag = true then putTag ret tag else ret) acc)
      k).isSome = true) :
    (getParam acc k).isSome = true ∨
      ∃ tag ∈ l, takenByGetSysTags tag = true ∧ tag.reportedKey = some k := by
  induction l generalizing acc with
  | nil => exact Or.inl h
  | cons tag rest ih =>
    simp only [List.foldl_cons] at h
    rcases ih _ h with h1 | ⟨t, ht, hs, hk⟩
    · by_cases htake : takenByGetSysTags tag = true
      · rw [if_pos htake] at h1
        rcases getParam_putTag acc tag k h1 with h2 | h2
        · exact Or.inl h2
        · exact Or.inr ⟨tag, List.mem_cons_self _ _, htake, h2⟩
      · rw [if_neg htake] at h1
        exact Or.inl h1
    · exact Or.inr ⟨t, List.mem_cons_of_mem _ ht, hs, hk⟩

/-- Apart from the test on the end of `Key`, the two maps share no key: when for every
entry `Key` ends in `aliyun` exactly if it starts with it, and every entry fills only one
of `TagKey` and `Key`, no key is in the map of `GetTags` and in the map of `GetSysTags`. -/
theorem AliyunTags_disjoint_keys (self : AliyunTags)
    (hsuffix : ∀ tag ∈ self.Tag, HasSuffix tag.Key "aliyun" = HasPrefix tag.Key "aliyun")
    (hone : ∀ tag ∈ self.Tag, tag.TagKey = "" ∨ tag.Key = "") (k : String) :
    ¬ ((getParam self.GetTags k).isSome = true ∧ (getParam self.GetSysTags k).isSome = true) := by
  rintro ⟨hu, hs⟩
  have hempty : ∀ key, (getParam ([] : List (String × String)) key).isSome = false :=
    fun _ => rfl
  rcases GetTags_key_source self.Tag [] k hu with h | ⟨t1, ht1, hskip, hk1⟩
  · rw [hempty] at h; exact Bool.noConfusion h
  rcases GetSysTags_key_source self.Tag [] k hs with h | ⟨t2, ht2, htake, hk2⟩
  · rw [hempty] at h; exact Bool.noConfusion h
  -- the key has no system prefix, because the entry of `GetTags` has none
  have hkfree : HasPrefix k "aliyun" = false ∧ HasPrefix k "acs:" = false := by
    simp only [skippedByGetTags, hsuffix t1 ht1, Bool.or_eq_false_iff] at hskip
    unfold STag.reportedKey at hk1
    by_cases h1 : t1.TagKey.length > 0
    · rw [if_pos h1] at hk1
      have : t1.TagKey = k := Option.some.inj hk1
      rw [← this]
      exact ⟨hskip.1.1.1, hskip.1.1.2⟩
    · rw [if_neg h1] at hk1
      by_cases h2 : t1.Key.length > 0
      · rw [if_pos h2] at hk1
        have : t1.Key = k := Option.some.inj hk1
        rw [← this]
        exact ⟨hskip.1.2, hskip.2⟩
      · rw [if_neg h2] at hk1
        exact Option.noConfusion hk1
  -- the entry of `GetSysTags` has one, on the field that is its key
  have he1 : HasPrefix "" "aliyun" = false := by decide
  have he2 : HasPrefix "" "acs:" = false := by decide
  simp only [takenByGetSysTags, Bool.or_eq_true] at htake
  unfold STag.reportedKey at hk2
  rcases hone t2 ht2 with h0 | h0
  · have hlen : ¬ t2.TagKey.length > 0 := by simp [h0]
    rw [if_neg hlen] at hk2
    by_cases h2 : t2.Key.length > 0
    · rw [if_pos h2] at hk2
      have hk : t2.Key = k := Option.some.inj hk2
      rw [h0, he1, he2, hk, hkfree.1, hkfree.2] at htake
      simp at htake
    · rw [if_neg h2] at hk2
      exact Option.noConfusion hk2
  · by_cases h1 : t2.TagKey.length > 0
    · rw [if_pos h1] at hk2
      have hk : t2.TagKey = k := Option.some.inj hk2
      rw [h0, he1, he2, hk, hkfree.1, hkfree.2] at htake
      simp at htake
    · rw [if_neg h1] at hk2
      have hlen : ¬ t2.Key.length > 0 := by simp [h0]
      rw [if_neg hlen] at hk2
      exact Option.noConfusion hk2

/-- C21: the code at the failing input. The entry with `Key = "aliyun:foo"` starts with
`aliyun` and is taken by `GetSysTags`; it does not end in `aliyun`, so `GetTags` does not
pass over it and reports it too: the key is in both maps. -/
theorem AliyunTags_system_tag_in_both :
    HasPrefix "aliyun:foo" "aliyun" = true ∧
      HasSuffix "aliyun:foo" "aliyun" = false ∧
      aliyunSystemTag.GetSysTags = [("aliyun:foo", "v")] ∧
      aliyunSystemTag.GetTags = [("aliyun:foo", "v")] ∧
      (getParam aliyunSystemTag.GetTags "aliyun:foo").isSome = true ∧
      (getParam aliyunSystemTag.GetSysTags "aliyun:foo").isSome = true := by
  decide

end Storageman
